import Mathlib

/-!
# Verification of the image-viewer rendering core (`src/iv/ivgl.cpp`)

Shallow embedding of the coordinate transform, the tile cache, the pixel
statistics, the viewport state, the tile loop of `paintGL`, the texture formats, the
shader pipeline, the mouse handlers and the pixel inspector of `ivgl.cpp`, followed by
the theorems about them.

Conventions of the embedding:
* C++ `int` is `Int`; the extents and counts handled here stay far below `2^31`.
* C++ `float` / `double` quantities are exact rationals (`ℚ`): rounding is outside the
  model. Infinities and NaN occur as sample and pixel values only, in the type `FloatVal`.
* Reference (in/out) parameters become fields of a record that the function returns.
* Calls into OpenGL and into the image library are recorded as events or taken as
  parameters.
-/

namespace IvGL

/-! ## Orientation -/

/-- The in/out reference parameters of `handle_orientation`:
`scale_x`, `scale_y`, `rotate_z`, `point_x`, `point_y`. -/
structure Orient where
  scale_x : ℚ
  scale_y : ℚ
  rotate_z : ℚ
  point_x : ℚ
  point_y : ℚ
deriving DecidableEq, Repr

/-- Embedding of `handle_orientation` (ivgl.cpp 509-573): one branch per `case` of the
`switch`, each assignment in source order; `--point` is `point - 1`. -/
def handle_orientation (orientation width height : Int) (s : Orient) (pixel : Bool) : Orient :=
  if orientation = 2 then
    -- flipped horizontally
    let px := (width : ℚ) - s.point_x
    { s with scale_x := -1, point_x := if pixel then px - 1 else px }
  else if orientation = 3 then
    -- bottom up, right to left (rotated 180)
    let px := (width : ℚ) - s.point_x
    let py := (height : ℚ) - s.point_y
    { s with scale_x := -1, scale_y := -1,
             point_x := if pixel then px - 1 else px,
             point_y := if pixel then py - 1 else py }
  else if orientation = 4 then
    -- flipped vertically
    let py := (height : ℚ) - s.point_y
    { s with scale_y := -1, point_y := if pixel then py - 1 else py }
  else if orientation = 5 then
    -- transposed: std::swap(point_x, point_y)
    { s with scale_x := -1, rotate_z := 90, point_x := s.point_y, point_y := s.point_x }
  else if orientation = 6 then
    -- rotated 90 cw: swap, then point_y = height - point_y
    let py := (height : ℚ) - s.point_x
    { s with rotate_z := -270, point_x := s.point_y,
             point_y := if pixel then py - 1 else py }
  else if orientation = 7 then
    -- transverse: swap, then reflect both
    let px := (width : ℚ) - s.point_y
    let py := (height : ℚ) - s.point_x
    { s with scale_x := -1, rotate_z := -90,
             point_x := if pixel then px - 1 else px,
             point_y := if pixel then py - 1 else py }
  else if orientation = 8 then
    -- rotated 90 ccw: swap, then point_x = width - point_x
    let px := (width : ℚ) - s.point_y
    { s with rotate_z := -90,
             point_x := if pixel then px - 1 else px,
             point_y := s.point_x }
  else
    -- case 1, case 0, default
    s

/-- The locals `scale_x = 1, scale_y = 1, rotate_z = 0` together with the point, as every
caller (`paintGL`, `paint_pixelview`, `update_area_probe_text`) sets them up before the
call. -/
def orient_init (x y : ℚ) : Orient :=
  { scale_x := 1, scale_y := 1, rotate_z := 0, point_x := x, point_y := y }

/-- Number of counter-clockwise quarter turns (0..3) of an angle in degrees that is a
multiple of 90. -/
def quarter_turns (deg : ℚ) : Int := ⌊deg / 90⌋ % 4

/-- Effect of `glRotatef(deg, 0, 0, 1)` on the x/y part of a vertex, for `deg` a multiple of
90: counter-clockwise rotation about z, `(x, y) ↦ (x cos - y sin, x sin + y cos)`. -/
def gl_rotate_z (deg : ℚ) (v : ℚ × ℚ) : ℚ × ℚ :=
  let k := quarter_turns deg
  let c : ℚ := if k = 0 then 1 else if k = 2 then -1 else 0
  let sn : ℚ := if k = 1 then 1 else if k = 3 then -1 else 0
  (v.1 * c - v.2 * sn, v.1 * sn + v.2 * c)

/-- Effect of `glScalef(sx, sy, 1)` on the x/y part of a vertex. -/
def gl_scale (sx sy : ℚ) (v : ℚ × ℚ) : ℚ × ℚ := (sx * v.1, sy * v.2)

/-- The orientation part of the model-view matrix built by `paintGL` (ivgl.cpp 606-617):
`glScalef(scale_x, scale_y, 1); glRotatef(rotate_z, 0, 0, 1);
glTranslatef(-real_centerx, -real_centery, 0)`, applied to the image-space vertex `v`.
OpenGL post-multiplies, so the translation acts first and the scale last. -/
def paintGL_orient (orientation width height : Int) (m_centerx m_centery : ℚ)
    (v : ℚ × ℚ) : ℚ × ℚ :=
  let o := handle_orientation orientation width height (orient_init m_centerx m_centery) false
  gl_scale o.scale_x o.scale_y
    (gl_rotate_z o.rotate_z (v.1 - o.point_x, v.2 - o.point_y))

/-- The inverse tag of an orientation: the two quarter-turn rotations (6 and 8) are inverse
to each other, every other tag is its own inverse. -/
def inverse_tag (orientation : Int) : Int :=
  if orientation = 6 then 8 else if orientation = 8 then 6 else orientation

/-- The inverse transform of a tag: `handle_orientation` for the inverse tag, acting on the
oriented image, whose width and height are exchanged when the tag swaps the axes
(tags 5..8). -/
def handle_orientation_inverse (orientation width height : Int) (s : Orient)
    (pixel : Bool) : Orient :=
  if 5 ≤ orientation ∧ orientation ≤ 8 then
    handle_orientation (inverse_tag orientation) height width s pixel
  else
    handle_orientation orientation width height s pixel

/-- Tags whose transform reflects the x coordinate (`point_x = width - point_x`). -/
def reflects_x (orientation : Int) : Bool :=
  orientation = 2 || orientation = 3 || orientation = 7 || orientation = 8

/-- Tags whose transform reflects the y coordinate (`point_y = height - point_y`). -/
def reflects_y (orientation : Int) : Bool :=
  orientation = 3 || orientation = 4 || orientation = 6 || orientation = 7

/-- Tags whose transform exchanges the coordinates (`std::swap(point_x, point_y)`). -/
def swaps_axes (orientation : Int) : Bool :=
  orientation = 5 || orientation = 6 || orientation = 7 || orientation = 8

/-! ## Tile cache -/

/-- Modelled from the spec: `OIIO::clamp` (fmath.h) is not among the sources; the spec
calls it clamping to the bounds `[low, high]`: a value below `low` becomes `low`, a value
above `high` becomes `high`. -/
def clamp (a low high : Int) : Int :=
  let val := if low ≤ a then a else low
  if val > high then high else val

/-- The enumeration `ImageViewer::COLOR_MODE`. -/
inductive COLOR_MODE where
  | RGBA
  | RGB
  | SINGLE_CHANNEL
  | LUMINANCE
  | HEATMAP
deriving DecidableEq, Repr

/-- Embedding of `num_channels` (ivgl.cpp 766-780). The `default` branch of the `switch`
is not reachable for a value of the enumeration. -/
def num_channels (current_channel nchannels : Int) (color_mode : COLOR_MODE) : Int :=
  match color_mode with
  | .RGBA => clamp (nchannels - current_channel) 0 4
  | .RGB => clamp (nchannels - current_channel) 0 3
  | .LUMINANCE => clamp (nchannels - current_channel) 0 3
  | .SINGLE_CHANNEL => 1
  | .HEATMAP => 1

/-- One record of `m_texbufs` (`TexBuffer`): the GL texture object and the image region
the texture holds. -/
structure TexBuffer where
  tex_object : Nat
  x : Int
  y : Int
  width : Int
  height : Int
deriving DecidableEq, Repr

/-- The calls `load_texture` makes that leave the object: the GL calls, the cursor change
and the pixel fetch `get_pixels` on the image (with the region of interest; the channel
range is `none` where the source leaves it at the default of `ROI`). -/
inductive Event where
  | glBindTexture (tex_object : Nat)
  | setCursor_WaitCursor
  | get_pixels (xbegin xend ybegin yend : Int) (channels : Option (Int × Int))
  | glBindBuffer (buffer : Nat)
  | glBufferData (size : Int)
  | glTexSubImage2D (width height : Int)
deriving DecidableEq, Repr

/-- The members of `IvGL` that `load_texture` reads or writes, with the values it reads
from the viewer and from the image spec. -/
structure Cache where
  m_texbufs : List TexBuffer
  m_last_texbuf_used : Nat
  m_last_pbo_used : Nat
  m_pbo_objects : Nat → Nat
  m_use_shaders : Bool
  /-- Field `spec.nchannels` of the current image. -/
  spec_nchannels : Int
  /-- Result of `spec.format.size()` for the current image. -/
  spec_format_size : Int
  /-- Result of `m_viewer.current_channel()`. -/
  current_channel : Int
  /-- Result of `m_viewer.current_color_mode()`. -/
  current_color_mode : COLOR_MODE

/-- The test of the scan loop of `load_texture`:
`tb.x == x && tb.y == y && tb.width >= width && tb.height >= height`. -/
def tile_covers (tb : TexBuffer) (x y width height : Int) : Bool :=
  decide (tb.x = x) && decide (tb.y = y) && decide (tb.width ≥ width)
    && decide (tb.height ≥ height)

/-- Conversion `uint64_t(n)` of an `int`. -/
def to_uint64 (n : Int) : Int := n % 2 ^ 64

/-- Embedding of `IvGL::load_texture` (ivgl.cpp 2281-2345). The result is the new state
and the calls made, in order; it is `none` where the source indexes `m_texbufs` out of
range. `print_error` only reads the GL error flag and is left out. -/
def load_texture (s : Cache) (x y width height : Int) : Option (Cache × List Event) :=
  -- Find if this has already been loaded.
  match s.m_texbufs.find? (fun tb => tile_covers tb x y width height) with
  | some tb => some (s, [Event.glBindTexture tb.tex_object])
  | none =>
    let nchannels :=
      if s.m_use_shaders then
        num_channels s.current_channel s.spec_nchannels s.current_color_mode
      else s.spec_nchannels
    match s.m_texbufs[s.m_last_texbuf_used]? with
    | none => none
    | some tb =>
      let tb1 : TexBuffer := { tb with x := x, y := y, width := width, height := height }
      let fetch :=
        if !s.m_use_shaders then
          Event.get_pixels x (x + width) y (y + height) none
        else
          Event.get_pixels x (x + width) y (y + height)
            (some (s.current_channel, s.current_channel + nchannels))
      some ({ s with
                m_texbufs := s.m_texbufs.set s.m_last_texbuf_used tb1
                m_last_pbo_used := (s.m_last_pbo_used + 1) &&& 1
                m_last_texbuf_used := (s.m_last_texbuf_used + 1) % s.m_texbufs.length },
            [Event.setCursor_WaitCursor,
             fetch,
             Event.glBindBuffer (s.m_pbo_objects s.m_last_pbo_used),
             Event.glBufferData
               ((to_uint64 width * to_uint64 height * to_uint64 nchannels
                  * to_uint64 s.spec_format_size) % 2 ^ 64),
             Event.glBindTexture tb.tex_object,
             Event.glTexSubImage2D width height,
             Event.glBindBuffer 0])

/-- A requested region `(x, y, width, height)`. -/
structure Region where
  x : Int
  y : Int
  width : Int
  height : Int
deriving DecidableEq, Repr

/-- Successive calls of `load_texture`, one per region, in order; the calls made are
concatenated. -/
def load_textures (s : Cache) : List Region → Option (Cache × List Event)
  | [] => some (s, [])
  | r :: rs =>
    match load_texture s r.x r.y r.width r.height with
    | none => none
    | some (s1, ev1) =>
      match load_textures s1 rs with
      | none => none
      | some (s2, ev2) => some (s2, ev1 ++ ev2)

/-- Whether a call is a pixel fetch. -/
def Event.is_fetch : Event → Bool
  | .get_pixels _ _ _ _ _ => true
  | _ => false

/-- Whether a call uploads pixel data (`glBufferData`, `glTexSubImage2D`). -/
def Event.is_upload : Event → Bool
  | .glBufferData _ => true
  | .glTexSubImage2D _ _ => true
  | _ => false

/-- Number of pixel fetches among the calls. -/
def fetches (evs : List Event) : Nat := evs.countP Event.is_fetch

/-- Number of upload calls among the calls. -/
def uploads (evs : List Event) : Nat := evs.countP Event.is_upload

/-- The texture objects bound by the calls, in order. -/
def bound_textures : List Event → List Nat
  | [] => []
  | .glBindTexture t :: evs => t :: bound_textures evs
  | _ :: evs => bound_textures evs

/-- The loop over `m_texbufs` in `IvGL::update` (ivgl.cpp 1663-1671): every record gets
`width = 0` and `height = 0`; origin and texture object stay. -/
def update_texbufs (tbs : List TexBuffer) : List TexBuffer :=
  tbs.map (fun tb => { tb with width := 0, height := 0 })

/-- The records that `IvGL::create_textures` (ivgl.cpp 151-171) puts into `m_texbufs`,
one per generated texture name: origin and extent all zero. -/
def create_textures_texbufs (textures : List Nat) : List TexBuffer :=
  textures.map (fun texture =>
    { tex_object := texture, x := 0, y := 0, width := 0, height := 0 })

/-- A cache as it is after the constructor and `create_textures` with the texture names
1..4 (`total_texbufs = 4`), for a four-channel 8-bit image shown in RGBA mode with
shaders. -/
def example_cache : Cache :=
  { m_texbufs := create_textures_texbufs [1, 2, 3, 4]
    m_last_texbuf_used := 0
    m_last_pbo_used := 0
    m_pbo_objects := fun i => 10 + i
    m_use_shaders := true
    spec_nchannels := 4
    spec_format_size := 1
    current_channel := 0
    current_color_mode := COLOR_MODE.RGBA }

/-- The record that a cache miss for region `r` leaves in the slot that held `tb`
(`tb.x = x; tb.y = y; tb.width = width; tb.height = height`). -/
def TexBuffer.retarget (tb : TexBuffer) (r : Region) : TexBuffer :=
  { tb with x := r.x, y := r.y, width := r.width, height := r.height }

/-- The tile records and the round-robin index after a run of cache misses, one per
region: each miss rewrites the slot at the index and advances the index modulo the number
of slots. -/
def fill_tiles : List TexBuffer → Nat → List Region → List TexBuffer × Nat
  | tbs, i, [] => (tbs, i)
  | tbs, i, r :: rs =>
    match tbs[i]? with
    | none => (tbs, i)
    | some tb => fill_tiles (tbs.set i (tb.retarget r)) ((i + 1) % tbs.length) rs

/-- The record `tb` holds exactly the region `r`. -/
def TexBuffer.holds (tb : TexBuffer) (r : Region) : Prop :=
  tb.x = r.x ∧ tb.y = r.y ∧ tb.width = r.width ∧ tb.height = r.height

/-- Four regions with pairwise distinct origins and positive extents, all with an origin
other than `(0, 0)`. -/
def example_regions : List Region :=
  [⟨64, 0, 64, 64⟩, ⟨0, 64, 64, 64⟩, ⟨64, 64, 64, 64⟩, ⟨128, 0, 32, 64⟩]

/-! ## Pixel statistics -/

/-- The pixels `(x, y)` with `x0 <= x < x1` and `y0 <= y < y1` in raster order (rows
outermost, `x` innermost), the order of `ImageBuf::ConstIterator` over a region and of the
nested `for` loops of `update_area_probe_text`. An empty range gives no pixel. -/
def raster (x0 x1 y0 y1 : Int) : List (Int × Int) :=
  (List.range (y1 - y0).toNat).flatMap (fun (j : Nat) =>
    (List.range (x1 - x0).toNat).map (fun (i : Nat) => (x0 + (i : Int), y0 + (j : Int))))

/-- The `ROI` of the image library as `paint_pixelview` constructs it, from the four bounds
`xbegin, xend, ybegin, yend` (the z range is the single plane `[0, 1)`). -/
structure ROI where
  xbegin : Int
  xend : Int
  ybegin : Int
  yend : Int
deriving DecidableEq, Repr

/-- `ChannelStatsResult<T>` for an unsigned integer sample type `T` (`unsigned char`,
`unsigned short`); a value of `T` is a natural number. -/
structure ChannelStatsResult where
  min_val : Nat
  max_val : Nat
  avg_val : Nat
deriving DecidableEq, Repr

/-- One pass of the loop body of `calculate_channel_stats` on the triple
`(min_val, max_val, sum)` for the sample `val`. -/
def stats_step (acc : Nat × Nat × Nat) (val : Nat) : Nat × Nat × Nat :=
  (min acc.1 val, max acc.2.1 val, acc.2.2 + val)

/-- Embedding of `calculate_channel_stats<T>` (ivgl.cpp 787-820) for an unsigned integer
sample type `T` with `std::numeric_limits<T>::max() = tmax` and `lowest() = 0`
(`tmax = 255` for `unsigned char`, `65535` for `unsigned short`). `img x y c` is the sample
`it[c]` that the `ImageBuf::ConstIterator<T, T>` yields at pixel `(x, y)`. The `double`
accumulator `sum` holds a sum of integers, exactly; `static_cast<T>(sum / pixel_count)`
truncates the quotient, which is the integer quotient. -/
def calculate_channel_stats (tmax : Nat) (img : Int → Int → Int → Nat) (roi : ROI)
    (channel : Int) (is_inside_data_window : Bool) : ChannelStatsResult :=
  if !is_inside_data_window then
    -- Return zeros if not inside data window
    { min_val := 0, max_val := 0, avg_val := 0 }
  else
    let pixel_count : Int := (roi.xend - roi.xbegin) * (roi.yend - roi.ybegin)
    if pixel_count ≤ 0 then
      -- ROI is empty or invalid, return zeros
      { min_val := 0, max_val := 0, avg_val := 0 }
    else
      let acc := (raster roi.xbegin roi.xend roi.ybegin roi.yend).foldl
        (fun acc p => stats_step acc (img p.1 p.2 channel)) (tmax, 0, 0)
      { min_val := acc.1, max_val := acc.2.1, avg_val := acc.2.2 / pixel_count.toNat }

/-- An 8-bit image whose sample at `(x, y)` is `x + 8 y` (modulo 256) in every channel: a
ramp from 0 to 63 over the region `[0, 8) × [0, 8)`. -/
def ramp_image (x y _c : Int) : Nat := ((x + 8 * y) % 256).toNat

/-! ## Area probe -/

/-- The members of `IvGL` and the widget size that `get_given_image_pixel` and
`update_area_probe_text` read: pan center, zoom, `width()`, `height()` and the two
corners of the selection (`QPoint`s in window pixels). -/
structure View where
  m_centerx : ℚ
  m_centery : ℚ
  m_zoom : ℚ
  width : Int
  height : Int
  m_select_start : Int × Int
  m_select_end : Int × Int

/-- What `update_area_probe_text` reads from the current image: the data window and the
channel count of `spec()`, `orientation()` and the float-converted single-pixel read
`getpixel(x, y, fpixel)`, as the function `getpixel x y c = fpixel[c]`. -/
structure IvImage where
  spec_x : Int
  spec_y : Int
  spec_width : Int
  spec_height : Int
  nchannels : Nat
  orientation : Int
  getpixel : Int → Int → Nat → ℚ

/-- Modelled from the spec: `OIIO::lerp` (fmath.h) is not among the sources; the spec says
the normalized cursor position is linearly interpolated into the visible bounds. -/
def lerp (v0 v1 x : ℚ) : ℚ := v0 * (1 - x) + v1 * x

/-- Embedding of `IvGL::get_given_image_pixel` (ivgl.cpp 2045-2068) over exact
arithmetic. -/
def get_given_image_pixel (v : View) (mouseX mouseY : Int) : Int × Int :=
  let w : ℚ := v.width
  let h : ℚ := v.height
  let z := v.m_zoom
  let left := v.m_centerx - 0.5 * w / z
  let top := v.m_centery - 0.5 * h / z
  let right := v.m_centerx + 0.5 * w / z
  let bottom := v.m_centery + 0.5 * h / z
  let normx := ((mouseX : ℚ) + 0.5) / w
  let normy := ((mouseY : ℚ) + 0.5) / h
  let imgx := lerp left right normx
  let imgy := lerp top bottom normy
  (⌊imgx⌋, ⌊imgy⌋)

/-- Conversion of a `float` to `int`: truncation toward zero. -/
def float_to_int (q : ℚ) : Int := if 0 ≤ q then ⌊q⌋ else ⌈q⌉

/-- The constant `std::numeric_limits<float>::max()`, `(2 - 2^-23) * 2^127`;
`lowest()` is its negative. -/
def FLT_MAX : ℚ := 340282346638528859811704183484516925440

/-- The accumulators of the pixel loop of `update_area_probe_text`: the vectors
`min_vals`, `max_vals`, `sums` (indexed by channel) and `count`. -/
structure ProbeAcc where
  min_vals : Nat → ℚ
  max_vals : Nat → ℚ
  sums : Nat → ℚ
  count : Int

/-- Body of the pixel loop of `update_area_probe_text` (ivgl.cpp 1828-1834) for the pixel
`p = (x, y)`: one `getpixel`, the update of every channel `c < nchannels`, `++count`. -/
def probe_step (img : IvImage) (acc : ProbeAcc) (p : Int × Int) : ProbeAcc :=
  let fpixel := img.getpixel (p.1 + img.spec_x) (p.2 + img.spec_y)
  { min_vals := fun c => if c < img.nchannels then min (acc.min_vals c) (fpixel c)
                         else acc.min_vals c
    max_vals := fun c => if c < img.nchannels then max (acc.max_vals c) (fpixel c)
                         else acc.max_vals c
    sums := fun c => if c < img.nchannels then acc.sums c + fpixel c else acc.sums c
    count := acc.count + 1 }

/-- What `update_area_probe_text` computes: the bounding box and, per channel, the three
numbers it formats into the text. -/
structure AreaProbe where
  xmin : Int
  xmax : Int
  ymin : Int
  ymax : Int
  min_vals : Nat → ℚ
  max_vals : Nat → ℚ
  avg : Nat → ℚ
  count : Int

/-- First part of `IvGL::update_area_probe_text` (ivgl.cpp 1787-1814): the bounding box
`(xmin, xmax, ymin, ymax)` of the two selection corners in image pixels. The second
`handle_orientation` call reuses the locals `scale_x`, `scale_y`, `rotate_z` as the first
call left them. -/
def area_probe_box (v : View) (img : IvImage) : Int × Int × Int × Int :=
  let p1 := get_given_image_pixel v v.m_select_start.1 v.m_select_start.2
  let p2 := get_given_image_pixel v v.m_select_end.1 v.m_select_end.2
  let o1 := handle_orientation img.orientation img.spec_width img.spec_height
    (orient_init p1.1 p1.2) true
  let o2 := handle_orientation img.orientation img.spec_width img.spec_height
    { o1 with point_x := p2.1, point_y := p2.2 } true
  let x1_img := clamp (float_to_int o1.point_x) 0 (img.spec_width - 1)
  let x2_img := clamp (float_to_int o2.point_x) 0 (img.spec_width - 1)
  let y1_img := clamp (float_to_int o1.point_y) 0 (img.spec_height - 1)
  let y2_img := clamp (float_to_int o2.point_y) 0 (img.spec_height - 1)
  (min x1_img x2_img, max x1_img x2_img, min y1_img y2_img, max y1_img y2_img)

/-- Second part of `IvGL::update_area_probe_text` (ivgl.cpp 1816-1849): the scan of the
box `for (y = ymin; y <= ymax; ++y) for (x = xmin; x <= xmax; ++x)` and the average
`(count > 0) ? sums[c] / count : 0`, up to the numbers handed to the text formatting. -/
def area_probe_scan (img : IvImage) (xmin xmax ymin ymax : Int) : AreaProbe :=
  let acc := (raster xmin (xmax + 1) ymin (ymax + 1)).foldl (probe_step img)
    { min_vals := fun _ => FLT_MAX, max_vals := fun _ => -FLT_MAX, sums := fun _ => 0,
      count := 0 }
  { xmin := xmin, xmax := xmax, ymin := ymin, ymax := ymax
    min_vals := acc.min_vals
    max_vals := acc.max_vals
    avg := fun c => if acc.count > 0 then acc.sums c / (acc.count : ℚ) else 0
    count := acc.count }

/-- Embedding of `IvGL::update_area_probe_text` (ivgl.cpp 1778-1850): the box, then the
scan of the box. -/
def update_area_probe_text (v : View) (img : IvImage) : AreaProbe :=
  let box := area_probe_box v img
  area_probe_scan img box.1 box.2.1 box.2.2.1 box.2.2.2

/-- One pass of the pixel loop of `update_area_probe_text` seen on a single channel: the
triple `(min_vals[c], max_vals[c], sums[c])` and the sample `val = fpixel[c]`. -/
def probe_channel_step (acc : ℚ × ℚ × ℚ) (val : ℚ) : ℚ × ℚ × ℚ :=
  (min acc.1 val, max acc.2.1 val, acc.2.2 + val)

/-- A view of a 200 × 200 window at zoom 1 centred on (50, 50), with a selection dragged
from window pixel (60, 60) to (90, 80). -/
def example_view : View :=
  { m_centerx := 50, m_centery := 50, m_zoom := 1, width := 200, height := 200
    m_select_start := (60, 60), m_select_end := (90, 80) }

/-- A uniform gray 100 × 100 image with 4 channels, every sample 128 of 255. -/
def gray_image : IvImage :=
  { spec_x := 0, spec_y := 0, spec_width := 100, spec_height := 100, nchannels := 4
    orientation := 1, getpixel := fun _ _ _ => 128 / 255 }

/-! ## Viewport state -/

/-- Modelled from the spec: `OIIO::clamp` (fmath.h, not among the sources) at type
`float`; clamping to the bounds `[low, high]` as for `clamp` above. -/
def clampf (a low high : ℚ) : ℚ :=
  let val := if low ≤ a then a else low
  if val > high then high else val

/-- What `clamp_view_to_window` reads from the current image: the oriented data window
(`oriented_x()`, `oriented_width()`, ...) and the oriented display window
(`oriented_full_x()`, `oriented_full_width()`, ...). -/
structure OrientedWindows where
  oriented_x : Int
  oriented_y : Int
  oriented_width : Int
  oriented_height : Int
  oriented_full_x : Int
  oriented_full_y : Int
  oriented_full_width : Int
  oriented_full_height : Int
deriving DecidableEq, Repr

/-- Embedding of `IvGL::clamp_view_to_window` (ivgl.cpp 1733-1774); `img` is
`m_current_image` (`none` for a null pointer). In the `else` branches the source adds and
halves `int`s, so the division is the truncating integer division, and the result is
converted to `float`. -/
def clamp_view_to_window (v : View) (img : Option OrientedWindows) : View :=
  match img with
  | none => v
  | some img =>
    let w := v.width
    let h := v.height
    let zoomedwidth : ℚ := v.m_zoom * img.oriented_full_width
    let zoomedheight : ℚ := v.m_zoom * img.oriented_full_height
    let xmin := min img.oriented_x img.oriented_full_x
    let xmax := max (img.oriented_x + img.oriented_width)
      (img.oriented_full_x + img.oriented_full_width)
    let ymin := min img.oriented_y img.oriented_full_y
    let ymax := max (img.oriented_y + img.oriented_height)
      (img.oriented_full_y + img.oriented_full_height)
    -- Don't let us scroll off the edges
    let centerx : ℚ :=
      if zoomedwidth ≥ (w : ℚ) then
        clampf v.m_centerx ((xmin : ℚ) + 0.5 * (w : ℚ) / v.m_zoom)
          ((xmax : ℚ) - 0.5 * (w : ℚ) / v.m_zoom)
      else
        ((img.oriented_full_x + Int.tdiv img.oriented_full_width 2 : Int) : ℚ)
    let centery : ℚ :=
      if zoomedheight ≥ (h : ℚ) then
        clampf v.m_centery ((ymin : ℚ) + 0.5 * (h : ℚ) / v.m_zoom)
          ((ymax : ℚ) - 0.5 * (h : ℚ) / v.m_zoom)
      else
        ((img.oriented_full_y + Int.tdiv img.oriented_full_height 2 : Int) : ℚ)
    { v with m_centerx := centerx, m_centery := centery }

/-- Embedding of `IvGL::view` (ivgl.cpp 1687-1696). The second component tells whether the
redraw `parent_t::update()` is requested. -/
def view (v : View) (xcenter ycenter zoom : ℚ) (redraw : Bool) : View × Bool :=
  ({ v with m_centerx := xcenter, m_centery := ycenter, m_zoom := zoom }, redraw)

/-- Embedding of `IvGL::zoom` (ivgl.cpp 1700-1704). -/
def zoom (v : View) (newzoom : ℚ) (redraw : Bool) : View × Bool :=
  view v v.m_centerx v.m_centery newzoom redraw

/-- Embedding of `IvGL::center` (ivgl.cpp 1708-1712); `viewer_zoom` is the value of
`m_viewer.zoom()`. -/
def center (v : View) (viewer_zoom : ℚ) (x y : ℚ) (redraw : Bool) : View × Bool :=
  view v x y viewer_zoom redraw

/-- Embedding of `IvGL::pan` (ivgl.cpp 1716-1720). It calls `center` with two arguments;
`redraw_default` is the default value of the third parameter in the class declaration,
which is not among the sources. -/
def pan (v : View) (viewer_zoom : ℚ) (dx dy : ℚ) (redraw_default : Bool) : View × Bool :=
  center v viewer_zoom (v.m_centerx + dx) (v.m_centery + dy) redraw_default

/-- A 100 × 100 image whose data window and display window are both
`[0, 100) × [0, 100)`. -/
def square_windows : OrientedWindows :=
  { oriented_x := 0, oriented_y := 0, oriented_width := 100, oriented_height := 100
    oriented_full_x := 0, oriented_full_y := 0
    oriented_full_width := 100, oriented_full_height := 100 }

/-- An image whose data window and display window are both `[0, 101) × [0, 101)`: an odd
extent. -/
def odd_windows : OrientedWindows :=
  { oriented_x := 0, oriented_y := 0, oriented_width := 101, oriented_height := 101
    oriented_full_x := 0, oriented_full_y := 0
    oriented_full_width := 101, oriented_full_height := 101 }

/-- A view of a 50 × 50 window at zoom 1 centred on (10, 90). -/
def small_view : View :=
  { m_centerx := 10, m_centery := 90, m_zoom := 1, width := 50, height := 50
    m_select_start := (0, 0), m_select_end := (0, 0) }

/-- A view of a 101 × 101 window at zoom 1 centred on (0, 0). -/
def odd_view : View :=
  { m_centerx := 0, m_centery := 0, m_zoom := 1, width := 101, height := 101
    m_select_start := (0, 0), m_select_end := (0, 0) }

/-- Embedding of `IvGL::get_focus_image_pixel` (ivgl.cpp 2072-2107) over exact
arithmetic; `m_mousex`, `m_mousey` are the remembered mouse position. -/
def get_focus_image_pixel (v : View) (m_mousex m_mousey : Int) : Int × Int :=
  let w : ℚ := v.width
  let h : ℚ := v.height
  let z := v.m_zoom
  let left := v.m_centerx - 0.5 * w / z
  let top := v.m_centery - 0.5 * h / z
  let right := v.m_centerx + 0.5 * w / z
  let bottom := v.m_centery + 0.5 * h / z
  let normx := ((m_mousex : ℚ) + 0.5) / w
  let normy := ((m_mousey : ℚ) + 0.5) / h
  let imgx := lerp left right normx
  let imgy := lerp top bottom normy
  (⌊imgx⌋, ⌊imgy⌋)

/-! ## paintGL: visible rectangle and tile loop -/

/-- The locals `xbegin, xend, ybegin, yend` of `paintGL`. -/
structure VisibleRect where
  xbegin : Int
  xend : Int
  ybegin : Int
  yend : Int
deriving DecidableEq, Repr

/-- Embedding of the rectangle computation of `IvGL::paintGL` (ivgl.cpp 606-643):
the oriented center `(real_centerx, real_centery)` from `handle_orientation` in
continuous mode, the half-extents `ceil(width() / (2 * m_zoom))` (exchanged for
orientations above 4), and the snap to the tile size with the C++ remainder `%`, which
truncates toward zero (`Int.tmod`). -/
def paintGL_rect (v : View) (img : IvImage) (m_texture_width m_texture_height : Int) :
    VisibleRect :=
  let o := handle_orientation img.orientation img.spec_width img.spec_height
    (orient_init v.m_centerx v.m_centery) false
  let real_centerx := o.point_x
  let real_centery := o.point_y
  -- Image pixels shown from the center to the edge of the window.
  let wincenterx0 : Int := ⌈(v.width : ℚ) / (2 * v.m_zoom)⌉
  let wincentery0 : Int := ⌈(v.height : ℚ) / (2 * v.m_zoom)⌉
  let wincenterx := if img.orientation > 4 then wincentery0 else wincenterx0
  let wincentery := if img.orientation > 4 then wincenterx0 else wincentery0
  let xbegin0 : Int := ⌊real_centerx⌋ - wincenterx
  let xbegin := max img.spec_x (xbegin0 - Int.tmod xbegin0 m_texture_width)
  let ybegin0 : Int := ⌊real_centery⌋ - wincentery
  let ybegin := max img.spec_y (ybegin0 - Int.tmod ybegin0 m_texture_height)
  let xend0 : Int := ⌊real_centerx⌋ + wincenterx
  let xend := min (img.spec_x + img.spec_width)
    (xend0 + m_texture_width - Int.tmod xend0 m_texture_width)
  let yend0 : Int := ⌊real_centery⌋ + wincentery
  let yend := min (img.spec_y + img.spec_height)
    (yend0 + m_texture_height - Int.tmod yend0 m_texture_height)
  { xbegin := xbegin, xend := xend, ybegin := ybegin, yend := yend }

/-- The values the loop variable takes in `for (start = begin; start < stop; start += step)`,
in order, for at most `fuel` passes. -/
def loop_starts : Nat → Int → Int → Int → List Int
  | 0, _, _, _ => []
  | fuel + 1, start, stop, step =>
    if start < stop then start :: loop_starts fuel (start + step) stop step else []

/-- One pass of the tile loop of `paintGL`: the arguments of `load_texture` and the
texture coordinates passed to `gl_rect`. -/
structure TileDraw where
  xstart : Int
  ystart : Int
  tile_width : Int
  tile_height : Int
  smin : ℚ
  tmin : ℚ
  smax : ℚ
  tmax : ℚ
deriving DecidableEq, Repr

/-- The region requested by `load_texture(xstart, ystart, tile_width, tile_height)`. -/
def TileDraw.region (c : TileDraw) : Region :=
  { x := c.xstart, y := c.ystart, width := c.tile_width, height := c.tile_height }

/-- The pixel `(x, y)` lies in the quad
`[xstart, xstart + tile_width) × [ystart, ystart + tile_height)` of the pass. -/
def TileDraw.has_pixel (c : TileDraw) (x y : Int) : Prop :=
  (c.xstart ≤ x ∧ x < c.xstart + c.tile_width) ∧
  (c.ystart ≤ y ∧ y < c.ystart + c.tile_height)

/-- Embedding of the tile loop of `IvGL::paintGL` (ivgl.cpp 652-669): the passes in the
order they run, rows outermost. The fuel of each loop is the extent of the rectangle,
which suffices for a tile size of at least 1. -/
def paintGL_tiles (r : VisibleRect) (m_texture_width m_texture_height : Int) :
    List TileDraw :=
  (loop_starts (r.yend - r.ybegin).toNat r.ybegin r.yend m_texture_height).flatMap
    (fun ystart =>
      (loop_starts (r.xend - r.xbegin).toNat r.xbegin r.xend m_texture_width).map
        (fun xstart =>
          let tile_width := min (r.xend - xstart) m_texture_width
          let tile_height := min (r.yend - ystart) m_texture_height
          { xstart := xstart, ystart := ystart
            tile_width := tile_width, tile_height := tile_height
            smin := 0, tmin := 0
            smax := (tile_width : ℚ) / (m_texture_width : ℚ)
            tmax := (tile_height : ℚ) / (m_texture_height : ℚ) }))

/-- The `load_texture` calls of one run of the tile loop of `paintGL` on the cache `s`. -/
def paintGL_load (s : Cache) (r : VisibleRect) (m_texture_width m_texture_height : Int) :
    Option (Cache × List Event) :=
  load_textures s ((paintGL_tiles r m_texture_width m_texture_height).map TileDraw.region)

/-- An image with 4 channels whose 256 × 256 data window starts at the negative origin
`(-64, -64)`. -/
def overscan_image : IvImage :=
  { spec_x := -64, spec_y := -64, spec_width := 256, spec_height := 256, nchannels := 4
    orientation := 1, getpixel := fun _ _ _ => 0 }

/-- A view of a 100 × 100 window at zoom 1 centred on (0, 0). -/
def origin_view : View :=
  { m_centerx := 0, m_centery := 0, m_zoom := 1, width := 100, height := 100
    m_select_start := (0, 0), m_select_end := (0, 0) }

/-- Two runs of the tile loop of `paintGL` for the same rectangle, one after the other:
the number of pixel fetches of the second run, and whether the second run left the tile
records and the round-robin index as the first run left them. -/
def paintGL_load_twice (s : Cache) (r : VisibleRect) (m_texture_width m_texture_height : Int) :
    Option (Nat × Bool) :=
  match paintGL_load s r m_texture_width m_texture_height with
  | none => none
  | some (s1, _) =>
    match paintGL_load s1 r m_texture_width m_texture_height with
    | none => none
    | some (s2, ev2) =>
      some (fetches ev2,
        decide (s2.m_texbufs = s1.m_texbufs ∧ s2.m_last_texbuf_used = s1.m_last_texbuf_used))

/-! ## Texture format selection -/

/-- The enumeration `TypeDesc::BASETYPE` of the image library. -/
inductive BASETYPE where
  | UNKNOWN
  | NONE
  | UINT8
  | INT8
  | UINT16
  | INT16
  | UINT
  | INT
  | UINT64
  | INT64
  | HALF
  | FLOAT
  | DOUBLE
  | STRING
  | PTR
deriving DecidableEq, Repr

/-- The `GLenum` values that `typespec_to_opengl` assigns, by name; `components n` is the
number `n` stored by `glinternalformat = nchannels` (the legacy internal formats 1..4,
which are not the value of any named constant here). -/
inductive GLenum where
  | GL_INVALID_ENUM
  | GL_FLOAT
  | GL_HALF_FLOAT_ARB
  | GL_INT
  | GL_UNSIGNED_INT
  | GL_SHORT
  | GL_UNSIGNED_SHORT
  | GL_BYTE
  | GL_UNSIGNED_BYTE
  | GL_LUMINANCE
  | GL_LUMINANCE_ALPHA
  | GL_RGB
  | GL_RGBA
  | GL_SLUMINANCE8
  | GL_SLUMINANCE
  | GL_LUMINANCE8
  | GL_LUMINANCE16
  | GL_LUMINANCE32F_ARB
  | GL_LUMINANCE16F_ARB
  | GL_SLUMINANCE8_ALPHA8
  | GL_SLUMINANCE_ALPHA
  | GL_LUMINANCE8_ALPHA8
  | GL_LUMINANCE16_ALPHA16
  | GL_LUMINANCE_ALPHA32F_ARB
  | GL_LUMINANCE_ALPHA16F_ARB
  | GL_SRGB8
  | GL_SRGB
  | GL_RGB8
  | GL_RGB16
  | GL_RGB32F_ARB
  | GL_RGB16F_ARB
  | GL_SRGB8_ALPHA8
  | GL_SRGB_ALPHA
  | GL_RGBA8
  | GL_RGBA16
  | GL_RGBA32F_ARB
  | GL_RGBA16F_ARB
  | components (n : Int)
deriving DecidableEq, Repr

/-- The three output parameters of `typespec_to_opengl`: upload type, upload format,
internal storage format. -/
structure GLFormat where
  gltype : GLenum
  glformat : GLenum
  glinternalformat : GLenum
deriving DecidableEq, Repr

/-- Embedding of `IvGL::typespec_to_opengl` (ivgl.cpp 2172-2277). `basetype` is
`spec.format.basetype`, `issrgb` tells whether the attribute `oiio:ColorSpace` of the spec
is `sRGB`, and `m_use_srgb`, `m_use_halffloat`, `m_use_float` are the capability
members. -/
def typespec_to_opengl (m_use_srgb m_use_halffloat m_use_float : Bool)
    (basetype : BASETYPE) (issrgb : Bool) (nchannels : Int) : GLFormat :=
  let gltype : GLenum :=
    match basetype with
    | .FLOAT => GLenum.GL_FLOAT
    | .HALF => if m_use_halffloat then GLenum.GL_HALF_FLOAT_ARB else GLenum.GL_INVALID_ENUM
    | .INT => GLenum.GL_INT
    | .UINT => GLenum.GL_UNSIGNED_INT
    | .INT16 => GLenum.GL_SHORT
    | .UINT16 => GLenum.GL_UNSIGNED_SHORT
    | .INT8 => GLenum.GL_BYTE
    | .UINT8 => GLenum.GL_UNSIGNED_BYTE
    | _ => GLenum.GL_UNSIGNED_BYTE  -- punt
  if nchannels = 1 then
    { gltype := gltype, glformat := GLenum.GL_LUMINANCE
      glinternalformat :=
        if m_use_srgb && issrgb then
          if basetype = BASETYPE.UINT8 then GLenum.GL_SLUMINANCE8 else GLenum.GL_SLUMINANCE
        else if basetype = BASETYPE.UINT8 then GLenum.GL_LUMINANCE8
        else if basetype = BASETYPE.UINT16 then GLenum.GL_LUMINANCE16
        else if m_use_float && decide (basetype = BASETYPE.FLOAT) then GLenum.GL_LUMINANCE32F_ARB
        else if m_use_float && decide (basetype = BASETYPE.HALF) then GLenum.GL_LUMINANCE16F_ARB
        else GLenum.components nchannels }
  else if nchannels = 2 then
    { gltype := gltype, glformat := GLenum.GL_LUMINANCE_ALPHA
      glinternalformat :=
        if m_use_srgb && issrgb then
          if basetype = BASETYPE.UINT8 then GLenum.GL_SLUMINANCE8_ALPHA8 else GLenum.GL_SLUMINANCE_ALPHA
        else if basetype = BASETYPE.UINT8 then GLenum.GL_LUMINANCE8_ALPHA8
        else if basetype = BASETYPE.UINT16 then GLenum.GL_LUMINANCE16_ALPHA16
        else if m_use_float && decide (basetype = BASETYPE.FLOAT) then GLenum.GL_LUMINANCE_ALPHA32F_ARB
        else if m_use_float && decide (basetype = BASETYPE.HALF) then GLenum.GL_LUMINANCE_ALPHA16F_ARB
        else GLenum.components nchannels }
  else if nchannels = 3 then
    { gltype := gltype, glformat := GLenum.GL_RGB
      glinternalformat :=
        if m_use_srgb && issrgb then
          if basetype = BASETYPE.UINT8 then GLenum.GL_SRGB8 else GLenum.GL_SRGB
        else if basetype = BASETYPE.UINT8 then GLenum.GL_RGB8
        else if basetype = BASETYPE.UINT16 then GLenum.GL_RGB16
        else if m_use_float && decide (basetype = BASETYPE.FLOAT) then GLenum.GL_RGB32F_ARB
        else if m_use_float && decide (basetype = BASETYPE.HALF) then GLenum.GL_RGB16F_ARB
        else GLenum.components nchannels }
  else if nchannels = 4 then
    { gltype := gltype, glformat := GLenum.GL_RGBA
      glinternalformat :=
        if m_use_srgb && issrgb then
          if basetype = BASETYPE.UINT8 then GLenum.GL_SRGB8_ALPHA8 else GLenum.GL_SRGB_ALPHA
        else if basetype = BASETYPE.UINT8 then GLenum.GL_RGBA8
        else if basetype = BASETYPE.UINT16 then GLenum.GL_RGBA16
        else if m_use_float && decide (basetype = BASETYPE.FLOAT) then GLenum.GL_RGBA32F_ARB
        else if m_use_float && decide (basetype = BASETYPE.HALF) then GLenum.GL_RGBA16F_ARB
        else GLenum.components nchannels }
  else
    { gltype := gltype, glformat := GLenum.GL_INVALID_ENUM
      glinternalformat := GLenum.GL_INVALID_ENUM }

/-! ## Shader pipeline -/

/-- The shader members of `IvGL`. The handles `m_vertex_shader`, `m_shader_program` are 0
when unset. -/
structure ShaderState where
  m_use_shaders : Bool
  m_shaders_created : Bool
  m_vertex_shader : Nat
  m_shader_program : Nat
  m_color_shader_text : String
deriving DecidableEq, Repr

/-- What the GL driver answers during one `create_shaders` call: the handles returned by
`glCreateShader` and `glCreateProgram` and the compile and link status values. -/
structure GLDriver where
  vertex_handle : Nat
  vertex_status : Bool
  fragment_handle : Nat
  fragment_status : Bool
  program_handle : Nat
  link_status : Bool
deriving DecidableEq, Repr

/-- The two shader stages. -/
inductive Stage where
  | vertex
  | fragment
deriving DecidableEq, Repr

/-- The uniform variables of the fragment shader that `update_uniforms` sets. -/
inductive Uniform where
  | startchannel
  | imgtex
  | gain
  | gamma
  | colormode
  | imgchannels
  | pixelview
  | linearinterp
  | width
  | height
deriving DecidableEq, Repr

/-- The calls of `create_shaders`, `create_shaders_abort` and `useshader` that leave the
object: GL calls and the lines written to `std::cerr`. `print_error`, which only reads
the GL error flag, is left out. -/
inductive GLCall where
  | log_not_using_shaders
  | log_compile_status (stage : Stage)
  | log_not_linked
  | glDetachShader (program shader : Nat)
  | glUseProgram (program : Nat)
  | glDeleteProgram (program : Nat)
  | glDeleteShader (shader : Nat)
  | glCreateShader (stage : Stage)
  | glShaderSource (stage : Stage) (shader : Nat)
  | glCompileShader (stage : Stage) (shader : Nat)
  | glCreateProgram
  | glAttachShader (program shader : Nat)
  | glLinkProgram (program : Nat)
  | glTexEnvf_REPLACE
  | glBindTexture (tex_object : Nat)
  | glTexParameteri_MIN_FILTER (linear : Bool)
  | glTexParameteri_MAG_FILTER (linear : Bool)
  | glUniform1i (u : Uniform) (value : Int)
  | glUniform1f (u : Uniform) (value : ℚ)
deriving DecidableEq, Repr

/-- Embedding of `IvGL::create_shaders_abort` (ivgl.cpp 430-440). -/
def create_shaders_abort (s : ShaderState) : ShaderState × List GLCall :=
  ({ s with m_use_shaders := false },
   [GLCall.glUseProgram 0]
     ++ (if s.m_shader_program ≠ 0 then [GLCall.glDeleteProgram s.m_shader_program] else [])
     ++ (if s.m_vertex_shader ≠ 0 then [GLCall.glDeleteShader s.m_vertex_shader] else []))

/-- Embedding of `IvGL::create_shaders` (ivgl.cpp 209-425). `color_shader` is the text
returned by `color_func_shader_text()`; `gl` holds the answers of the driver. The result
is the new state and the calls made, in order. -/
def create_shaders (s : ShaderState) (color_shader : String) (gl : GLDriver) :
    ShaderState × List GLCall :=
  if !s.m_use_shaders then
    (s, [GLCall.log_not_using_shaders])
  else
    -- tear down the program built for another color function
    let (s1, ev1) : ShaderState × List GLCall :=
      if s.m_color_shader_text ≠ color_shader ∧ s.m_shader_program ≠ 0 then
        ({ s with m_shader_program := 0, m_shaders_created := false },
         (if s.m_vertex_shader ≠ 0 then
            [GLCall.glDetachShader s.m_shader_program s.m_vertex_shader] else [])
           ++ [GLCall.glUseProgram 0, GLCall.glDeleteProgram s.m_shader_program])
      else (s, [])
    if s1.m_shaders_created then
      (s1, ev1)
    else
      -- vertex stage
      let (s2, ev2) : ShaderState × List GLCall :=
        if s1.m_vertex_shader = 0 then
          ({ s1 with m_vertex_shader := gl.vertex_handle },
           ev1 ++ [GLCall.glCreateShader Stage.vertex,
                   GLCall.glShaderSource Stage.vertex gl.vertex_handle,
                   GLCall.glCompileShader Stage.vertex gl.vertex_handle])
        else (s1, ev1)
      if s1.m_vertex_shader = 0 ∧ gl.vertex_status = false then
        let (s3, ev3) := create_shaders_abort s2
        (s3, ev2 ++ [GLCall.log_compile_status Stage.vertex] ++ ev3)
      else
        -- fragment stage
        let s4 : ShaderState := { s2 with m_color_shader_text := color_shader }
        let ev4 := ev2 ++ [GLCall.glCreateShader Stage.fragment,
                           GLCall.glShaderSource Stage.fragment gl.fragment_handle,
                           GLCall.glCompileShader Stage.fragment gl.fragment_handle]
        if gl.fragment_status = false then
          let (s5, ev5) := create_shaders_abort s4
          (s5, ev4 ++ [GLCall.log_compile_status Stage.fragment] ++ ev5)
        else if s4.m_shader_program = 0 then
          let s6 : ShaderState := { s4 with m_shader_program := gl.program_handle }
          let ev6 := ev4 ++ [GLCall.glCreateProgram,
                             GLCall.glAttachShader gl.program_handle s6.m_vertex_shader,
                             GLCall.glAttachShader gl.program_handle gl.fragment_handle,
                             GLCall.glLinkProgram gl.program_handle]
          if gl.link_status = false then
            let (s7, ev7) := create_shaders_abort s6
            (s7, ev6 ++ [GLCall.log_not_linked] ++ ev7)
          else
            ({ s6 with m_shaders_created := true },
             ev6 ++ [GLCall.glDetachShader gl.program_handle gl.fragment_handle,
                     GLCall.glDeleteShader gl.fragment_handle])
        else
          ({ s4 with m_shaders_created := true }, ev4)

/-- Embedding of `IvGL::update_state` (ivgl.cpp 2359-2363). -/
def update_state (s : ShaderState) (color_shader : String) (gl : GLDriver) :
    ShaderState × List GLCall :=
  create_shaders s color_shader gl

/-- What `useshader` and `update_uniforms` read from the viewer and the current image:
whether `m_viewer.cur()` is non-null, `current_channel()`, `spec.nchannels`, the gain
`powf(2.0, exposure())`, `gamma()`, the integer value of `current_color_mode()` and
`linearInterpolation()`. -/
structure UniformInputs where
  has_image : Bool
  current_channel : Int
  nchannels : Int
  gain : ℚ
  gamma : ℚ
  color_mode_value : Int
  linearInterpolation : Bool
deriving DecidableEq, Repr

/-- Embedding of `IvGL::update_uniforms` (ivgl.cpp 1576-1615). -/
def update_uniforms (u : UniformInputs) (tex_width tex_height : Int) (pixelview : Bool) :
    List GLCall :=
  if !u.has_image then []
  else if u.current_channel ≥ u.nchannels then
    [GLCall.glUniform1i Uniform.startchannel (-1)]
  else
    [GLCall.glUniform1i Uniform.startchannel 0,
     GLCall.glUniform1i Uniform.imgtex 0,
     GLCall.glUniform1f Uniform.gain u.gain,
     GLCall.glUniform1f Uniform.gamma u.gamma,
     GLCall.glUniform1i Uniform.colormode u.color_mode_value,
     GLCall.glUniform1i Uniform.imgchannels u.nchannels,
     GLCall.glUniform1i Uniform.pixelview (if pixelview then 1 else 0),
     GLCall.glUniform1i Uniform.linearinterp (if u.linearInterpolation then 1 else 0),
     GLCall.glUniform1i Uniform.width tex_width,
     GLCall.glUniform1i Uniform.height tex_height]

/-- Embedding of `IvGL::useshader` with `use_program` (ivgl.cpp 1540-1571); `texbufs` is
`m_texbufs`. It changes no member; the result is the calls made. -/
def useshader (s : ShaderState) (texbufs : List TexBuffer) (u : UniformInputs)
    (tex_width tex_height : Int) (pixelview : Bool) : List GLCall :=
  if !s.m_use_shaders then
    GLCall.glTexEnvf_REPLACE ::
      texbufs.flatMap (fun tb =>
        [GLCall.glBindTexture tb.tex_object,
         GLCall.glTexParameteri_MIN_FILTER u.linearInterpolation,
         GLCall.glTexParameteri_MAG_FILTER u.linearInterpolation])
  else
    GLCall.glUseProgram s.m_shader_program
      :: update_uniforms u tex_width tex_height pixelview

/-- The calls of the fixed-function texture-environment path of `useshader`, and the log
line of a `create_shaders` call that returns at once. -/
def GLCall.is_fixed_function : GLCall → Bool
  | .log_not_using_shaders => true
  | .glTexEnvf_REPLACE => true
  | .glBindTexture _ => true
  | .glTexParameteri_MIN_FILTER _ => true
  | .glTexParameteri_MAG_FILTER _ => true
  | _ => false

/-- One call into the shader pipeline after initialization. -/
inductive ShaderOp where
  | create_shaders (color_shader : String) (gl : GLDriver)
  | update_state (color_shader : String) (gl : GLDriver)
  | useshader (texbufs : List TexBuffer) (u : UniformInputs) (tex_width tex_height : Int)
      (pixelview : Bool)

/-- Runs one call. -/
def run_shader_op (s : ShaderState) : ShaderOp → ShaderState × List GLCall
  | .create_shaders t gl => create_shaders s t gl
  | .update_state t gl => update_state s t gl
  | .useshader tbs u w h pv => (s, useshader s tbs u w h pv)

/-- Runs a sequence of calls, in order, collecting the calls made. -/
def run_shader_ops (s : ShaderState) : List ShaderOp → ShaderState × List GLCall
  | [] => (s, [])
  | op :: ops =>
    let (s1, ev1) := run_shader_op s op
    let (s2, ev2) := run_shader_ops s1 ops
    (s2, ev1 ++ ev2)

/-- The shader members after `check_gl_extensions` found shader support, before the
first `create_shaders`. -/
def fresh_shaders : ShaderState :=
  { m_use_shaders := true, m_shaders_created := false, m_vertex_shader := 0
    m_shader_program := 0, m_color_shader_text := String.mk [] }

/-- A driver that compiles the vertex stage and rejects the fragment stage. -/
def fragment_failing_driver : GLDriver :=
  { vertex_handle := 1, vertex_status := true, fragment_handle := 2
    fragment_status := false, program_handle := 3, link_status := true }

/-- Inputs of `update_uniforms` for a four-channel image shown in the first color mode. -/
def example_uniforms : UniformInputs :=
  { has_image := true, current_channel := 0, nchannels := 4, gain := 1, gamma := 1
    color_mode_value := 0, linearInterpolation := true }

/-! ## Mouse events -/

/-- The value of `m_area_probe_text`, as the data it is formatted from: `cleared` is the
empty string, `stats rows` is the text that `update_area_probe_text` builds, the header
line `Area Probe:` followed by one line per channel with the minimum, the maximum and the
average of that channel (never the empty string). -/
inductive ProbeText where
  | cleared
  | stats (rows : List (ℚ × ℚ × ℚ))
deriving DecidableEq, Repr

/-- The text that `update_area_probe_text` stores (ivgl.cpp 1838-1849): one row per
channel `c < nchannels`. -/
def area_probe_text (img : IvImage) (r : AreaProbe) : ProbeText :=
  ProbeText.stats
    ((List.range img.nchannels).map (fun c => (r.min_vals c, r.max_vals c, r.avg c)))

/-- The values of `Qt::MouseButton` that the handlers tell apart. -/
inductive MouseButton where
  | NoButton
  | LeftButton
  | RightButton
  | MiddleButton
  | OtherButton
deriving DecidableEq, Repr

/-- The mouse modes of the viewer (`mouseModeComboBox->currentIndex()`); `OtherMode` is
an index that is none of the named ones. -/
inductive MouseMode where
  | MouseModeZoom
  | MouseModePan
  | MouseModeWipe
  | MouseModeSelect
  | MouseModeAnnotate
  | OtherMode
deriving DecidableEq, Repr

/-- The members of `IvGL` that the mouse handlers read or write. -/
structure MouseState where
  view : View
  m_mousex : Int
  m_mousey : Int
  m_selecting : Bool
  m_dragging : Bool
  m_drag_button : MouseButton
  m_area_probe_text : ProbeText

/-- What the mouse handlers read from the viewer: `areaSampleMode()`, `pixelviewOn()`,
the mouse mode, `zoom()`, and the default of the `redraw` parameter of `center` in the
class declaration. -/
structure MouseEnv where
  areaSampleMode : Bool
  pixelviewOn : Bool
  mousemode : MouseMode
  viewer_zoom : ℚ
  redraw_default : Bool

/-- The calls of the mouse handlers that leave the object: the redraw request
`parent_t::update()`, the handler of the base class, and the calls into the viewer. -/
inductive GuiCall where
  | request_redraw
  | base_mouseMoveEvent
  | base_mouseReleaseEvent
  | viewer_zoom (z : ℚ)
  | fitImageToWindowAct_setChecked_false
deriving DecidableEq, Repr

/-- Embedding of `IvGL::mouseMoveEvent` (ivgl.cpp 1925-2006); `pos` is `event->pos()`,
`Alt` the state of the Alt modifier, `img` the current image. -/
def mouseMoveEvent (st : MouseState) (env : MouseEnv) (img : IvImage) (pos : Int × Int)
    (Alt : Bool) : MouseState × List GuiCall :=
  -- Area probe override
  if env.areaSampleMode && st.m_selecting then
    let view1 : View := { st.view with m_select_end := pos }
    ({ st with view := view1
               m_area_probe_text := area_probe_text img (update_area_probe_text view1 img)
               m_mousex := pos.1
               m_mousey := pos.2 },
     [GuiCall.request_redraw]
       ++ (if env.pixelviewOn then [GuiCall.request_redraw] else [])
       ++ [GuiCall.base_mouseMoveEvent])
  else
    let do_pan : Bool :=
      match env.mousemode with
      | .MouseModeZoom =>
        decide (st.m_drag_button = MouseButton.MiddleButton)
          || (decide (st.m_drag_button = MouseButton.LeftButton) && Alt)
      | .MouseModePan => decide (st.m_drag_button ≠ MouseButton.NoButton)
      | _ => false
    let do_zoom : Bool :=
      match env.mousemode with
      | .MouseModeZoom =>
        !(decide (st.m_drag_button = MouseButton.MiddleButton)
            || (decide (st.m_drag_button = MouseButton.LeftButton) && Alt))
          && (decide (st.m_drag_button = MouseButton.RightButton) && Alt)
      | _ => false
    let do_select : Bool :=
      match env.mousemode with
      | .MouseModeSelect => decide (st.m_drag_button ≠ MouseButton.NoButton)
      | _ => false
    let (st1, ev1) : MouseState × List GuiCall :=
      if do_pan then
        let dx : ℚ := ((pos.1 - st.m_mousex : Int) : ℚ) / st.view.m_zoom
        let dy : ℚ := ((pos.2 - st.m_mousey : Int) : ℚ) / st.view.m_zoom
        let r := pan st.view env.viewer_zoom (-dx) (-dy) env.redraw_default
        ({ st with view := r.1 }, if r.2 then [GuiCall.request_redraw] else [])
      else if do_zoom then
        let dx : ℚ := ((pos.1 - st.m_mousex : Int) : ℚ)
        let dy : ℚ := ((pos.2 - st.m_mousey : Int) : ℚ)
        let z := clampf (env.viewer_zoom * (1.0 + 0.005 * (dx + dy))) 0.01 256.0
        (st, [GuiCall.viewer_zoom z, GuiCall.fitImageToWindowAct_setChecked_false])
      else if do_select && st.m_selecting then
        ({ st with view := { st.view with m_select_end := pos } }, [GuiCall.request_redraw])
      else (st, [])
    ({ st1 with m_mousex := pos.1, m_mousey := pos.2 },
     ev1 ++ (if env.pixelviewOn then [GuiCall.request_redraw] else [])
       ++ [GuiCall.base_mouseMoveEvent])

/-- Embedding of `IvGL::mouseReleaseEvent` (ivgl.cpp 1906-1921); `QPoint()` is
`(0, 0)`. -/
def mouseReleaseEvent (st : MouseState) (img : IvImage) (pos : Int × Int) :
    MouseState × List GuiCall :=
  let st0 : MouseState :=
    { st with m_mousex := pos.1, m_mousey := pos.2
              m_drag_button := MouseButton.NoButton, m_dragging := false }
  if st0.m_selecting then
    let view1 : View := { st0.view with m_select_end := pos }
    ({ st0 with view := { view1 with m_select_start := (0, 0), m_select_end := (0, 0) }
                m_selecting := false
                m_area_probe_text := area_probe_text img (update_area_probe_text view1 img) },
     [GuiCall.request_redraw, GuiCall.base_mouseReleaseEvent])
  else
    (st0, [GuiCall.base_mouseReleaseEvent])

/-- A selection drag in progress over `example_view`, started at window pixel (60, 60),
with no probe text yet. -/
def dragging_state : MouseState :=
  { view := { example_view with m_select_start := (60, 60), m_select_end := (60, 60) }
    m_mousex := 60, m_mousey := 60, m_selecting := true, m_dragging := false
    m_drag_button := MouseButton.LeftButton, m_area_probe_text := ProbeText.cleared }

/-- The viewer in area sample mode, pixel view off. -/
def area_mode_env : MouseEnv :=
  { areaSampleMode := true, pixelviewOn := false, mousemode := MouseMode.MouseModePan
    viewer_zoom := 1, redraw_default := true }

/-! ## Pixel inspector -/

/-- The locals of `paint_pixelview` that select the magnified patch and the averaging
window: the oriented cursor pixel `(real_xp, real_yp)`, `is_mouse_inside_image`, the patch
`[xbegin, xend) × [ybegin, yend)`, the pixel `(pixel_x, pixel_y)` read for the center value,
`is_inside_data_window` and `avg_roi`. -/
structure Closeup where
  real_xp : ℚ
  real_yp : ℚ
  is_mouse_inside_image : Bool
  xbegin : Int
  ybegin : Int
  xend : Int
  yend : Int
  pixel_x : Int
  pixel_y : Int
  is_inside_data_window : Bool
  avg_roi : ROI

/-- Embedding of the patch and averaging-window computation of `IvGL::paint_pixelview`
(ivgl.cpp 849-856, 943-974, 1061-1062, 1092-1099). `(x_mouse_image, y_mouse_image)` is the
result of `get_focus_image_pixel`; `oriented_width`, `oriented_height` are the results of
`img->oriented_width()`, `img->oriented_height()`; `n_closeup_pixels`,
`n_closeup_avg_pixels` those of `m_viewer.closeupPixels()`, `m_viewer.closeupAvgPixels()`.
The divisions by 2 are `int` divisions (`Int.tdiv`); `clamp<int>` converts its `float`
argument to `int`. -/
def paint_pixelview (img : IvImage) (oriented_width oriented_height : Int)
    (n_closeup_pixels n_closeup_avg_pixels : Int) (x_mouse_image y_mouse_image : Int) :
    Closeup :=
  -- number of pixels from the side of the closeup window to the average color window.
  let avg_window_offset := Int.tdiv (n_closeup_pixels - n_closeup_avg_pixels) 2
  let o := handle_orientation img.orientation img.spec_width img.spec_height
    (orient_init x_mouse_image y_mouse_image) true
  let real_xp := o.point_x
  let real_yp := o.point_y
  let is_mouse_inside_image : Bool :=
    decide (x_mouse_image ≥ 0) && decide (x_mouse_image < oriented_width)
      && decide (y_mouse_image ≥ 0) && decide (y_mouse_image < oriented_height)
  -- Keep the view within n_closeup_pixels pixels.
  let xpp := clamp (float_to_int real_xp) (Int.tdiv n_closeup_pixels 2)
    (img.spec_width - Int.tdiv n_closeup_pixels 2 - 1)
  let ypp := clamp (float_to_int real_yp) (Int.tdiv n_closeup_pixels 2)
    (img.spec_height - Int.tdiv n_closeup_pixels 2 - 1)
  let xbegin := if is_mouse_inside_image then max (xpp - Int.tdiv n_closeup_pixels 2) 0 else 0
  let ybegin := if is_mouse_inside_image then max (ypp - Int.tdiv n_closeup_pixels 2) 0 else 0
  let xend :=
    if is_mouse_inside_image then min (xpp + Int.tdiv n_closeup_pixels 2 + 1) img.spec_width
    else 0
  let yend :=
    if is_mouse_inside_image then min (ypp + Int.tdiv n_closeup_pixels 2 + 1) img.spec_height
    else 0
  { real_xp := real_xp, real_yp := real_yp
    is_mouse_inside_image := is_mouse_inside_image
    xbegin := xbegin, ybegin := ybegin, xend := xend, yend := yend
    pixel_x := float_to_int real_xp + img.spec_x
    pixel_y := float_to_int real_yp + img.spec_y
    is_inside_data_window :=
      decide (ybegin > 0) || decide (yend > 0) || decide (xbegin > 0) || decide (xend > 0)
    -- Calculate the ROI for min/max/avg calculation
    avg_roi :=
      { xbegin := img.spec_x + xbegin + avg_window_offset
        xend := img.spec_x + xend - avg_window_offset
        ybegin := img.spec_y + ybegin + avg_window_offset
        yend := img.spec_y + yend - avg_window_offset } }

/-- The stored pixel that `paint_pixelview` addresses for the oriented pixel `p`:
`real_xp = x_mouse_image; real_yp = y_mouse_image`, `handle_orientation` in pixel mode,
then `((int)real_xp, (int)real_yp)`. -/
def oriented_to_stored (orientation width height : Int) (p : Int × Int) : Int × Int :=
  let o := handle_orientation orientation width height (orient_init p.1 p.2) true
  (float_to_int o.point_x, float_to_int o.point_y)

/-- An 8 × 8 image with 1 channel, orientation 1, data window at the origin. -/
def tiny_image : IvImage :=
  { spec_x := 0, spec_y := 0, spec_width := 8, spec_height := 8, nchannels := 1
    orientation := 1, getpixel := fun _ _ _ => 0 }

/-- The constant `MAX_NAME_LENGTH` of `paint_pixelview`. -/
def MAX_NAME_LENGTH : Int := 10

/-- Modelled from the spec: `Strutil::fmt::format` is not among the sources. The call
`format("{:.4}...{}", name, tail)` gives the first 4 characters of `name` (all of it when
it is shorter), then three dots, then `tail`; the spec calls the result the channel name
ellipsized keeping the last 3 characters. A `std::string` is the list of its characters. -/
def format_ellipsis (name tail : List Char) : List Char :=
  name.take 4 ++ "...".toList ++ tail

/-- The displayed channel name of the statistics table of `paint_pixelview`
(ivgl.cpp 1115-1119): `name.substr(name.length() - 3)` is the part of `name` from position
`length - 3` to its end. -/
def paint_pixelview_name (name : List Char) : List Char :=
  -- Truncate channel name if longer than 10 characters
  if (name.length : Int) > MAX_NAME_LENGTH then
    format_ellipsis name (name.drop (name.length - 3))
  else name

/-- The member `maxLengths.name` after the channel loop of `paint_pixelview`
(ivgl.cpp 1088, 1193): it starts at 0 and takes `std::max` with the length of every
displayed name. -/
def paint_pixelview_maxLengths_name (channelnames : List (List Char)) : Int :=
  channelnames.foldl (fun m name => max m ((paint_pixelview_name name).length : Int)) 0

/-- The length argument of `float_spaces_post_value_str` (ivgl.cpp 1233):
`MAX_NAME_LENGTH - maxLengths.name`. -/
def float_spaces_post_value_length (channelnames : List (List Char)) : Int :=
  MAX_NAME_LENGTH - paint_pixelview_maxLengths_name channelnames

/-! ## Area probe: pixel fetches -/

/-- The `getpixel` calls of the pixel loop of `update_area_probe_text`
(ivgl.cpp 1826-1828), in order: one call `getpixel(x + spec.x, y + spec.y, fpixel)` per
pass, rows outermost. -/
def area_probe_fetches (img : IvImage) (xmin xmax ymin ymax : Int) : List (Int × Int) :=
  (raster xmin (xmax + 1) ymin (ymax + 1)).map
    (fun p => (p.1 + img.spec_x, p.2 + img.spec_y))

/-! ## Texture format classes -/

/-- The sRGB internal formats (`GL_SLUMINANCE*`, `GL_SRGB*`). -/
def GLenum.is_srgb : GLenum → Bool
  | .GL_SLUMINANCE8 => true
  | .GL_SLUMINANCE => true
  | .GL_SLUMINANCE8_ALPHA8 => true
  | .GL_SLUMINANCE_ALPHA => true
  | .GL_SRGB8 => true
  | .GL_SRGB => true
  | .GL_SRGB8_ALPHA8 => true
  | .GL_SRGB_ALPHA => true
  | _ => false

/-- The 8-bit sRGB internal formats. -/
def GLenum.is_srgb8 : GLenum → Bool
  | .GL_SLUMINANCE8 => true
  | .GL_SLUMINANCE8_ALPHA8 => true
  | .GL_SRGB8 => true
  | .GL_SRGB8_ALPHA8 => true
  | _ => false

/-- The floating-point internal formats (`*16F_ARB`, `*32F_ARB`). -/
def GLenum.is_float_internal : GLenum → Bool
  | .GL_LUMINANCE32F_ARB => true
  | .GL_LUMINANCE16F_ARB => true
  | .GL_LUMINANCE_ALPHA32F_ARB => true
  | .GL_LUMINANCE_ALPHA16F_ARB => true
  | .GL_RGB32F_ARB => true
  | .GL_RGB16F_ARB => true
  | .GL_RGBA32F_ARB => true
  | .GL_RGBA16F_ARB => true
  | _ => false

/-! ## Tile dimensions -/

/-- The members of `IvGL` that fix the tile size. -/
structure TileSize where
  m_texture_width : Int
  m_texture_height : Int
  m_max_texture_size : Int
deriving DecidableEq, Repr

/-- The constructor `IvGL::IvGL` (ivgl.cpp 49-73) on these members: `m_texture_width(1)`,
`m_texture_height(1)`. `m_max_texture_size` has no initializer; `indeterminate` stands for
the value it happens to hold. -/
def IvGL_constructor (indeterminate : Int) : TileSize :=
  { m_texture_width := 1, m_texture_height := 1, m_max_texture_size := indeterminate }

/-- The part of `IvGL::check_gl_extensions` (ivgl.cpp 2150-2155) that sets
`m_max_texture_size`: the value `gl_max_texture_size` that
`glGetIntegerv(GL_MAX_TEXTURE_SIZE, ...)` reports, capped at 4096. -/
def check_gl_extensions (s : TileSize) (gl_max_texture_size : Int) : TileSize :=
  { s with m_max_texture_size := min gl_max_texture_size 4096 }

/-- What one call of `IvGL::update` reads besides the tile size: the current image
(`m_viewer.cur()`, `none` for a null pointer), the current channel and the color mode of
the viewer, and the member `m_use_shaders` as it is at the time of the call. -/
structure UpdateInput where
  cur : Option IvImage
  current_channel : Int
  current_color_mode : COLOR_MODE
  m_use_shaders : Bool

/-- Embedding of `IvGL::update` (ivgl.cpp 1629-1683) on the tile size. `ceil2` is the
function of the image library (fmath.h) that rounds up to a power of two; it is a
parameter, nothing about its values is used. -/
def update (ceil2 : Int → Int) (s : TileSize) (u : UpdateInput) : TileSize :=
  match u.cur with
  | none => s
  | some img =>
    let nchannels : Int :=
      if u.m_use_shaders then
        num_channels u.current_channel img.nchannels u.current_color_mode
      else img.nchannels
    if nchannels = 0 then s  -- Don't bother, the shader will show blackness for us.
    else
      { s with
        m_texture_width := clamp (ceil2 img.spec_width) 1 s.m_max_texture_size
        m_texture_height := clamp (ceil2 img.spec_height) 1 s.m_max_texture_size }

/-- Successive calls of `update`, in order. -/
def updates (ceil2 : Int → Int) (s : TileSize) (us : List UpdateInput) : TileSize :=
  us.foldl (update ceil2) s

/-- Modelled from the spec: `ceil2` (fmath.h) is not among the sources; the spec calls the
tile dimensions the smallest power of two not below the image dimensions. This function
gives that power of two for `x` of at least 1, as an instance of the parameter `ceil2` of
`update`. -/
def pow2_ceil (x : Int) : Int := 2 ^ Nat.clog 2 x.toNat

/-- A pan drag in progress over `example_view`: the left button is held, nothing is being
selected, and the mouse was last seen at window pixel (60, 60). -/
def panning_state : MouseState :=
  { view := example_view, m_mousex := 60, m_mousey := 60, m_selecting := false
    m_dragging := true, m_drag_button := MouseButton.LeftButton
    m_area_probe_text := ProbeText.cleared }

/-- The viewer in pan mode at zoom 1, area sample mode and pixel view off. -/
def pan_mode_env : MouseEnv :=
  { areaSampleMode := false, pixelviewOn := false, mousemode := MouseMode.MouseModePan
    viewer_zoom := 1, redraw_default := true }

/-! ## Floating-point samples -/

/-- A value of a C++ floating-point sample type (`half`, `float`, `double`): a finite
value, held as an exact rational, an infinity or a NaN. -/
inductive FloatVal where
  | nan
  | neg_inf
  | finite (q : ℚ)
  | pos_inf
deriving DecidableEq

/-- The comparison `a < b` of two floating-point values; it is false when either is a
NaN. -/
def FloatVal.lt (a b : FloatVal) : Bool :=
  match a, b with
  | .nan, _ => false
  | _, .nan => false
  | .neg_inf, .neg_inf => false
  | .neg_inf, _ => true
  | .finite _, .neg_inf => false
  | .finite x, .finite y => decide (x < y)
  | .finite _, .pos_inf => true
  | .pos_inf, _ => false

/-- The library function `std::min(a, b)` of C++: `(b < a) ? b : a`. -/
def std_min (a b : FloatVal) : FloatVal := if b.lt a then b else a

/-- The library function `std::max(a, b)` of C++: `(a < b) ? b : a`. -/
def std_max (a b : FloatVal) : FloatVal := if a.lt b then b else a

/-- The sum `a + b` of two floating-point values: a NaN when either is a NaN or when the
two are infinities of opposite sign; finite sums are exact. -/
def FloatVal.add (a b : FloatVal) : FloatVal :=
  match a, b with
  | .nan, _ => .nan
  | _, .nan => .nan
  | .pos_inf, .neg_inf => .nan
  | .neg_inf, .pos_inf => .nan
  | .pos_inf, _ => .pos_inf
  | _, .pos_inf => .pos_inf
  | .neg_inf, _ => .neg_inf
  | _, .neg_inf => .neg_inf
  | .finite x, .finite y => .finite (x + y)

/-- The quotient `a / n` of a floating-point value by a positive count `n`: infinities and
NaN stay as they are; finite quotients are exact. -/
def FloatVal.div_count (a : FloatVal) (n : Int) : FloatVal :=
  match a with
  | .finite x => .finite (x / (n : ℚ))
  | v => v

/-- `ChannelStatsResult<T>` for a floating-point sample type `T` (`half`, `float`). -/
structure ChannelStatsResultF where
  min_val : FloatVal
  max_val : FloatVal
  avg_val : FloatVal
deriving DecidableEq

/-- One pass of the loop body of `calculate_channel_stats` on the triple
`(min_val, max_val, sum)` for the floating-point sample `val`. -/
def stats_step_float (acc : FloatVal × FloatVal × FloatVal) (val : FloatVal) :
    FloatVal × FloatVal × FloatVal :=
  (std_min acc.1 val, std_max acc.2.1 val, acc.2.2.add val)

/-- Embedding of `calculate_channel_stats<T>` (ivgl.cpp 787-820) for a floating-point
sample type `T` with `std::numeric_limits<T>::max() = tmax` and `lowest() = -tmax`
(`tmax = FLT_MAX` for `float`, `65504` for `half`). `img x y c` is the sample `it[c]` at
pixel `(x, y)`, which may be an infinity or a NaN. -/
def calculate_channel_stats_float (tmax : ℚ) (img : Int → Int → Int → FloatVal) (roi : ROI)
    (channel : Int) (is_inside_data_window : Bool) : ChannelStatsResultF :=
  if !is_inside_data_window then
    -- Return zeros if not inside data window
    { min_val := .finite 0, max_val := .finite 0, avg_val := .finite 0 }
  else
    let pixel_count : Int := (roi.xend - roi.xbegin) * (roi.yend - roi.ybegin)
    if pixel_count ≤ 0 then
      -- ROI is empty or invalid, return zeros
      { min_val := .finite 0, max_val := .finite 0, avg_val := .finite 0 }
    else
      let acc := (raster roi.xbegin roi.xend roi.ybegin roi.yend).foldl
        (fun acc p => stats_step_float acc (img p.1 p.2 channel))
        (.finite tmax, .finite (-tmax), .finite 0)
      { min_val := acc.1, max_val := acc.2.1, avg_val := acc.2.2.div_count pixel_count }

/-- An image of a floating-point type every sample of which is a NaN. -/
def nan_image (_x _y _c : Int) : FloatVal := FloatVal.nan

/-- A floating-point image whose sample at `(x, y)` is `x + 8 y + 1/2` in every
channel. -/
def float_ramp_image (x y _c : Int) : FloatVal :=
  FloatVal.finite ((x : ℚ) + 8 * (y : ℚ) + 1 / 2)

/-- The accumulators of the pixel loop of `update_area_probe_text` with `float` and
`double` values that may be infinities or NaN. -/
structure ProbeAccF where
  min_vals : Nat → FloatVal
  max_vals : Nat → FloatVal
  sums : Nat → FloatVal
  count : Int

/-- Body of the pixel loop of `update_area_probe_text` (ivgl.cpp 1828-1834) as
`probe_step`, for a pixel read `getpixel x y c = fpixel[c]` that may give an infinity or a
NaN. -/
def probe_step_float (img : IvImage) (getpixel : Int → Int → Nat → FloatVal)
    (acc : ProbeAccF) (p : Int × Int) : ProbeAccF :=
  let fpixel := getpixel (p.1 + img.spec_x) (p.2 + img.spec_y)
  { min_vals := fun c => if c < img.nchannels then std_min (acc.min_vals c) (fpixel c)
                         else acc.min_vals c
    max_vals := fun c => if c < img.nchannels then std_max (acc.max_vals c) (fpixel c)
                         else acc.max_vals c
    sums := fun c => if c < img.nchannels then (acc.sums c).add (fpixel c) else acc.sums c
    count := acc.count + 1 }

/-- What `update_area_probe_text` computes when the pixel values may be infinities or
NaN. -/
structure AreaProbeF where
  xmin : Int
  xmax : Int
  ymin : Int
  ymax : Int
  min_vals : Nat → FloatVal
  max_vals : Nat → FloatVal
  avg : Nat → FloatVal
  count : Int

/-- Second part of `IvGL::update_area_probe_text` (ivgl.cpp 1816-1849) as
`area_probe_scan`, for a pixel read that may give an infinity or a NaN. -/
def area_probe_scan_float (img : IvImage) (getpixel : Int → Int → Nat → FloatVal)
    (xmin xmax ymin ymax : Int) : AreaProbeF :=
  let acc := (raster xmin (xmax + 1) ymin (ymax + 1)).foldl (probe_step_float img getpixel)
    { min_vals := fun _ => .finite FLT_MAX, max_vals := fun _ => .finite (-FLT_MAX)
      sums := fun _ => .finite 0, count := 0 }
  { xmin := xmin, xmax := xmax, ymin := ymin, ymax := ymax
    min_vals := acc.min_vals
    max_vals := acc.max_vals
    avg := fun c => if acc.count > 0 then (acc.sums c).div_count acc.count else .finite 0
    count := acc.count }

/-- Embedding of `IvGL::update_area_probe_text` (ivgl.cpp 1778-1850) for an image whose
pixel read `getpixel` may give infinities or NaN: the box of `area_probe_box`, then the
scan of the box. The geometry (data window, orientation, channel count) is that of
`img`. -/
def update_area_probe_text_float (v : View) (img : IvImage)
    (getpixel : Int → Int → Nat → FloatVal) : AreaProbeF :=
  let box := area_probe_box v img
  area_probe_scan_float img getpixel box.1 box.2.1 box.2.2.1 box.2.2.2

/-- A pixel read that gives a NaN for every pixel and channel. -/
def nan_pixels (_x _y : Int) (_c : Nat) : FloatVal := FloatVal.nan

/-- The pixel read of the uniform gray image: the finite value 128 / 255 everywhere. -/
def gray_pixels (_x _y : Int) (_c : Nat) : FloatVal := FloatVal.finite (128 / 255)

/-! ## Shader fallback -/

/-- The calls of one operation on the fixed-function path, as the spec describes the
fallback: `create_shaders` and `update_state` return at once (the source writes its log
line first); `useshader` sets the texture environment to `GL_REPLACE` and then, for every
tile, binds the texture and sets its minifying and magnifying filter, to linear or to
nearest as the viewer's interpolation setting says. -/
def fixed_function_calls : ShaderOp → List GLCall
  | .create_shaders _ _ => [GLCall.log_not_using_shaders]
  | .update_state _ _ => [GLCall.log_not_using_shaders]
  | .useshader texbufs u _ _ _ =>
    GLCall.glTexEnvf_REPLACE ::
      texbufs.flatMap (fun tb =>
        [GLCall.glBindTexture tb.tex_object,
         GLCall.glTexParameteri_MIN_FILTER u.linearInterpolation,
         GLCall.glTexParameteri_MAG_FILTER u.linearInterpolation])

/-! ## A frame rendered after a pan -/

/-- An image with 4 channels whose data window is `[0, 12288) × [0, 12288)`,
orientation 1: with a tile size of 4096 it is 3 × 3 tiles. -/
def large_image : IvImage :=
  { spec_x := 0, spec_y := 0, spec_width := 12288, spec_height := 12288, nchannels := 4
    orientation := 1, getpixel := fun _ _ _ => 0 }

/-- A view of a 1280 × 720 window at zoom 1/4 centred on (6144, 2048). -/
def strip_view : View :=
  { m_centerx := 6144, m_centery := 2048, m_zoom := 1 / 4, width := 1280, height := 720
    m_select_start := (0, 0), m_select_end := (0, 0) }

/-- The same window and zoom after a pan to the centre (4096, 4096). -/
def block_view : View :=
  { m_centerx := 4096, m_centery := 4096, m_zoom := 1 / 4, width := 1280, height := 720
    m_select_start := (0, 0), m_select_end := (0, 0) }

/-- The cache `example_cache` right after `update()`: the loop over `m_texbufs` has set
every extent to 0. -/
def updated_cache : Cache :=
  { example_cache with m_texbufs := update_texbufs example_cache.m_texbufs }

/-! ## Theorems: orientation -/

theorem tag_cases (t : Int) :
    t = 2 ∨ t = 3 ∨ t = 4 ∨ t = 5 ∨ t = 6 ∨ t = 7 ∨ t = 8 ∨
      (t ≠ 2 ∧ t ≠ 3 ∧ t ≠ 4 ∧ t ≠ 5 ∧ t ≠ 6 ∧ t ≠ 7 ∧ t ≠ 8) := by
  omega

theorem quarter_turns_zero : quarter_turns 0 = 0 := by
  simp [quarter_turns]

theorem quarter_turns_90 : quarter_turns 90 = 1 := by
  have h : ((90 : ℚ) / 90) = ((1 : Int) : ℚ) := by norm_num
  simp only [quarter_turns, h, Int.floor_intCast]
  decide

theorem quarter_turns_neg270 : quarter_turns (-270) = 1 := by
  have h : ((-270 : ℚ) / 90) = ((-3 : Int) : ℚ) := by norm_num
  simp only [quarter_turns, h, Int.floor_intCast]
  decide

theorem quarter_turns_neg90 : quarter_turns (-90) = 3 := by
  have h : ((-90 : ℚ) / 90) = ((-1 : Int) : ℚ) := by norm_num
  simp only [quarter_turns, h, Int.floor_intCast]
  decide

/-- C1. Rendering and probing use the same orientation semantics: for every orientation
tag (in particular 1..8) and every width and height, the scale and rotation that
`handle_orientation` produces in continuous mode, applied by `paintGL` as
`Scale(scale_x, scale_y) ∘ Rotate(rotate_z)` with `rotate_z` a multiple of 90 degrees,
send `P(u) - P(c)` to `u - c` for all points `u` and `c`, where `P` is the point map of
`handle_orientation`; and `scale_x`, `scale_y`, `rotate_z` depend only on the tag, not on
the point or on the pixel flag. -/
theorem C1_render_and_probe_agree (tag width height : Int) (ux uy cx cy : ℚ) :
    (∃ k : Int,
        (handle_orientation tag width height (orient_init cx cy) false).rotate_z = 90 * k) ∧
    paintGL_orient tag width height cx cy
        ((handle_orientation tag width height (orient_init ux uy) false).point_x,
         (handle_orientation tag width height (orient_init ux uy) false).point_y)
      = (ux - cx, uy - cy) ∧
    (∀ (qx qy : ℚ) (pixel : Bool),
        (handle_orientation tag width height (orient_init qx qy) pixel).scale_x
            = (handle_orientation tag width height (orient_init cx cy) false).scale_x ∧
        (handle_orientation tag width height (orient_init qx qy) pixel).scale_y
            = (handle_orientation tag width height (orient_init cx cy) false).scale_y ∧
        (handle_orientation tag width height (orient_init qx qy) pixel).rotate_z
            = (handle_orientation tag width height (orient_init cx cy) false).rotate_z) := by
  rcases tag_cases tag with h | h | h | h | h | h | h | ⟨h2, h3, h4, h5, h6, h7, h8⟩
  · subst h
    refine ⟨⟨0, by simp [handle_orientation, orient_init]⟩, ?_, ?_⟩
    · simp [paintGL_orient, handle_orientation, orient_init, gl_scale, gl_rotate_z,
        quarter_turns_zero]
    · intro qx qy pixel; simp [handle_orientation, orient_init]
  · subst h
    refine ⟨⟨0, by simp [handle_orientation, orient_init]⟩, ?_, ?_⟩
    · simp [paintGL_orient, handle_orientation, orient_init, gl_scale, gl_rotate_z,
        quarter_turns_zero]
    · intro qx qy pixel; simp [handle_orientation, orient_init]
  · subst h
    refine ⟨⟨0, by simp [handle_orientation, orient_init]⟩, ?_, ?_⟩
    · simp [paintGL_orient, handle_orientation, orient_init, gl_scale, gl_rotate_z,
        quarter_turns_zero]
    · intro qx qy pixel; simp [handle_orientation, orient_init]
  · subst h
    refine ⟨⟨1, by simp [handle_orientation, orient_init]⟩, ?_, ?_⟩
    · simp [paintGL_orient, handle_orientation, orient_init, gl_scale, gl_rotate_z,
        quarter_turns_90]
    · intro qx qy pixel; simp [handle_orientation, orient_init]
  · subst h
    refine ⟨⟨-3, by simp [handle_orientation, orient_init]; norm_num⟩, ?_, ?_⟩
    · simp [paintGL_orient, handle_orientation, orient_init, gl_scale, gl_rotate_z,
        quarter_turns_neg270]
    · intro qx qy pixel; simp [handle_orientation, orient_init]
  · subst h
    refine ⟨⟨-1, by simp [handle_orientation, orient_init]⟩, ?_, ?_⟩
    · simp [paintGL_orient, handle_orientation, orient_init, gl_scale, gl_rotate_z,
        quarter_turns_neg90]
    · intro qx qy pixel; simp [handle_orientation, orient_init]
  · subst h
    refine ⟨⟨-1, by simp [handle_orientation, orient_init]⟩, ?_, ?_⟩
    · simp [paintGL_orient, handle_orientation, orient_init, gl_scale, gl_rotate_z,
        quarter_turns_neg90]
    · intro qx qy pixel; simp [handle_orientation, orient_init]
  · refine ⟨⟨0, by simp [handle_orientation, orient_init, h2, h3, h4, h5, h6, h7, h8]⟩, ?_, ?_⟩
    · simp [paintGL_orient, handle_orientation, orient_init, gl_scale, gl_rotate_z,
        quarter_turns_zero, h2, h3, h4, h5, h6, h7, h8]
    · intro qx qy pixel
      simp [handle_orientation, orient_init, h2, h3, h4, h5, h6, h7, h8]

theorem handle_orientation_round_trip (tag width height : Int) (s : Orient) :
    (handle_orientation_inverse tag width height
        (handle_orientation tag width height s true) true).point_x = s.point_x ∧
    (handle_orientation_inverse tag width height
        (handle_orientation tag width height s true) true).point_y = s.point_y := by
  rcases tag_cases tag with h | h | h | h | h | h | h | ⟨h2, h3, h4, h5, h6, h7, h8⟩
  · subst h
    simp [handle_orientation_inverse, handle_orientation]
    ring
  · subst h
    simp [handle_orientation_inverse, handle_orientation]
    exact ⟨by ring, by ring⟩
  · subst h
    simp [handle_orientation_inverse, handle_orientation]
    ring
  · subst h
    simp [handle_orientation_inverse, handle_orientation, inverse_tag]
  · subst h
    simp [handle_orientation_inverse, handle_orientation, inverse_tag]
    ring
  · subst h
    simp [handle_orientation_inverse, handle_orientation, inverse_tag]
    exact ⟨by ring, by ring⟩
  · subst h
    simp [handle_orientation_inverse, handle_orientation, inverse_tag]
    ring
  · have hno : ¬ (5 ≤ tag ∧ tag ≤ 8) := by omega
    simp [handle_orientation_inverse, handle_orientation, hno, h2, h3, h4, h5, h6, h7, h8]

/-- C2. Orientation round-trip: for every orientation tag 0..8 and every integer point
`(x, y)` inside `[0, width) × [0, height)`, applying `handle_orientation` in pixel-index
mode and then the inverse transform of the same tag, also in pixel-index mode, returns
the original `(x, y)`. -/
theorem C2_orientation_round_trip (tag width height x y : Int)
    (_htag : 0 ≤ tag ∧ tag ≤ 8) (_hx : 0 ≤ x ∧ x < width) (_hy : 0 ≤ y ∧ y < height) :
    (handle_orientation_inverse tag width height
        (handle_orientation tag width height (orient_init x y) true) true).point_x = x ∧
    (handle_orientation_inverse tag width height
        (handle_orientation tag width height (orient_init x y) true) true).point_y = y :=
  handle_orientation_round_trip tag width height (orient_init x y)

theorem C2_orientation_round_trip_witness :
    (handle_orientation_inverse 6 100 50
        (handle_orientation 6 100 50 (orient_init (10 : Int) (20 : Int)) true) true).point_x
          = (10 : Int) ∧
    (handle_orientation_inverse 6 100 50
        (handle_orientation 6 100 50 (orient_init (10 : Int) (20 : Int)) true) true).point_y
          = (20 : Int) :=
  C2_orientation_round_trip 6 100 50 10 20 (by decide) (by decide) (by decide)

/-- C3 as stated fails: with orientation 6, width 100, height 50, pixel-index mode on
and point (10, 20), `handle_orientation` does not yield the point (20, 29). -/
theorem C3_scenario_B_counterexample :
    ¬ ((handle_orientation 6 100 50 (orient_init 10 20) true).point_x = 20 ∧
       (handle_orientation 6 100 50 (orient_init 10 20) true).point_y = 29) := by
  simp [handle_orientation, orient_init]
  norm_num

/-- C3 amended. With orientation 6, width 100, height 50, pixel-index mode on and point
(10, 20), `handle_orientation` yields the point (20, 39): the axes are swapped first, then
`y = 50 - 10 = 40` is decremented to 39; the rotation is -270 degrees and the scales stay
1. -/
theorem C3_scenario_B_amended :
    handle_orientation 6 100 50 (orient_init 10 20) true
      = { scale_x := 1, scale_y := 1, rotate_z := -270, point_x := 20, point_y := 39 } := by
  simp [handle_orientation, orient_init]
  norm_num

theorem floor_add_half (n : Int) : ⌊(n : ℚ) + 1 / 2⌋ = n := by
  rw [Int.floor_eq_iff]
  constructor <;> linarith

theorem floor_reflect_half (w n : Int) : ⌊(w : ℚ) - ((n : ℚ) + 2⁻¹)⌋ = w - n - 1 := by
  rw [Int.floor_eq_iff]
  push_cast
  constructor <;> linarith

/-- C4. Pixel-index versus continuous mode of `handle_orientation`: for every tag, with
`(a, b)` the point after the axis swap of the tag, the continuous-mode result is
`extent - a` (resp. `extent - b`) on a reflected coordinate and the pixel-mode result is
`extent - a - 1` there, exactly one less; a non-reflected coordinate is `a` (resp. `b`) in
both modes. Hence for every integer pixel `p` the pixel-mode result is the componentwise
floor of the continuous-mode image of the centre `p + (1/2, 1/2)`. -/
theorem C4_pixel_vs_continuous (tag width height : Int) (px py : ℚ) (ix iy : Int) :
    ((handle_orientation tag width height (orient_init px py) false).point_x
        = if reflects_x tag then (width : ℚ) - (if swaps_axes tag then py else px)
          else (if swaps_axes tag then py else px)) ∧
    ((handle_orientation tag width height (orient_init px py) true).point_x
        = if reflects_x tag then (width : ℚ) - (if swaps_axes tag then py else px) - 1
          else (if swaps_axes tag then py else px)) ∧
    ((handle_orientation tag width height (orient_init px py) false).point_y
        = if reflects_y tag then (height : ℚ) - (if swaps_axes tag then px else py)
          else (if swaps_axes tag then px else py)) ∧
    ((handle_orientation tag width height (orient_init px py) true).point_y
        = if reflects_y tag then (height : ℚ) - (if swaps_axes tag then px else py) - 1
          else (if swaps_axes tag then px else py)) ∧
    ((handle_orientation tag width height (orient_init ix iy) true).point_x
        = ((⌊(handle_orientation tag width height
                (orient_init ((ix : ℚ) + 1 / 2) ((iy : ℚ) + 1 / 2)) false).point_x⌋ : Int) : ℚ)) ∧
    ((handle_orientation tag width height (orient_init ix iy) true).point_y
        = ((⌊(handle_orientation tag width height
                (orient_init ((ix : ℚ) + 1 / 2) ((iy : ℚ) + 1 / 2)) false).point_y⌋ : Int) : ℚ)) := by
  rcases tag_cases tag with h | h | h | h | h | h | h | ⟨h2, h3, h4, h5, h6, h7, h8⟩
  · subst h
    simp [handle_orientation, orient_init, reflects_x, reflects_y, swaps_axes,
      floor_add_half, floor_reflect_half]
    try norm_num
  · subst h
    simp [handle_orientation, orient_init, reflects_x, reflects_y, swaps_axes,
      floor_add_half, floor_reflect_half]
    try norm_num
  · subst h
    simp [handle_orientation, orient_init, reflects_x, reflects_y, swaps_axes,
      floor_add_half, floor_reflect_half]
    try norm_num
  · subst h
    simp [handle_orientation, orient_init, reflects_x, reflects_y, swaps_axes,
      floor_add_half, floor_reflect_half]
    try norm_num
  · subst h
    simp [handle_orientation, orient_init, reflects_x, reflects_y, swaps_axes,
      floor_add_half, floor_reflect_half]
    try norm_num
  · subst h
    simp [handle_orientation, orient_init, reflects_x, reflects_y, swaps_axes,
      floor_add_half, floor_reflect_half]
    try norm_num
  · subst h
    simp [handle_orientation, orient_init, reflects_x, reflects_y, swaps_axes,
      floor_add_half, floor_reflect_half]
    try norm_num
  · simp [handle_orientation, orient_init, reflects_x, reflects_y, swaps_axes,
      floor_add_half, h2, h3, h4, h5, h6, h7, h8]
    try norm_num

/-! ## Theorems: tile cache -/

theorem tile_covers_iff (tb : TexBuffer) (x y width height : Int) :
    tile_covers tb x y width height = true ↔
      tb.x = x ∧ tb.y = y ∧ tb.width ≥ width ∧ tb.height ≥ height := by
  simp [tile_covers, and_assoc]

theorem find_set_of_find_none {α : Type} (p : α → Bool) (b : α) (hb : p b = true) :
    ∀ (l : List α) (i : Nat), l.find? p = none → i < l.length →
      (l.set i b).find? p = some b := by
  intro l
  induction l with
  | nil => intro i _ hi; simp at hi
  | cons a l ih =>
    intro i hnone hi
    have ha : p a = false := by
      cases hpa : p a with
      | false => rfl
      | true => simp [List.find?_cons, hpa] at hnone
    have hl : l.find? p = none := by
      simpa [List.find?_cons, ha] using hnone
    cases i with
    | zero => simp [List.find?_cons, hb]
    | succ i =>
      have hi1 : i < l.length := by simpa using hi
      simp [List.find?_cons, ha, ih i hl hi1]

/-- A cache hit: the scan finds a covering record, nothing changes and the only call is
the bind of that record's texture object. -/
theorem load_texture_hit (s : Cache) (x y width height : Int) (tb : TexBuffer)
    (h : s.m_texbufs.find? (fun tb => tile_covers tb x y width height) = some tb) :
    load_texture s x y width height = some (s, [Event.glBindTexture tb.tex_object]) := by
  simp [load_texture, h]

/-- A cache miss with the round-robin index in range: the record at the index is
rewritten, one fetch and the uploads are made, both indices advance. -/
theorem load_texture_miss (s : Cache) (x y width height : Int) (tb : TexBuffer)
    (h : s.m_texbufs.find? (fun tb => tile_covers tb x y width height) = none)
    (htb : s.m_texbufs[s.m_last_texbuf_used]? = some tb) :
    ∃ evs, load_texture s x y width height
        = some ({ s with
                  m_texbufs := s.m_texbufs.set s.m_last_texbuf_used
                    { tb with x := x, y := y, width := width, height := height }
                  m_last_pbo_used := (s.m_last_pbo_used + 1) &&& 1
                  m_last_texbuf_used := (s.m_last_texbuf_used + 1) % s.m_texbufs.length },
                evs) ∧
      fetches evs = 1 ∧ uploads evs = 2 ∧ bound_textures evs = [tb.tex_object] := by
  simp only [load_texture, h, htb]
  refine ⟨_, rfl, ?_, ?_, ?_⟩
  · cases hs : s.m_use_shaders <;> simp [fetches, List.countP_cons, Event.is_fetch]
  · cases hs : s.m_use_shaders <;> simp [uploads, List.countP_cons, Event.is_upload]
  · cases hs : s.m_use_shaders <;> simp [bound_textures]

theorem load_texture_miss_state (s : Cache) (r : Region)
    (h : s.m_texbufs.find? (fun tb => tile_covers tb r.x r.y r.width r.height) = none)
    (hidx : s.m_last_texbuf_used < s.m_texbufs.length) :
    ∃ s1 evs, load_texture s r.x r.y r.width r.height = some (s1, evs) ∧
      fetches evs = 1 ∧
      s1.m_texbufs = s.m_texbufs.set s.m_last_texbuf_used
        (s.m_texbufs[s.m_last_texbuf_used].retarget r) ∧
      s1.m_last_texbuf_used = (s.m_last_texbuf_used + 1) % s.m_texbufs.length := by
  have htb : s.m_texbufs[s.m_last_texbuf_used]? = some (s.m_texbufs[s.m_last_texbuf_used]) :=
    List.getElem?_eq_getElem hidx
  obtain ⟨evs, hload, hf, _, _⟩ := load_texture_miss s r.x r.y r.width r.height _ h htb
  exact ⟨_, evs, hload, hf, rfl, rfl⟩

/-- C5. Cache-hit predicate: with the round-robin index inside `m_texbufs`,
`load_texture(x, y, width, height)` returns, and it performs no pixel fetch and no upload
if and only if some record of `m_texbufs` has stored origin exactly `(x, y)`, stored
width `>= width` and stored height `>= height`; otherwise it performs exactly one pixel
fetch. -/
theorem C5_cache_hit_predicate (s : Cache) (x y width height : Int)
    (hidx : s.m_last_texbuf_used < s.m_texbufs.length) :
    ∃ s1 evs, load_texture s x y width height = some (s1, evs) ∧
      ((fetches evs = 0 ∧ uploads evs = 0) ↔
        ∃ tb ∈ s.m_texbufs, tb.x = x ∧ tb.y = y ∧ tb.width ≥ width ∧ tb.height ≥ height) ∧
      ((¬ ∃ tb ∈ s.m_texbufs, tb.x = x ∧ tb.y = y ∧ tb.width ≥ width ∧ tb.height ≥ height) →
        fetches evs = 1) := by
  cases hfind : s.m_texbufs.find? (fun tb => tile_covers tb x y width height) with
  | some tb =>
    have hmem : tb ∈ s.m_texbufs := List.mem_of_find?_eq_some hfind
    have hcov : tile_covers tb x y width height = true :=
      List.find?_some (p := fun tb => tile_covers tb x y width height) hfind
    have hex : ∃ tb ∈ s.m_texbufs,
        tb.x = x ∧ tb.y = y ∧ tb.width ≥ width ∧ tb.height ≥ height :=
      ⟨tb, hmem, (tile_covers_iff tb x y width height).1 hcov⟩
    refine ⟨s, _, load_texture_hit s x y width height tb hfind, ?_, ?_⟩
    · simp only [fetches, uploads, List.countP_cons, List.countP_nil, Event.is_fetch,
        Event.is_upload]
      exact ⟨fun _ => hex, fun _ => by simp⟩
    · intro hno; exact absurd hex hno
  | none =>
    have htb : s.m_texbufs[s.m_last_texbuf_used]? = some (s.m_texbufs[s.m_last_texbuf_used]) :=
      List.getElem?_eq_getElem hidx
    obtain ⟨evs, hload, hf, hu, _⟩ := load_texture_miss s x y width height _ hfind htb
    have hno : ¬ ∃ tb ∈ s.m_texbufs,
        tb.x = x ∧ tb.y = y ∧ tb.width ≥ width ∧ tb.height ≥ height := by
      rintro ⟨tb, hmem, hc⟩
      have := List.find?_eq_none.1 hfind tb hmem
      exact this ((tile_covers_iff tb x y width height).2 hc)
    refine ⟨_, evs, hload, ?_, fun _ => hf⟩
    constructor
    · intro h; rw [hf] at h; exact absurd h.1 (by decide)
    · intro h; exact absurd h hno

theorem C5_cache_hit_predicate_witness :
    example_cache.m_last_texbuf_used < example_cache.m_texbufs.length ∧
    ∃ s1 evs, load_texture example_cache 0 0 64 64 = some (s1, evs) ∧
      ((fetches evs = 0 ∧ uploads evs = 0) ↔
        ∃ tb ∈ example_cache.m_texbufs,
          tb.x = 0 ∧ tb.y = 0 ∧ tb.width ≥ 64 ∧ tb.height ≥ 64) ∧
      ((¬ ∃ tb ∈ example_cache.m_texbufs,
          tb.x = 0 ∧ tb.y = 0 ∧ tb.width ≥ 64 ∧ tb.height ≥ 64) →
        fetches evs = 1) :=
  ⟨by decide, C5_cache_hit_predicate example_cache 0 0 64 64 (by decide)⟩

/-- C6. Tile cache hit determinism: for every cache state whose round-robin index lies
inside `m_texbufs` (so there is at least one tile) and every region, calling
`load_texture` with that region twice in succession binds the texture object of the same
tile record both times, and the second call performs zero pixel fetches and returns the
state unchanged (tile records, round-robin index and staging-buffer index included). -/
theorem C6_cache_hit_determinism (s : Cache) (x y width height : Int)
    (hidx : s.m_last_texbuf_used < s.m_texbufs.length) :
    ∃ s1 ev1 ev2 tb,
      load_texture s x y width height = some (s1, ev1) ∧
      load_texture s1 x y width height = some (s1, ev2) ∧
      s1.m_texbufs.find? (fun tb => tile_covers tb x y width height) = some tb ∧
      bound_textures ev1 = [tb.tex_object] ∧
      bound_textures ev2 = [tb.tex_object] ∧
      fetches ev2 = 0 ∧ uploads ev2 = 0 := by
  cases hfind : s.m_texbufs.find? (fun tb => tile_covers tb x y width height) with
  | some tb =>
    have hload := load_texture_hit s x y width height tb hfind
    exact ⟨s, _, _, tb, hload, hload, hfind, rfl, rfl, rfl, rfl⟩
  | none =>
    have htb : s.m_texbufs[s.m_last_texbuf_used]? = some (s.m_texbufs[s.m_last_texbuf_used]) :=
      List.getElem?_eq_getElem hidx
    obtain ⟨evs, hload, _, _, hb⟩ := load_texture_miss s x y width height _ hfind htb
    have hcov : (fun tb => tile_covers tb x y width height)
        { s.m_texbufs[s.m_last_texbuf_used] with
          x := x, y := y, width := width, height := height } = true := by
      simp [tile_covers]
    have hfind1 := find_set_of_find_none (fun tb => tile_covers tb x y width height) _ hcov
      s.m_texbufs s.m_last_texbuf_used hfind hidx
    exact ⟨_, evs, _, _, hload, load_texture_hit _ x y width height _ hfind1, hfind1, hb,
      rfl, rfl, rfl⟩

theorem C6_cache_hit_determinism_witness :
    example_cache.m_last_texbuf_used < example_cache.m_texbufs.length ∧
    ∃ s1 ev1 ev2 tb,
      load_texture example_cache 0 0 64 64 = some (s1, ev1) ∧
      load_texture s1 0 0 64 64 = some (s1, ev2) ∧
      s1.m_texbufs.find? (fun tb => tile_covers tb 0 0 64 64) = some tb ∧
      bound_textures ev1 = [tb.tex_object] ∧
      bound_textures ev2 = [tb.tex_object] ∧
      fetches ev2 = 0 ∧ uploads ev2 = 0 :=
  ⟨by decide, C6_cache_hit_determinism example_cache 0 0 64 64 (by decide)⟩

/-! ### Round-robin eviction -/

theorem ring_index_moves (k i m : Nat) (hi : i < k) (hm0 : 0 < m) (hm : m < k) :
    (i + m) % k ≠ i := by
  by_cases h : i + m < k
  · rw [Nat.mod_eq_of_lt h]; omega
  · have h1 : (i + m) % k = i + m - k := by
      rw [Nat.mod_eq_sub_mod (by omega), Nat.mod_eq_of_lt (by omega)]
    rw [h1]; omega

theorem ring_index_reaches (k i p : Nat) (hi : i < k) (hp : p < k) :
    ∃ j, j < k ∧ (i + j) % k = p := by
  by_cases h : i ≤ p
  · refine ⟨p - i, by omega, ?_⟩
    have : i + (p - i) = p := by omega
    rw [this, Nat.mod_eq_of_lt hp]
  · refine ⟨p + k - i, by omega, ?_⟩
    have : i + (p + k - i) = p + k := by omega
    rw [this, Nat.add_mod_right, Nat.mod_eq_of_lt hp]

theorem fill_tiles_length (rs : List Region) :
    ∀ (tbs : List TexBuffer) (i : Nat), (fill_tiles tbs i rs).1.length = tbs.length := by
  induction rs with
  | nil => intro tbs i; rfl
  | cons r rs ih =>
    intro tbs i
    cases h : tbs[i]? with
    | none => simp [fill_tiles, h]
    | some tb => simp [fill_tiles, h, ih]

theorem fill_tiles_index_lt (rs : List Region) :
    ∀ (tbs : List TexBuffer) (i : Nat), i < tbs.length →
      (fill_tiles tbs i rs).2 < tbs.length := by
  induction rs with
  | nil => intro tbs i hi; exact hi
  | cons r rs ih =>
    intro tbs i hi
    have h : tbs[i]? = some tbs[i] := List.getElem?_eq_getElem hi
    simp only [fill_tiles, h]
    have hlen : (tbs.set i (tbs[i].retarget r)).length = tbs.length := List.length_set _ _ _
    have := ih (tbs.set i (tbs[i].retarget r)) ((i + 1) % tbs.length)
      (by rw [hlen]; exact Nat.mod_lt _ (by omega))
    rwa [hlen] at this

theorem fill_tiles_append (pre post : List Region) :
    ∀ (tbs : List TexBuffer) (i : Nat), i < tbs.length →
      fill_tiles tbs i (pre ++ post)
        = fill_tiles (fill_tiles tbs i pre).1 (fill_tiles tbs i pre).2 post := by
  induction pre with
  | nil => intro tbs i _; rfl
  | cons r pre ih =>
    intro tbs i hi
    have h : tbs[i]? = some tbs[i] := List.getElem?_eq_getElem hi
    have hlen : (tbs.set i (tbs[i].retarget r)).length = tbs.length := List.length_set _ _ _
    simp only [List.cons_append, fill_tiles, h]
    exact ih _ _ (by rw [hlen]; exact Nat.mod_lt _ (by omega))

/-- A slot that the round-robin index does not visit during the run keeps its record. -/
theorem fill_tiles_untouched (rs : List Region) :
    ∀ (tbs : List TexBuffer) (i p : Nat), i < tbs.length →
      (∀ j, j < rs.length → (i + j) % tbs.length ≠ p) →
      (fill_tiles tbs i rs).1[p]? = tbs[p]? := by
  induction rs with
  | nil => intro tbs i p _ _; rfl
  | cons r rs ih =>
    intro tbs i p hi hne
    have h : tbs[i]? = some tbs[i] := List.getElem?_eq_getElem hi
    have hlen : (tbs.set i (tbs[i].retarget r)).length = tbs.length := List.length_set _ _ _
    have hip : i ≠ p := by
      have := hne 0 (by simp)
      rwa [Nat.add_zero, Nat.mod_eq_of_lt hi] at this
    simp only [fill_tiles, h]
    rw [ih (tbs.set i (tbs[i].retarget r)) ((i + 1) % tbs.length) p
      (by rw [hlen]; exact Nat.mod_lt _ (by omega)) ?_]
    · exact List.getElem?_set_ne hip
    · intro j hj
      rw [hlen, Nat.mod_add_mod]
      have := hne (j + 1) (by simp; omega)
      rwa [show i + (j + 1) = i + 1 + j by omega] at this

/-- Every slot either holds a region of the run or was not visited by the index. -/
theorem fill_tiles_sources (rs : List Region) :
    ∀ (tbs : List TexBuffer) (i p : Nat), i < tbs.length → p < tbs.length →
      (∃ r ∈ rs, ∃ tb, (fill_tiles tbs i rs).1[p]? = some tb ∧ tb.holds r) ∨
      (∀ j, j < rs.length → (i + j) % tbs.length ≠ p) := by
  induction rs with
  | nil => intro tbs i p _ _; right; intro j hj; simp at hj
  | cons r rs ih =>
    intro tbs i p hi hp
    have h : tbs[i]? = some tbs[i] := List.getElem?_eq_getElem hi
    have hlen : (tbs.set i (tbs[i].retarget r)).length = tbs.length := List.length_set _ _ _
    have hi1 : (i + 1) % tbs.length < (tbs.set i (tbs[i].retarget r)).length := by
      rw [hlen]; exact Nat.mod_lt _ (by omega)
    simp only [fill_tiles, h]
    rcases ih (tbs.set i (tbs[i].retarget r)) ((i + 1) % tbs.length) p hi1
      (by rw [hlen]; exact hp) with ⟨r1, hr1, tb, htb, hh⟩ | hne
    · exact Or.inl ⟨r1, List.mem_cons_of_mem _ hr1, tb, htb, hh⟩
    · by_cases hip : i = p
      · left
        refine ⟨r, List.mem_cons_self _ _, tbs[i].retarget r, ?_, ⟨rfl, rfl, rfl, rfl⟩⟩
        rw [fill_tiles_untouched rs _ _ p hi1 hne, ← hip]
        exact List.getElem?_set_self hi
      · right
        intro j hj
        cases j with
        | zero => rwa [Nat.add_zero, Nat.mod_eq_of_lt hi]
        | succ j =>
          have := hne j (by simpa using hj)
          rw [hlen, Nat.mod_add_mod] at this
          rwa [show i + (j + 1) = i + 1 + j by omega]

theorem holds_covers (tb : TexBuffer) (r : Region) (h : tb.holds r) :
    tile_covers tb r.x r.y r.width r.height = true := by
  obtain ⟨hx, hy, hw, hh⟩ := h
  simp [tile_covers, hx, hy, hw, hh]

theorem covers_false_of_origin (tb : TexBuffer) (r : Region)
    (h : ¬ (tb.x = r.x ∧ tb.y = r.y)) :
    tile_covers tb r.x r.y r.width r.height = false := by
  cases hc : tile_covers tb r.x r.y r.width r.height with
  | false => rfl
  | true =>
    have := (tile_covers_iff tb r.x r.y r.width r.height).1 hc
    exact absurd ⟨this.1, this.2.1⟩ h

/-- After the loop of `update` no record covers a region of positive extent. -/
theorem update_texbufs_covers_none (tbs : List TexBuffer) (r : Region)
    (hpos : 0 < r.width ∧ 0 < r.height) :
    ∀ tb ∈ update_texbufs tbs, tile_covers tb r.x r.y r.width r.height = false := by
  intro tb htb
  obtain ⟨tb0, _, rfl⟩ := List.mem_map.1 htb
  cases hc : tile_covers _ r.x r.y r.width r.height with
  | false => rfl
  | true =>
    have := (tile_covers_iff _ r.x r.y r.width r.height).1 hc
    simp at this
    omega

/-- A run of requests none of which is in the cache, with pairwise distinct origins, is a
run of misses: one fetch per request, and the records and the index end as `fill_tiles`
says. -/
theorem load_textures_all_miss (rs : List Region) :
    ∀ (s : Cache), s.m_last_texbuf_used < s.m_texbufs.length →
      rs.Pairwise (fun a b => ¬ (a.x = b.x ∧ a.y = b.y)) →
      (∀ r ∈ rs, ∀ tb ∈ s.m_texbufs, tile_covers tb r.x r.y r.width r.height = false) →
      ∃ s1 evs, load_textures s rs = some (s1, evs) ∧ fetches evs = rs.length ∧
        s1.m_texbufs = (fill_tiles s.m_texbufs s.m_last_texbuf_used rs).1 ∧
        s1.m_last_texbuf_used = (fill_tiles s.m_texbufs s.m_last_texbuf_used rs).2 := by
  induction rs with
  | nil => intro s _ _ _; exact ⟨s, [], rfl, rfl, rfl, rfl⟩
  | cons r rs ih =>
    intro s hidx hpair hnone
    have hfind : s.m_texbufs.find? (fun tb => tile_covers tb r.x r.y r.width r.height)
        = none := by
      apply List.find?_eq_none.2
      intro tb hm
      simp [hnone r (List.mem_cons_self _ _) tb hm]
    have htb : s.m_texbufs[s.m_last_texbuf_used]? = some (s.m_texbufs[s.m_last_texbuf_used]) :=
      List.getElem?_eq_getElem hidx
    obtain ⟨s1, ev1, hload1, hf1, ht1, hi1⟩ := load_texture_miss_state s r hfind hidx
    have hp := List.pairwise_cons.1 hpair
    have hlen1 : s1.m_texbufs.length = s.m_texbufs.length := by
      rw [ht1, List.length_set]
    obtain ⟨s2, ev2, hload2, hf2, htiles, hindex⟩ := ih s1
      (by rw [hi1, hlen1]; exact Nat.mod_lt _ (by omega))
      hp.2
      (by
        intro r1 hr1 tb hm
        rw [ht1] at hm
        rcases List.mem_or_eq_of_mem_set hm with hold | hnew
        · exact hnone r1 (List.mem_cons_of_mem _ hr1) tb hold
        · subst hnew
          exact covers_false_of_origin _ r1 (hp.1 r1 hr1))
    refine ⟨s2, ev1 ++ ev2, ?_, ?_, ?_, ?_⟩
    · simp only [load_textures, hload1, hload2]
    · simp only [fetches] at hf1 hf2 ⊢
      rw [List.countP_append, hf1, hf2, List.length_cons]; omega
    · rw [htiles, ht1, hi1]; simp only [fill_tiles, htb]
    · rw [hindex, ht1, hi1]; simp only [fill_tiles, htb]

/-- C7. Cache capacity bound: with `K` tiles in `m_texbufs`, the round-robin index inside
`m_texbufs` and a cache holding none of the requested regions, requesting `K + 1` regions
with pairwise distinct origins and positive extents in order makes `K + 1` pixel fetches
and evicts exactly the first-requested region: afterwards each of the regions `2..K+1` is
a cache hit (no fetch, state unchanged) and re-requesting region 1 is a cache miss (one
pixel fetch). -/
theorem C7_cache_capacity_bound (s : Cache) (r1 : Region) (rest : List Region)
    (hidx : s.m_last_texbuf_used < s.m_texbufs.length)
    (hlen : rest.length = s.m_texbufs.length)
    (hdistinct : (r1 :: rest).Pairwise (fun a b => ¬ (a.x = b.x ∧ a.y = b.y)))
    (_hpos : ∀ r ∈ r1 :: rest, 0 < r.width ∧ 0 < r.height)
    (hnone : ∀ r ∈ r1 :: rest, ∀ tb ∈ s.m_texbufs,
      tile_covers tb r.x r.y r.width r.height = false) :
    ∃ s1 evs, load_textures s (r1 :: rest) = some (s1, evs) ∧
      fetches evs = s.m_texbufs.length + 1 ∧
      (∀ r ∈ rest, ∃ ev, load_texture s1 r.x r.y r.width r.height = some (s1, ev) ∧
        fetches ev = 0) ∧
      (∃ s2 ev, load_texture s1 r1.x r1.y r1.width r1.height = some (s2, ev) ∧
        fetches ev = 1) := by
  obtain ⟨s1, evs, hload, hf, htiles, hindex⟩ :=
    load_textures_all_miss (r1 :: rest) s hidx hdistinct hnone
  have htb : s.m_texbufs[s.m_last_texbuf_used]? = some (s.m_texbufs[s.m_last_texbuf_used]) :=
    List.getElem?_eq_getElem hidx
  -- the state after the first miss
  have hlen0 : (s.m_texbufs.set s.m_last_texbuf_used
      (s.m_texbufs[s.m_last_texbuf_used].retarget r1)).length = s.m_texbufs.length :=
    List.length_set _ _ _
  have hi0 : (s.m_last_texbuf_used + 1) % s.m_texbufs.length
      < (s.m_texbufs.set s.m_last_texbuf_used
          (s.m_texbufs[s.m_last_texbuf_used].retarget r1)).length := by
    rw [hlen0]; exact Nat.mod_lt _ (by omega)
  have hfill : fill_tiles s.m_texbufs s.m_last_texbuf_used (r1 :: rest)
      = fill_tiles (s.m_texbufs.set s.m_last_texbuf_used
          (s.m_texbufs[s.m_last_texbuf_used].retarget r1))
          ((s.m_last_texbuf_used + 1) % s.m_texbufs.length) rest := by
    simp only [fill_tiles, htb]
  rw [hfill] at htiles hindex
  have hlen1 : s1.m_texbufs.length = s.m_texbufs.length := by
    rw [htiles, fill_tiles_length, hlen0]
  have hidx1 : s1.m_last_texbuf_used < s1.m_texbufs.length := by
    have := fill_tiles_index_lt rest _ _ hi0
    rw [hlen0] at this
    rw [hindex, hlen1]; exact this
  -- every record of the final state holds one of the regions 2..K+1
  have hsrc : ∀ tb ∈ s1.m_texbufs, ∃ r ∈ rest, tb.holds r := by
    intro tb hm
    obtain ⟨p, hp, hget⟩ := List.getElem_of_mem hm
    have hp0 : p < (s.m_texbufs.set s.m_last_texbuf_used
        (s.m_texbufs[s.m_last_texbuf_used].retarget r1)).length := by
      rw [hlen0, ← hlen1]; exact hp
    rcases fill_tiles_sources rest _ _ p hi0 hp0 with ⟨r, hr, tb1, htb1, hh⟩ | hne
    · refine ⟨r, hr, ?_⟩
      rw [← htiles, List.getElem?_eq_getElem hp, hget] at htb1
      cases htb1; exact hh
    · exfalso
      rw [hlen0] at hne hp0 hi0
      obtain ⟨j, hj, hjp⟩ := ring_index_reaches _ _ p hi0 hp0
      exact hne j (by rw [hlen]; exact hj) hjp
  -- every region 2..K+1 is held by some record of the final state
  have hheld : ∀ r ∈ rest, ∃ tb ∈ s1.m_texbufs, tb.holds r := by
    intro r hr
    obtain ⟨pre, post, hsplit⟩ := List.append_of_mem hr
    have hpost : post.length + 1 + pre.length = s.m_texbufs.length := by
      rw [← hlen, hsplit, List.length_append, List.length_cons]; omega
    have happ := fill_tiles_append pre (r :: post) _ _ hi0
    rw [← hsplit] at happ
    have hlen2 := fill_tiles_length pre (s.m_texbufs.set s.m_last_texbuf_used
        (s.m_texbufs[s.m_last_texbuf_used].retarget r1))
        ((s.m_last_texbuf_used + 1) % s.m_texbufs.length)
    have hi2 := fill_tiles_index_lt pre _ _ hi0
    generalize (fill_tiles (s.m_texbufs.set s.m_last_texbuf_used
        (s.m_texbufs[s.m_last_texbuf_used].retarget r1))
        ((s.m_last_texbuf_used + 1) % s.m_texbufs.length) pre) = st at happ hlen2 hi2
    obtain ⟨tbs2, i2⟩ := st
    simp only at happ hlen2 hi2
    rw [hlen0] at hlen2 hi2
    have hi2' : i2 < tbs2.length := by rw [hlen2]; exact hi2
    have htb2 : tbs2[i2]? = some tbs2[i2] := List.getElem?_eq_getElem hi2'
    have hstep : fill_tiles tbs2 i2 (r :: post)
        = fill_tiles (tbs2.set i2 (tbs2[i2].retarget r)) ((i2 + 1) % tbs2.length) post := by
      simp only [fill_tiles, htb2]
    have hlen3 : (tbs2.set i2 (tbs2[i2].retarget r)).length = tbs2.length :=
      List.length_set _ _ _
    have hkeep := fill_tiles_untouched post (tbs2.set i2 (tbs2[i2].retarget r))
      ((i2 + 1) % tbs2.length) i2 (by rw [hlen3]; exact Nat.mod_lt _ (by omega))
      (by
        intro j hj
        rw [hlen3, Nat.mod_add_mod, show i2 + 1 + j = i2 + (j + 1) by omega]
        exact ring_index_moves _ _ _ hi2' (by omega) (by omega))
    rw [List.getElem?_set_self hi2'] at hkeep
    rw [← hstep, ← happ, ← htiles] at hkeep
    exact ⟨tbs2[i2].retarget r, List.getElem?_mem hkeep, ⟨rfl, rfl, rfl, rfl⟩⟩
  have hp := List.pairwise_cons.1 hdistinct
  refine ⟨s1, evs, hload, ?_, ?_, ?_⟩
  · rw [hf, List.length_cons, hlen]
  · intro r hr
    obtain ⟨tb, hm, hh⟩ := hheld r hr
    cases hfind : s1.m_texbufs.find? (fun tb => tile_covers tb r.x r.y r.width r.height) with
    | none =>
      have := List.find?_eq_none.1 hfind tb hm
      exact absurd (holds_covers tb r hh) this
    | some tb1 =>
      exact ⟨_, load_texture_hit s1 r.x r.y r.width r.height tb1 hfind, rfl⟩
  · have hfind : s1.m_texbufs.find?
        (fun tb => tile_covers tb r1.x r1.y r1.width r1.height) = none := by
      apply List.find?_eq_none.2
      intro tb hm
      obtain ⟨r, hr, hx, hy, _, _⟩ := hsrc tb hm
      have hne := hp.1 r hr
      have : tile_covers tb r1.x r1.y r1.width r1.height = false :=
        covers_false_of_origin tb r1 (by rw [hx, hy]; exact fun h => hne ⟨h.1.symm, h.2.symm⟩)
      simp [this]
    have htb1 : s1.m_texbufs[s1.m_last_texbuf_used]?
        = some (s1.m_texbufs[s1.m_last_texbuf_used]) := List.getElem?_eq_getElem hidx1
    obtain ⟨ev, hl, hfe, _, _⟩ :=
      load_texture_miss s1 r1.x r1.y r1.width r1.height _ hfind htb1
    exact ⟨_, ev, hl, hfe⟩

theorem C7_cache_capacity_bound_witness :
    (example_cache.m_last_texbuf_used < example_cache.m_texbufs.length ∧
     example_regions.length = example_cache.m_texbufs.length ∧
     ((⟨0, 0, 64, 64⟩ : Region) :: example_regions).Pairwise
        (fun a b => ¬ (a.x = b.x ∧ a.y = b.y)) ∧
     (∀ r ∈ (⟨0, 0, 64, 64⟩ : Region) :: example_regions, 0 < r.width ∧ 0 < r.height) ∧
     (∀ r ∈ (⟨0, 0, 64, 64⟩ : Region) :: example_regions, ∀ tb ∈ example_cache.m_texbufs,
        tile_covers tb r.x r.y r.width r.height = false)) ∧
    ∃ s1 evs, load_textures example_cache (⟨0, 0, 64, 64⟩ :: example_regions) = some (s1, evs) ∧
      fetches evs = example_cache.m_texbufs.length + 1 ∧
      (∀ r ∈ example_regions, ∃ ev,
        load_texture s1 r.x r.y r.width r.height = some (s1, ev) ∧ fetches ev = 0) ∧
      (∃ s2 ev, load_texture s1 0 0 64 64 = some (s2, ev) ∧ fetches ev = 1) :=
  ⟨⟨by decide, by decide, by decide, by decide, by decide⟩,
   C7_cache_capacity_bound example_cache ⟨0, 0, 64, 64⟩ example_regions
     (by decide) (by decide) (by decide) (by decide) (by decide)⟩

/-! ## Theorems: pixel statistics -/

theorem mem_raster (x0 x1 y0 y1 x y : Int) :
    (x, y) ∈ raster x0 x1 y0 y1 ↔ (x0 ≤ x ∧ x < x1) ∧ (y0 ≤ y ∧ y < y1) := by
  simp only [raster, List.mem_flatMap, List.mem_map, List.mem_range, Prod.mk.injEq]
  constructor
  · rintro ⟨j, hj, i, hi, hx, hy⟩
    omega
  · rintro ⟨⟨hx0, hx1⟩, hy0, hy1⟩
    exact ⟨(y - y0).toNat, by omega, (x - x0).toNat, by omega, by omega, by omega⟩

theorem list_range_sum {α : Type} [AddCommMonoid α] (f : Nat → α) (n : Nat) :
    ((List.range n).map f).sum = ∑ i in Finset.range n, f i := by
  induction n with
  | zero => simp
  | succ n ih => simp [List.range_succ, Finset.sum_range_succ, ih]

theorem flatMap_map_sum {α β : Type} [AddCommMonoid α] (f : β → α) (g : Nat → List β)
    (l : List Nat) :
    ((l.flatMap g).map f).sum = (l.map (fun j => ((g j).map f).sum)).sum := by
  induction l with
  | nil => simp
  | cons a l ih => simp [List.flatMap_cons, ih]

/-- The sum of a function over the pixels of `raster` is the double sum over the rows and
the columns. -/
theorem raster_sum {α : Type} [AddCommMonoid α] (f : Int × Int → α) (x0 x1 y0 y1 : Int) :
    ((raster x0 x1 y0 y1).map f).sum
      = ∑ j in Finset.range (y1 - y0).toNat, ∑ i in Finset.range (x1 - x0).toNat,
          f (x0 + (i : Int), y0 + (j : Int)) := by
  unfold raster
  rw [flatMap_map_sum, list_range_sum]
  apply Finset.sum_congr rfl
  intro j _
  rw [List.map_map, list_range_sum]
  rfl

theorem raster_length (x0 x1 y0 y1 : Int) :
    (raster x0 x1 y0 y1).length = (y1 - y0).toNat * (x1 - x0).toNat := by
  unfold raster
  generalize (y1 - y0).toNat = h
  induction h with
  | zero => simp
  | succ h ih =>
    rw [List.range_succ, List.flatMap_append, List.length_append, ih]
    simp [Nat.succ_mul]

/-- What one scan of `stats_step` over a list of samples computes, from any start. -/
theorem stats_fold (vals : List Nat) :
    ∀ (acc : Nat × Nat × Nat),
      ((vals.foldl stats_step acc).1 ≤ acc.1 ∧
        (∀ v ∈ vals, (vals.foldl stats_step acc).1 ≤ v) ∧
        ((vals.foldl stats_step acc).1 = acc.1 ∨ (vals.foldl stats_step acc).1 ∈ vals)) ∧
      (acc.2.1 ≤ (vals.foldl stats_step acc).2.1 ∧
        (∀ v ∈ vals, v ≤ (vals.foldl stats_step acc).2.1) ∧
        ((vals.foldl stats_step acc).2.1 = acc.2.1 ∨ (vals.foldl stats_step acc).2.1 ∈ vals)) ∧
      (vals.foldl stats_step acc).2.2 = acc.2.2 + vals.sum := by
  induction vals with
  | nil => intro acc; simp
  | cons v vals ih =>
    intro acc
    obtain ⟨⟨h1, h2, h3⟩, ⟨h4, h5, h6⟩, h7⟩ := ih (stats_step acc v)
    simp only [List.foldl_cons, List.mem_cons, List.sum_cons]
    have e1 : (stats_step acc v).1 = min acc.1 v := rfl
    have e2 : (stats_step acc v).2.1 = max acc.2.1 v := rfl
    have e3 : (stats_step acc v).2.2 = acc.2.2 + v := rfl
    rw [e1] at h1 h3
    rw [e2] at h4 h6
    rw [e3] at h7
    refine ⟨⟨?_, ?_, ?_⟩, ⟨?_, ?_, ?_⟩, ?_⟩
    · exact le_trans h1 (min_le_left _ _)
    · intro w hw
      rcases hw with rfl | hw
      · exact le_trans h1 (min_le_right _ _)
      · exact h2 w hw
    · rcases h3 with h3 | h3
      · rcases min_choice acc.1 v with hm | hm
        · left; rw [h3, hm]
        · right; left; rw [h3, hm]
      · right; right; exact h3
    · exact le_trans (le_max_left _ _) h4
    · intro w hw
      rcases hw with rfl | hw
      · exact le_trans (le_max_right _ _) h4
      · exact h5 w hw
    · rcases h6 with h6 | h6
      · rcases max_choice acc.2.1 v with hm | hm
        · left; rw [h6, hm]
        · right; left; rw [h6, hm]
      · right; right; exact h6
    · rw [h7]; omega

theorem foldl_map_stats (img : Int → Int → Int → Nat) (channel : Int)
    (l : List (Int × Int)) :
    ∀ acc, l.foldl (fun acc p => stats_step acc (img p.1 p.2 channel)) acc
      = (l.map (fun p => img p.1 p.2 channel)).foldl stats_step acc := by
  induction l with
  | nil => intro acc; rfl
  | cons p l ih => intro acc; simp [List.foldl_cons, ih]

/-- For a region with `xbegin < xend` and `ybegin < yend` inside the data window the
result is read off one scan of the samples in raster order. -/
theorem calculate_channel_stats_scan (tmax : Nat) (img : Int → Int → Int → Nat) (roi : ROI)
    (channel : Int) (hx : roi.xbegin < roi.xend) (hy : roi.ybegin < roi.yend) :
    calculate_channel_stats tmax img roi channel true
      = { min_val := (((raster roi.xbegin roi.xend roi.ybegin roi.yend).map
                (fun p => img p.1 p.2 channel)).foldl stats_step (tmax, 0, 0)).1
          max_val := (((raster roi.xbegin roi.xend roi.ybegin roi.yend).map
                (fun p => img p.1 p.2 channel)).foldl stats_step (tmax, 0, 0)).2.1
          avg_val := (((raster roi.xbegin roi.xend roi.ybegin roi.yend).map
                (fun p => img p.1 p.2 channel)).foldl stats_step (tmax, 0, 0)).2.2
              / ((roi.xend - roi.xbegin) * (roi.yend - roi.ybegin)).toNat } := by
  have hpos : 0 < (roi.xend - roi.xbegin) * (roi.yend - roi.ybegin) :=
    mul_pos (by omega) (by omega)
  have hno : ¬ (roi.xend - roi.xbegin) * (roi.yend - roi.ybegin) ≤ 0 := not_le.2 hpos
  simp only [calculate_channel_stats, Bool.not_true, Bool.false_eq_true, if_false, hno,
    foldl_map_stats]

/-- Extrema of the unsigned integer instantiations: for every ROI with `xbegin < xend` and
`ybegin < yend` and `is_inside_data_window` true, `min_val` and `max_val` are samples of
the ROI and bound every sample of it. -/
theorem stats_extrema_unsigned (tmax : Nat) (img : Int → Int → Int → Nat) (roi : ROI)
    (channel : Int) (hx : roi.xbegin < roi.xend) (hy : roi.ybegin < roi.yend)
    (hT : ∀ x y, img x y channel ≤ tmax) :
    (∃ x y, (roi.xbegin ≤ x ∧ x < roi.xend) ∧ (roi.ybegin ≤ y ∧ y < roi.yend) ∧
      img x y channel = (calculate_channel_stats tmax img roi channel true).min_val) ∧
    (∀ x y, (roi.xbegin ≤ x ∧ x < roi.xend) → (roi.ybegin ≤ y ∧ y < roi.yend) →
      (calculate_channel_stats tmax img roi channel true).min_val ≤ img x y channel) ∧
    (∃ x y, (roi.xbegin ≤ x ∧ x < roi.xend) ∧ (roi.ybegin ≤ y ∧ y < roi.yend) ∧
      img x y channel = (calculate_channel_stats tmax img roi channel true).max_val) ∧
    (∀ x y, (roi.xbegin ≤ x ∧ x < roi.xend) → (roi.ybegin ≤ y ∧ y < roi.yend) →
      img x y channel ≤ (calculate_channel_stats tmax img roi channel true).max_val) := by
  rw [calculate_channel_stats_scan tmax img roi channel hx hy]
  obtain ⟨⟨_, hmin_le, hmin_mem⟩, ⟨_, hmax_le, hmax_mem⟩, _⟩ :=
    stats_fold ((raster roi.xbegin roi.xend roi.ybegin roi.yend).map
      (fun p => img p.1 p.2 channel)) (tmax, 0, 0)
  have hval : ∀ x y, (roi.xbegin ≤ x ∧ x < roi.xend) → (roi.ybegin ≤ y ∧ y < roi.yend) →
      img x y channel ∈ (raster roi.xbegin roi.xend roi.ybegin roi.yend).map
        (fun p => img p.1 p.2 channel) := by
    intro x y h1 h2
    exact List.mem_map.2 ⟨(x, y), (mem_raster _ _ _ _ x y).2 ⟨h1, h2⟩, rfl⟩
  have hpix : ∀ v, v ∈ (raster roi.xbegin roi.xend roi.ybegin roi.yend).map
        (fun p => img p.1 p.2 channel) →
      ∃ x y, (roi.xbegin ≤ x ∧ x < roi.xend) ∧ (roi.ybegin ≤ y ∧ y < roi.yend) ∧
        img x y channel = v := by
    intro v hv
    obtain ⟨⟨x, y⟩, hp, rfl⟩ := List.mem_map.1 hv
    have := (mem_raster _ _ _ _ x y).1 hp
    exact ⟨x, y, this.1, this.2, rfl⟩
  have h0 := hval roi.xbegin roi.ybegin ⟨le_refl _, hx⟩ ⟨le_refl _, hy⟩
  refine ⟨?_, ?_, ?_, ?_⟩
  · rcases hmin_mem with heq | hmem
    · refine ⟨roi.xbegin, roi.ybegin, ⟨le_refl _, hx⟩, ⟨le_refl _, hy⟩, ?_⟩
      have h1 := hmin_le _ h0
      have h2 := hT roi.xbegin roi.ybegin
      simp only at heq h1 ⊢
      omega
    · exact hpix _ hmem
  · intro x y h1 h2
    exact hmin_le _ (hval x y h1 h2)
  · rcases hmax_mem with heq | hmem
    · refine ⟨roi.xbegin, roi.ybegin, ⟨le_refl _, hx⟩, ⟨le_refl _, hy⟩, ?_⟩
      have h1 := hmax_le _ h0
      simp only at heq h1 ⊢
      omega
    · exact hpix _ hmem
  · intro x y h1 h2
    exact hmax_le _ (hval x y h1 h2)

theorem ramp_image_le (x y c : Int) : ramp_image x y c ≤ 255 := by
  unfold ramp_image
  omega

/-- C9 as stated fails: on the 8-bit path, for the ROI `[0, 2) × [0, 1)` of the ramp
image the samples are 0 and 1, whose arithmetic mean is 1/2, but `avg_val` is 0. -/
theorem C9_average_counterexample :
    ((0 : Int) < 2 ∧ (0 : Int) < 1 ∧ ∀ x y, ramp_image x y 0 ≤ 255) ∧
    ((calculate_channel_stats 255 ramp_image ⟨0, 2, 0, 1⟩ 0 true).avg_val : ℚ)
      ≠ ((∑ j in Finset.range 1, ∑ i in Finset.range 2,
            ramp_image (0 + (i : Int)) (0 + (j : Int)) 0 : Nat) : ℚ)
          / (((2 - 0) * (1 - 0) : Int) : ℚ) := by
  refine ⟨⟨by decide, by decide, fun x y => ramp_image_le x y 0⟩, ?_⟩
  have h1 : (calculate_channel_stats 255 ramp_image ⟨0, 2, 0, 1⟩ 0 true).avg_val = 0 := by
    decide
  have h2 : (∑ j in Finset.range 1, ∑ i in Finset.range 2,
      ramp_image (0 + (i : Int)) (0 + (j : Int)) 0 : Nat) = 1 := by
    decide
  rw [h1, h2]
  norm_num

/-- C9 amended. For every ROI with `xbegin < xend` and `ybegin < yend` and
`is_inside_data_window` true, on the unsigned integer paths `avg_val` is the arithmetic
mean of the channel's samples over the ROI rounded down to an integer:
`avg_val = floor(sum / pixel_count)` with `sum` the exact sum of the samples and
`pixel_count = (xend - xbegin) * (yend - ybegin)`; it equals the mean exactly when the
pixel count divides the sum. -/
theorem C9_average_amended (tmax : Nat) (img : Int → Int → Int → Nat) (roi : ROI)
    (channel : Int) (hx : roi.xbegin < roi.xend) (hy : roi.ybegin < roi.yend) :
    (((calculate_channel_stats tmax img roi channel true).avg_val : Int)
      = ⌊((∑ j in Finset.range (roi.yend - roi.ybegin).toNat,
            ∑ i in Finset.range (roi.xend - roi.xbegin).toNat,
              img (roi.xbegin + (i : Int)) (roi.ybegin + (j : Int)) channel : Nat) : ℚ)
          / (((roi.xend - roi.xbegin) * (roi.yend - roi.ybegin) : Int) : ℚ)⌋) ∧
    (((roi.xend - roi.xbegin) * (roi.yend - roi.ybegin)).toNat ∣
        (∑ j in Finset.range (roi.yend - roi.ybegin).toNat,
            ∑ i in Finset.range (roi.xend - roi.xbegin).toNat,
              img (roi.xbegin + (i : Int)) (roi.ybegin + (j : Int)) channel) →
      ((calculate_channel_stats tmax img roi channel true).avg_val : ℚ)
        = ((∑ j in Finset.range (roi.yend - roi.ybegin).toNat,
            ∑ i in Finset.range (roi.xend - roi.xbegin).toNat,
              img (roi.xbegin + (i : Int)) (roi.ybegin + (j : Int)) channel : Nat) : ℚ)
          / (((roi.xend - roi.xbegin) * (roi.yend - roi.ybegin) : Int) : ℚ)) := by
  rw [calculate_channel_stats_scan tmax img roi channel hx hy]
  obtain ⟨_, _, hsum⟩ :=
    stats_fold ((raster roi.xbegin roi.xend roi.ybegin roi.yend).map
      (fun p => img p.1 p.2 channel)) (tmax, 0, 0)
  rw [raster_sum (fun p => img p.1 p.2 channel)] at hsum
  simp only [Nat.zero_add] at hsum
  simp only [hsum]
  have hpos : 0 < (roi.xend - roi.xbegin) * (roi.yend - roi.ybegin) :=
    mul_pos (by omega) (by omega)
  have hd : (((roi.xend - roi.xbegin) * (roi.yend - roi.ybegin)).toNat : Int)
      = (roi.xend - roi.xbegin) * (roi.yend - roi.ybegin) := Int.toNat_of_nonneg hpos.le
  generalize (∑ j in Finset.range (roi.yend - roi.ybegin).toNat,
      ∑ i in Finset.range (roi.xend - roi.xbegin).toNat,
        img (roi.xbegin + (i : Int)) (roi.ybegin + (j : Int)) channel) = S
  rw [← hd]
  generalize ((roi.xend - roi.xbegin) * (roi.yend - roi.ybegin)).toNat = d at hd
  have hd0 : 0 < d := by omega
  constructor
  · have h := Rat.floor_intCast_div_natCast (S : Int) d
    simp only [Int.cast_natCast] at h ⊢
    rw [h]
    push_cast
    rfl
  · intro hdvd
    simp only [Int.cast_natCast]
    exact Nat.cast_div hdvd (by exact_mod_cast hd0.ne')

theorem C9_average_amended_witness :
    ((0 : Int) < 8 ∧ (0 : Int) < 8) ∧
    (((calculate_channel_stats 255 ramp_image ⟨0, 8, 0, 8⟩ 0 true).avg_val : Int)
      = ⌊((∑ j in Finset.range ((8 : Int) - 0).toNat,
            ∑ i in Finset.range ((8 : Int) - 0).toNat,
              ramp_image (0 + (i : Int)) (0 + (j : Int)) 0 : Nat) : ℚ)
          / ((((8 : Int) - 0) * ((8 : Int) - 0) : Int) : ℚ)⌋) ∧
    (((((8 : Int) - 0) * ((8 : Int) - 0)).toNat ∣
        (∑ j in Finset.range ((8 : Int) - 0).toNat,
            ∑ i in Finset.range ((8 : Int) - 0).toNat,
              ramp_image (0 + (i : Int)) (0 + (j : Int)) 0)) →
      ((calculate_channel_stats 255 ramp_image ⟨0, 8, 0, 8⟩ 0 true).avg_val : ℚ)
        = ((∑ j in Finset.range ((8 : Int) - 0).toNat,
            ∑ i in Finset.range ((8 : Int) - 0).toNat,
              ramp_image (0 + (i : Int)) (0 + (j : Int)) 0 : Nat) : ℚ)
          / ((((8 : Int) - 0) * ((8 : Int) - 0) : Int) : ℚ)) :=
  ⟨⟨by decide, by decide⟩,
   C9_average_amended 255 ramp_image ⟨0, 8, 0, 8⟩ 0 (by decide) (by decide)⟩

/-! ## Theorems: area probe -/

/-- What one scan of `probe_channel_step` over a list of samples computes, from any
start. -/
theorem probe_channel_fold (vals : List ℚ) :
    ∀ (acc : ℚ × ℚ × ℚ),
      ((vals.foldl probe_channel_step acc).1 ≤ acc.1 ∧
        (∀ v ∈ vals, (vals.foldl probe_channel_step acc).1 ≤ v) ∧
        ((vals.foldl probe_channel_step acc).1 = acc.1 ∨
          (vals.foldl probe_channel_step acc).1 ∈ vals)) ∧
      (acc.2.1 ≤ (vals.foldl probe_channel_step acc).2.1 ∧
        (∀ v ∈ vals, v ≤ (vals.foldl probe_channel_step acc).2.1) ∧
        ((vals.foldl probe_channel_step acc).2.1 = acc.2.1 ∨
          (vals.foldl probe_channel_step acc).2.1 ∈ vals)) ∧
      (vals.foldl probe_channel_step acc).2.2 = acc.2.2 + vals.sum := by
  induction vals with
  | nil => intro acc; simp
  | cons v vals ih =>
    intro acc
    obtain ⟨⟨h1, h2, h3⟩, ⟨h4, h5, h6⟩, h7⟩ := ih (probe_channel_step acc v)
    simp only [List.foldl_cons, List.mem_cons, List.sum_cons]
    have e1 : (probe_channel_step acc v).1 = min acc.1 v := rfl
    have e2 : (probe_channel_step acc v).2.1 = max acc.2.1 v := rfl
    have e3 : (probe_channel_step acc v).2.2 = acc.2.2 + v := rfl
    rw [e1] at h1 h3
    rw [e2] at h4 h6
    rw [e3] at h7
    refine ⟨⟨?_, ?_, ?_⟩, ⟨?_, ?_, ?_⟩, ?_⟩
    · exact le_trans h1 (min_le_left _ _)
    · intro w hw
      rcases hw with rfl | hw
      · exact le_trans h1 (min_le_right _ _)
      · exact h2 w hw
    · rcases h3 with h3 | h3
      · rcases min_choice acc.1 v with hm | hm
        · left; rw [h3, hm]
        · right; left; rw [h3, hm]
      · right; right; exact h3
    · exact le_trans (le_max_left _ _) h4
    · intro w hw
      rcases hw with rfl | hw
      · exact le_trans (le_max_right _ _) h4
      · exact h5 w hw
    · rcases h6 with h6 | h6
      · rcases max_choice acc.2.1 v with hm | hm
        · left; rw [h6, hm]
        · right; left; rw [h6, hm]
      · right; right; exact h6
    · rw [h7, add_assoc]

/-- The pixel loop seen on one channel `c < nchannels` is the scan of that channel's
samples, and `count` counts the pixels. -/
theorem probe_fold_channel (img : IvImage) (c : Nat) (hc : c < img.nchannels)
    (l : List (Int × Int)) :
    ∀ (acc : ProbeAcc),
      ((l.foldl (probe_step img) acc).min_vals c, (l.foldl (probe_step img) acc).max_vals c,
          (l.foldl (probe_step img) acc).sums c)
        = (l.map (fun p => img.getpixel (p.1 + img.spec_x) (p.2 + img.spec_y) c)).foldl
            probe_channel_step (acc.min_vals c, acc.max_vals c, acc.sums c) ∧
      (l.foldl (probe_step img) acc).count = acc.count + (l.length : Int) := by
  induction l with
  | nil => intro acc; simp
  | cons p l ih =>
    intro acc
    obtain ⟨h1, h2⟩ := ih (probe_step img acc p)
    simp only [List.foldl_cons, List.map_cons, List.length_cons]
    rw [h1, h2]
    constructor
    · simp [probe_step, probe_channel_step, hc]
    · simp only [probe_step]; push_cast; ring

theorem area_probe_box_ordered (v : View) (img : IvImage) :
    (area_probe_box v img).1 ≤ (area_probe_box v img).2.1 ∧
    (area_probe_box v img).2.2.1 ≤ (area_probe_box v img).2.2.2 := by
  simp only [area_probe_box]
  exact ⟨le_trans (min_le_left _ _) (le_max_left _ _),
    le_trans (min_le_left _ _) (le_max_left _ _)⟩

/-- The scan of a box seen on one channel: extrema and sum come from one pass over the
samples of the box in raster order, and `count` is the number of pixels. -/
theorem area_probe_scan_channel (img : IvImage) (xmin xmax ymin ymax : Int) (c : Nat)
    (hc : c < img.nchannels) :
    (area_probe_scan img xmin xmax ymin ymax).min_vals c
      = (((raster xmin (xmax + 1) ymin (ymax + 1)).map
          (fun p => img.getpixel (p.1 + img.spec_x) (p.2 + img.spec_y) c)).foldl
            probe_channel_step (FLT_MAX, -FLT_MAX, 0)).1 ∧
    (area_probe_scan img xmin xmax ymin ymax).max_vals c
      = (((raster xmin (xmax + 1) ymin (ymax + 1)).map
          (fun p => img.getpixel (p.1 + img.spec_x) (p.2 + img.spec_y) c)).foldl
            probe_channel_step (FLT_MAX, -FLT_MAX, 0)).2.1 ∧
    (area_probe_scan img xmin xmax ymin ymax).count
      = ((raster xmin (xmax + 1) ymin (ymax + 1)).length : Int) ∧
    (area_probe_scan img xmin xmax ymin ymax).avg c
      = (if ((raster xmin (xmax + 1) ymin (ymax + 1)).length : Int) > 0 then
          (((raster xmin (xmax + 1) ymin (ymax + 1)).map
            (fun p => img.getpixel (p.1 + img.spec_x) (p.2 + img.spec_y) c)).foldl
              probe_channel_step (FLT_MAX, -FLT_MAX, 0)).2.2
            / (((raster xmin (xmax + 1) ymin (ymax + 1)).length : Int) : ℚ)
         else 0) := by
  obtain ⟨h1, h2⟩ := probe_fold_channel img c hc (raster xmin (xmax + 1) ymin (ymax + 1))
    { min_vals := fun _ => FLT_MAX, max_vals := fun _ => -FLT_MAX, sums := fun _ => 0,
      count := 0 }
  simp only [zero_add] at h2
  have h1a := congrArg Prod.fst h1
  have h1b := congrArg (fun t => t.2.1) h1
  have h1c := congrArg (fun t => t.2.2) h1
  simp only at h1a h1b h1c
  simp only [area_probe_scan]
  rw [h2, ← h1a, ← h1b, ← h1c]
  exact ⟨rfl, rfl, rfl, rfl⟩

/-- The scan of a non-empty box `[xmin, xmax] × [ymin, ymax]` on a channel whose samples
are finite floats: extrema, pixel count, mean, and the uniform case. -/
theorem area_probe_scan_spec (img : IvImage) (xmin xmax ymin ymax : Int) (c : Nat)
    (hc : c < img.nchannels) (hx : xmin ≤ xmax) (hy : ymin ≤ ymax)
    (hfin : ∀ x y, -FLT_MAX ≤ img.getpixel x y c ∧ img.getpixel x y c ≤ FLT_MAX) :
    (∃ x y, (xmin ≤ x ∧ x ≤ xmax) ∧ (ymin ≤ y ∧ y ≤ ymax) ∧
      img.getpixel (x + img.spec_x) (y + img.spec_y) c
        = (area_probe_scan img xmin xmax ymin ymax).min_vals c) ∧
    (∀ x y, (xmin ≤ x ∧ x ≤ xmax) → (ymin ≤ y ∧ y ≤ ymax) →
      (area_probe_scan img xmin xmax ymin ymax).min_vals c
        ≤ img.getpixel (x + img.spec_x) (y + img.spec_y) c) ∧
    (∃ x y, (xmin ≤ x ∧ x ≤ xmax) ∧ (ymin ≤ y ∧ y ≤ ymax) ∧
      img.getpixel (x + img.spec_x) (y + img.spec_y) c
        = (area_probe_scan img xmin xmax ymin ymax).max_vals c) ∧
    (∀ x y, (xmin ≤ x ∧ x ≤ xmax) → (ymin ≤ y ∧ y ≤ ymax) →
      img.getpixel (x + img.spec_x) (y + img.spec_y) c
        ≤ (area_probe_scan img xmin xmax ymin ymax).max_vals c) ∧
    (area_probe_scan img xmin xmax ymin ymax).count
      = (xmax - xmin + 1) * (ymax - ymin + 1) ∧
    (area_probe_scan img xmin xmax ymin ymax).avg c
      = (∑ j in Finset.range (ymax + 1 - ymin).toNat,
          ∑ i in Finset.range (xmax + 1 - xmin).toNat,
            img.getpixel (xmin + (i : Int) + img.spec_x) (ymin + (j : Int) + img.spec_y) c)
        / (((xmax - xmin + 1) * (ymax - ymin + 1) : Int) : ℚ) ∧
    (∀ val, (∀ x y, img.getpixel x y c = val) →
      (area_probe_scan img xmin xmax ymin ymax).min_vals c = val ∧
      (area_probe_scan img xmin xmax ymin ymax).max_vals c = val ∧
      (area_probe_scan img xmin xmax ymin ymax).avg c = val) := by
  obtain ⟨hmin, hmax, hcount, havg⟩ := area_probe_scan_channel img xmin xmax ymin ymax c hc
  obtain ⟨⟨_, hmin_le, hmin_mem⟩, ⟨_, hmax_le, hmax_mem⟩, hsum⟩ :=
    probe_channel_fold ((raster xmin (xmax + 1) ymin (ymax + 1)).map
      (fun p => img.getpixel (p.1 + img.spec_x) (p.2 + img.spec_y) c)) (FLT_MAX, -FLT_MAX, 0)
  have hlen : ((raster xmin (xmax + 1) ymin (ymax + 1)).length : Int)
      = (xmax - xmin + 1) * (ymax - ymin + 1) := by
    rw [raster_length]
    push_cast
    rw [Int.toNat_of_nonneg (by omega), Int.toNat_of_nonneg (by omega)]
    ring
  have hpos : 0 < (xmax - xmin + 1) * (ymax - ymin + 1) := mul_pos (by omega) (by omega)
  have hval : ∀ x y, (xmin ≤ x ∧ x ≤ xmax) → (ymin ≤ y ∧ y ≤ ymax) →
      img.getpixel (x + img.spec_x) (y + img.spec_y) c
        ∈ (raster xmin (xmax + 1) ymin (ymax + 1)).map
          (fun p => img.getpixel (p.1 + img.spec_x) (p.2 + img.spec_y) c) := by
    intro x y h1 h2
    exact List.mem_map.2 ⟨(x, y),
      (mem_raster _ _ _ _ x y).2 ⟨⟨h1.1, by omega⟩, ⟨h2.1, by omega⟩⟩, rfl⟩
  have hpix : ∀ q, q ∈ (raster xmin (xmax + 1) ymin (ymax + 1)).map
        (fun p => img.getpixel (p.1 + img.spec_x) (p.2 + img.spec_y) c) →
      ∃ x y, (xmin ≤ x ∧ x ≤ xmax) ∧ (ymin ≤ y ∧ y ≤ ymax) ∧
        img.getpixel (x + img.spec_x) (y + img.spec_y) c = q := by
    intro q hq
    obtain ⟨⟨x, y⟩, hp, rfl⟩ := List.mem_map.1 hq
    have := (mem_raster _ _ _ _ x y).1 hp
    exact ⟨x, y, ⟨this.1.1, by omega⟩, ⟨this.2.1, by omega⟩, rfl⟩
  have h0 := hval xmin ymin ⟨le_refl _, hx⟩ ⟨le_refl _, hy⟩
  have hf0 := hfin (xmin + img.spec_x) (ymin + img.spec_y)
  have hattmin : ∃ x y, (xmin ≤ x ∧ x ≤ xmax) ∧ (ymin ≤ y ∧ y ≤ ymax) ∧
      img.getpixel (x + img.spec_x) (y + img.spec_y) c
        = (area_probe_scan img xmin xmax ymin ymax).min_vals c := by
    rw [hmin]
    rcases hmin_mem with heq | hmem
    · refine ⟨xmin, ymin, ⟨le_refl _, hx⟩, ⟨le_refl _, hy⟩, ?_⟩
      have h1 := hmin_le _ h0
      simp only at heq
      rw [heq] at h1 ⊢
      exact le_antisymm hf0.2 h1
    · exact hpix _ hmem
  have hattmax : ∃ x y, (xmin ≤ x ∧ x ≤ xmax) ∧ (ymin ≤ y ∧ y ≤ ymax) ∧
      img.getpixel (x + img.spec_x) (y + img.spec_y) c
        = (area_probe_scan img xmin xmax ymin ymax).max_vals c := by
    rw [hmax]
    rcases hmax_mem with heq | hmem
    · refine ⟨xmin, ymin, ⟨le_refl _, hx⟩, ⟨le_refl _, hy⟩, ?_⟩
      have h1 := hmax_le _ h0
      simp only at heq
      rw [heq] at h1 ⊢
      exact le_antisymm h1 hf0.1
    · exact hpix _ hmem
  have havg1 : (area_probe_scan img xmin xmax ymin ymax).avg c
      = (∑ j in Finset.range (ymax + 1 - ymin).toNat,
          ∑ i in Finset.range (xmax + 1 - xmin).toNat,
            img.getpixel (xmin + (i : Int) + img.spec_x) (ymin + (j : Int) + img.spec_y) c)
        / (((xmax - xmin + 1) * (ymax - ymin + 1) : Int) : ℚ) := by
    rw [havg, hlen, if_pos hpos, hsum,
      raster_sum (fun p => img.getpixel (p.1 + img.spec_x) (p.2 + img.spec_y) c)]
    simp only [zero_add]
  refine ⟨hattmin, ?_, hattmax, ?_, ?_, havg1, ?_⟩
  · intro x y h1 h2
    rw [hmin]; exact hmin_le _ (hval x y h1 h2)
  · intro x y h1 h2
    rw [hmax]; exact hmax_le _ (hval x y h1 h2)
  · rw [hcount, hlen]
  · intro val huni
    obtain ⟨x1, y1, _, _, e1⟩ := hattmin
    obtain ⟨x2, y2, _, _, e2⟩ := hattmax
    refine ⟨by rw [← e1, huni], by rw [← e2, huni], ?_⟩
    rw [havg1]
    simp only [huni, Finset.sum_const, Finset.card_range, nsmul_eq_mul]
    have hy1 : ((ymax + 1 - ymin).toNat : ℚ) = ((ymax - ymin + 1 : Int) : ℚ) := by
      have : ((ymax + 1 - ymin).toNat : Int) = ymax - ymin + 1 := by omega
      exact_mod_cast this
    have hx1 : ((xmax + 1 - xmin).toNat : ℚ) = ((xmax - xmin + 1 : Int) : ℚ) := by
      have : ((xmax + 1 - xmin).toNat : Int) = xmax - xmin + 1 := by omega
      exact_mod_cast this
    have hA : ((xmax - xmin + 1 : Int) : ℚ) ≠ 0 := by
      exact_mod_cast (show xmax - xmin + 1 ≠ 0 by omega)
    have hB : ((ymax - ymin + 1 : Int) : ℚ) ≠ 0 := by
      exact_mod_cast (show ymax - ymin + 1 ≠ 0 by omega)
    rw [hy1, hx1, Int.cast_mul]
    generalize ((xmax - xmin + 1 : Int) : ℚ) = A at hA ⊢
    generalize ((ymax - ymin + 1 : Int) : ℚ) = B at hB ⊢
    field_simp
    ring

/-! ## Theorems: viewport state -/

theorem clampf_mem (a low high : ℚ) (h : low ≤ high) :
    low ≤ clampf a low high ∧ clampf a low high ≤ high := by
  unfold clampf
  simp only
  split_ifs <;> constructor <;> linarith

/-- On one axis: when the zoomed display window is at least as wide as the viewport, the
clamp bounds are ordered. -/
theorem clamp_bounds_ordered (z : ℚ) (hz : 0 < z) (w o ow f fw : Int)
    (h : z * (fw : ℚ) ≥ (w : ℚ)) :
    ((min o f : Int) : ℚ) + 0.5 * (w : ℚ) / z
      ≤ ((max (o + ow) (f + fw) : Int) : ℚ) - 0.5 * (w : ℚ) / z := by
  have h1 : (w : ℚ) / z ≤ (fw : ℚ) := by
    rw [div_le_iff₀ hz]; linarith [mul_comm z (fw : ℚ)]
  have h2 : ((min o f : Int) : ℚ) ≤ (f : ℚ) := by exact_mod_cast min_le_right o f
  have h3 : ((f + fw : Int) : ℚ) ≤ ((max (o + ow) (f + fw) : Int) : ℚ) := by
    exact_mod_cast le_max_right (o + ow) (f + fw)
  have h4 : (0.5 : ℚ) * (w : ℚ) / z = (w : ℚ) / z / 2 := by ring
  rw [h4]
  push_cast at h2 h3 ⊢
  linarith

/-- C11. View clamp invariant, zoomed content at least as large as the viewport: with an
image bound and `m_zoom = z > 0`, after `clamp_view_to_window()`, on each axis where `z`
times the oriented display-window extent is `>=` the viewport extent `w`, the lower bound
`xmin + 0.5 w / z` does not exceed the upper bound `xmax - 0.5 w / z` and the pan center
lies between them, where `[xmin, xmax]` is the union of the oriented data window and
display window on that axis. -/
theorem C11_clamp_view_large (v : View) (img : OrientedWindows) (hz : 0 < v.m_zoom) :
    (v.m_zoom * (img.oriented_full_width : ℚ) ≥ (v.width : ℚ) →
      ((min img.oriented_x img.oriented_full_x : Int) : ℚ) + 0.5 * (v.width : ℚ) / v.m_zoom
        ≤ ((max (img.oriented_x + img.oriented_width)
            (img.oriented_full_x + img.oriented_full_width) : Int) : ℚ)
          - 0.5 * (v.width : ℚ) / v.m_zoom ∧
      ((min img.oriented_x img.oriented_full_x : Int) : ℚ) + 0.5 * (v.width : ℚ) / v.m_zoom
        ≤ (clamp_view_to_window v (some img)).m_centerx ∧
      (clamp_view_to_window v (some img)).m_centerx
        ≤ ((max (img.oriented_x + img.oriented_width)
            (img.oriented_full_x + img.oriented_full_width) : Int) : ℚ)
          - 0.5 * (v.width : ℚ) / v.m_zoom) ∧
    (v.m_zoom * (img.oriented_full_height : ℚ) ≥ (v.height : ℚ) →
      ((min img.oriented_y img.oriented_full_y : Int) : ℚ) + 0.5 * (v.height : ℚ) / v.m_zoom
        ≤ ((max (img.oriented_y + img.oriented_height)
            (img.oriented_full_y + img.oriented_full_height) : Int) : ℚ)
          - 0.5 * (v.height : ℚ) / v.m_zoom ∧
      ((min img.oriented_y img.oriented_full_y : Int) : ℚ) + 0.5 * (v.height : ℚ) / v.m_zoom
        ≤ (clamp_view_to_window v (some img)).m_centery ∧
      (clamp_view_to_window v (some img)).m_centery
        ≤ ((max (img.oriented_y + img.oriented_height)
            (img.oriented_full_y + img.oriented_full_height) : Int) : ℚ)
          - 0.5 * (v.height : ℚ) / v.m_zoom) := by
  constructor
  · intro h
    have hb := clamp_bounds_ordered v.m_zoom hz v.width img.oriented_x img.oriented_width
      img.oriented_full_x img.oriented_full_width h
    have hm := clampf_mem v.m_centerx _ _ hb
    refine ⟨hb, ?_, ?_⟩
    · simp only [clamp_view_to_window, if_pos h]; exact hm.1
    · simp only [clamp_view_to_window, if_pos h]; exact hm.2
  · intro h
    have hb := clamp_bounds_ordered v.m_zoom hz v.height img.oriented_y img.oriented_height
      img.oriented_full_y img.oriented_full_height h
    have hm := clampf_mem v.m_centery _ _ hb
    refine ⟨hb, ?_, ?_⟩
    · simp only [clamp_view_to_window, if_pos h]; exact hm.1
    · simp only [clamp_view_to_window, if_pos h]; exact hm.2

theorem C11_clamp_view_large_witness :
    0 < small_view.m_zoom ∧
    (
    (small_view.m_zoom * (square_windows.oriented_full_width : ℚ) ≥ (small_view.width : ℚ) →
      ((min square_windows.oriented_x square_windows.oriented_full_x : Int) : ℚ) + 0.5 * (small_view.width : ℚ) / small_view.m_zoom
        ≤ ((max (square_windows.oriented_x + square_windows.oriented_width)
            (square_windows.oriented_full_x + square_windows.oriented_full_width) : Int) : ℚ)
          - 0.5 * (small_view.width : ℚ) / small_view.m_zoom ∧
      ((min square_windows.oriented_x square_windows.oriented_full_x : Int) : ℚ) + 0.5 * (small_view.width : ℚ) / small_view.m_zoom
        ≤ (clamp_view_to_window small_view (some square_windows)).m_centerx ∧
      (clamp_view_to_window small_view (some square_windows)).m_centerx
        ≤ ((max (square_windows.oriented_x + square_windows.oriented_width)
            (square_windows.oriented_full_x + square_windows.oriented_full_width) : Int) : ℚ)
          - 0.5 * (small_view.width : ℚ) / small_view.m_zoom) ∧
    (small_view.m_zoom * (square_windows.oriented_full_height : ℚ) ≥ (small_view.height : ℚ) →
      ((min square_windows.oriented_y square_windows.oriented_full_y : Int) : ℚ) + 0.5 * (small_view.height : ℚ) / small_view.m_zoom
        ≤ ((max (square_windows.oriented_y + square_windows.oriented_height)
            (square_windows.oriented_full_y + square_windows.oriented_full_height) : Int) : ℚ)
          - 0.5 * (small_view.height : ℚ) / small_view.m_zoom ∧
      ((min square_windows.oriented_y square_windows.oriented_full_y : Int) : ℚ) + 0.5 * (small_view.height : ℚ) / small_view.m_zoom
        ≤ (clamp_view_to_window small_view (some square_windows)).m_centery ∧
      (clamp_view_to_window small_view (some square_windows)).m_centery
        ≤ ((max (square_windows.oriented_y + square_windows.oriented_height)
            (square_windows.oriented_full_y + square_windows.oriented_full_height) : Int) : ℚ)
          - 0.5 * (small_view.height : ℚ) / small_view.m_zoom)) :=
  ⟨by norm_num [small_view],
   C11_clamp_view_large small_view square_windows (by norm_num [small_view])⟩

/-- C12, the code at a display window of odd extent: for the display window `[0, 101)`,
zoom 1 and a viewport 200 wide (zoomed content smaller than the viewport),
`clamp_view_to_window` sets the pan center to 50, which is not the midpoint `101 / 2`;
at a viewport exactly 101 wide the clamping branch of the same function does give
`101 / 2`. -/
theorem C12_center_lock_truncates :
    (example_view.m_zoom * (odd_windows.oriented_full_width : ℚ) < (example_view.width : ℚ)) ∧
    (clamp_view_to_window example_view (some odd_windows)).m_centerx = 50 ∧
    (clamp_view_to_window example_view (some odd_windows)).m_centerx
      ≠ (odd_windows.oriented_full_x : ℚ) + (odd_windows.oriented_full_width : ℚ) / 2 ∧
    (clamp_view_to_window odd_view (some odd_windows)).m_centerx
      = (odd_windows.oriented_full_x : ℚ) + (odd_windows.oriented_full_width : ℚ) / 2 := by
  have h50 : (clamp_view_to_window example_view (some odd_windows)).m_centerx = 50 := by
    simp only [clamp_view_to_window, example_view, odd_windows]
    norm_num
    decide
  refine ⟨by norm_num [example_view, odd_windows], h50, ?_, ?_⟩
  · rw [h50]; norm_num [odd_windows]
  · simp only [clamp_view_to_window, odd_view, odd_windows, clampf]
    norm_num

/-- C13 as stated fails: with the 100 × 100 image bound and a 200 × 200 viewport,
`view(1000, 1000, 1, false)` leaves the pan center at (1000, 1000), which
`clamp_view_to_window()` would move: the state is not a fixed point of the clamp. -/
theorem C13_view_not_clamped_counterexample :
    clamp_view_to_window (view example_view 1000 1000 1 false).1 (some square_windows)
      ≠ (view example_view 1000 1000 1 false).1 := by
  intro h
  have h1 := congrArg View.m_centerx h
  simp only [clamp_view_to_window, view, example_view, square_windows] at h1
  have h2 : Int.tdiv 100 2 = 50 := by decide
  norm_num [h2] at h1

theorem clampf_idem (a low high : ℚ) :
    clampf (clampf a low high) low high = clampf a low high := by
  unfold clampf
  simp only
  split_ifs <;> first | rfl | (exfalso; linarith)

/-- C13 amended. `view`, `zoom`, `center` and `pan` do not clamp: they store the requested
center and zoom as given (`zoom` keeps the center, `center` takes the zoom of the viewer,
`pan` adds the offsets to the center) and request a redraw when asked to. The clamp is
applied by `clamp_view_to_window()` only, which is idempotent: after it the state is a
fixed point of the clamp. -/
theorem C13_view_mutations_amended (v : View) (x y z dx dy viewer_zoom : ℚ)
    (redraw : Bool) (img : Option OrientedWindows) :
    view v x y z redraw
      = ({ v with m_centerx := x, m_centery := y, m_zoom := z }, redraw) ∧
    zoom v z redraw = ({ v with m_zoom := z }, redraw) ∧
    center v viewer_zoom x y redraw
      = ({ v with m_centerx := x, m_centery := y, m_zoom := viewer_zoom }, redraw) ∧
    pan v viewer_zoom dx dy redraw
      = ({ v with m_centerx := v.m_centerx + dx, m_centery := v.m_centery + dy,
                  m_zoom := viewer_zoom }, redraw) ∧
    clamp_view_to_window (clamp_view_to_window v img) img = clamp_view_to_window v img := by
  refine ⟨rfl, rfl, rfl, rfl, ?_⟩
  cases img with
  | none => rfl
  | some img =>
    simp only [clamp_view_to_window]
    by_cases hx : v.m_zoom * (img.oriented_full_width : ℚ) ≥ (v.width : ℚ) <;>
      by_cases hy : v.m_zoom * (img.oriented_full_height : ℚ) ≥ (v.height : ℚ) <;>
      simp only [hx, hy, if_true, if_false, clampf_idem]

/-- C15. `window_to_image`: for zoom `z > 0`, pan center `(cx, cy)`, viewport size
`(w, h)` with `w, h > 0` and window pixel `(mx, my)`, `get_given_image_pixel` returns
`(floor(cx + (mx + 1/2 - w/2) / z), floor(cy + (my + 1/2 - h/2) / z))`, the floor of the
linear interpolation of the normalized cursor position `(mx + 1/2) / w` between
`left = cx - 0.5 w / z` and `right = cx + 0.5 w / z` (analogously for y);
`get_focus_image_pixel` returns the same value for the remembered mouse position. -/
theorem C15_window_to_image (v : View) (mx my : Int) (hz : 0 < v.m_zoom)
    (hw : 0 < v.width) (hh : 0 < v.height) :
    get_given_image_pixel v mx my
      = (⌊v.m_centerx + ((mx : ℚ) + 1 / 2 - (v.width : ℚ) / 2) / v.m_zoom⌋,
         ⌊v.m_centery + ((my : ℚ) + 1 / 2 - (v.height : ℚ) / 2) / v.m_zoom⌋) ∧
    get_given_image_pixel v mx my
      = (⌊lerp (v.m_centerx - 0.5 * (v.width : ℚ) / v.m_zoom)
            (v.m_centerx + 0.5 * (v.width : ℚ) / v.m_zoom)
            (((mx : ℚ) + 1 / 2) / (v.width : ℚ))⌋,
         ⌊lerp (v.m_centery - 0.5 * (v.height : ℚ) / v.m_zoom)
            (v.m_centery + 0.5 * (v.height : ℚ) / v.m_zoom)
            (((my : ℚ) + 1 / 2) / (v.height : ℚ))⌋) ∧
    get_focus_image_pixel v mx my = get_given_image_pixel v mx my := by
  have hz0 : v.m_zoom ≠ 0 := hz.ne'
  have hw0 : (v.width : ℚ) ≠ 0 := by exact_mod_cast hw.ne'
  have hh0 : (v.height : ℚ) ≠ 0 := by exact_mod_cast hh.ne'
  have hhalf : (0.5 : ℚ) = 1 / 2 := by norm_num
  have kx : lerp (v.m_centerx - 0.5 * (v.width : ℚ) / v.m_zoom)
      (v.m_centerx + 0.5 * (v.width : ℚ) / v.m_zoom) (((mx : ℚ) + 0.5) / (v.width : ℚ))
      = v.m_centerx + ((mx : ℚ) + 1 / 2 - (v.width : ℚ) / 2) / v.m_zoom := by
    unfold lerp; rw [hhalf]; field_simp; ring
  have ky : lerp (v.m_centery - 0.5 * (v.height : ℚ) / v.m_zoom)
      (v.m_centery + 0.5 * (v.height : ℚ) / v.m_zoom) (((my : ℚ) + 0.5) / (v.height : ℚ))
      = v.m_centery + ((my : ℚ) + 1 / 2 - (v.height : ℚ) / 2) / v.m_zoom := by
    unfold lerp; rw [hhalf]; field_simp; ring
  refine ⟨?_, ?_, rfl⟩
  · simp only [get_given_image_pixel, kx, ky]
  · simp only [get_given_image_pixel, hhalf]

theorem C15_window_to_image_witness :
    (0 < example_view.m_zoom ∧ 0 < example_view.width ∧ 0 < example_view.height) ∧
    (get_given_image_pixel example_view 60 80
      = (⌊example_view.m_centerx
            + (((60 : Int) : ℚ) + 1 / 2 - (example_view.width : ℚ) / 2) / example_view.m_zoom⌋,
         ⌊example_view.m_centery
            + (((80 : Int) : ℚ) + 1 / 2 - (example_view.height : ℚ) / 2)
              / example_view.m_zoom⌋) ∧
    get_given_image_pixel example_view 60 80
      = (⌊lerp (example_view.m_centerx - 0.5 * (example_view.width : ℚ) / example_view.m_zoom)
            (example_view.m_centerx + 0.5 * (example_view.width : ℚ) / example_view.m_zoom)
            ((((60 : Int) : ℚ) + 1 / 2) / (example_view.width : ℚ))⌋,
         ⌊lerp (example_view.m_centery - 0.5 * (example_view.height : ℚ) / example_view.m_zoom)
            (example_view.m_centery + 0.5 * (example_view.height : ℚ) / example_view.m_zoom)
            ((((80 : Int) : ℚ) + 1 / 2) / (example_view.height : ℚ))⌋) ∧
    get_focus_image_pixel example_view 60 80 = get_given_image_pixel example_view 60 80) :=
  ⟨⟨by norm_num [example_view], by decide, by decide⟩,
   C15_window_to_image example_view 60 80 (by norm_num [example_view]) (by decide)
     (by decide)⟩

/-! ## Theorems: paintGL rectangle and tile loop -/

/-- End-to-end scenario A: image 100 × 100 at origin (0, 0), orientation 1, zoom 1, center
(50, 50), viewport 200 × 200, tile size 128: the drawn rectangle is exactly
`[0, 100) × [0, 100)`. -/
theorem paintGL_rect_scenario_A :
    paintGL_rect example_view gray_image 128 128
      = { xbegin := 0, xend := 100, ybegin := 0, yend := 100 } := by
  have hc : ⌈((200 : Int) : ℚ) / (2 * 1)⌉ = 100 := by norm_num
  have hf : ⌊(50 : ℚ)⌋ = 50 := by norm_num
  simp only [paintGL_rect, example_view, gray_image, handle_orientation, orient_init, hc, hf]
  decide

/-- C14, the code at a data window with a negative origin: for the 256 × 256 image whose
data window starts at `(-64, -64)`, orientation 1, zoom 1, center (0, 0), viewport
100 × 100 and tile size 256, the unsnapped visible rectangle is `[-50, 50) × [-50, 50)`,
so the pixel `(-50, -50)` is a data-window pixel of it; but the drawn rectangle is
`[0, 192) × [0, 192)`, which does not contain that pixel: for a negative begin the
remainder is negative and the snap moves the begin toward zero, inward. -/
theorem C14_visible_rect_negative_begin :
    paintGL_rect origin_view overscan_image 256 256
      = { xbegin := 0, xend := 192, ybegin := 0, yend := 192 } ∧
    (⌊origin_view.m_centerx⌋ - ⌈(origin_view.width : ℚ) / (2 * origin_view.m_zoom)⌉ = -50 ∧
      ⌊origin_view.m_centerx⌋ + ⌈(origin_view.width : ℚ) / (2 * origin_view.m_zoom)⌉ = 50 ∧
      ⌊origin_view.m_centery⌋ - ⌈(origin_view.height : ℚ) / (2 * origin_view.m_zoom)⌉ = -50 ∧
      ⌊origin_view.m_centery⌋ + ⌈(origin_view.height : ℚ) / (2 * origin_view.m_zoom)⌉ = 50) ∧
    (overscan_image.spec_x ≤ -50 ∧ -50 < overscan_image.spec_x + overscan_image.spec_width ∧
      overscan_image.spec_y ≤ -50 ∧
      -50 < overscan_image.spec_y + overscan_image.spec_height) ∧
    ¬ ((paintGL_rect origin_view overscan_image 256 256).xbegin ≤ -50) ∧
    Int.tmod (-50) 256 = -50 := by
  have hc : ⌈((100 : Int) : ℚ) / (2 * 1)⌉ = 50 := by norm_num
  have hf : ⌊(0 : ℚ)⌋ = 0 := by norm_num
  simp only [paintGL_rect, origin_view, overscan_image, handle_orientation, orient_init,
    hc, hf]
  decide

theorem loop_starts_mem (step : Int) (hs : 1 ≤ step) :
    ∀ (fuel : Nat) (start stop t : Int), t ∈ loop_starts fuel start stop step →
      start ≤ t ∧ t < stop := by
  intro fuel
  induction fuel with
  | zero => intro start stop t h; simp [loop_starts] at h
  | succ fuel ih =>
    intro start stop t h
    unfold loop_starts at h
    by_cases hlt : start < stop
    · rw [if_pos hlt] at h
      rcases List.mem_cons.1 h with rfl | h1
      · exact ⟨le_refl _, hlt⟩
      · have := ih _ _ _ h1
        exact ⟨by omega, this.2⟩
    · rw [if_neg hlt] at h; simp at h

theorem loop_starts_pairwise (step : Int) (hs : 1 ≤ step) :
    ∀ (fuel : Nat) (start stop : Int),
      (loop_starts fuel start stop step).Pairwise (fun a b => a + step ≤ b) := by
  intro fuel
  induction fuel with
  | zero => intro start stop; simp [loop_starts]
  | succ fuel ih =>
    intro start stop
    unfold loop_starts
    by_cases hlt : start < stop
    · rw [if_pos hlt]
      refine List.pairwise_cons.2 ⟨?_, ih _ _⟩
      intro b hb
      exact (loop_starts_mem step hs _ _ _ _ hb).1
    · rw [if_neg hlt]; exact List.Pairwise.nil

/-- With a step of at least 1 and the extent as fuel, the loop runs until its condition
fails: every value of `[start, stop)` falls into the stretch of one pass. -/
theorem loop_starts_cover (step : Int) (hs : 1 ≤ step) :
    ∀ (fuel : Nat) (start stop : Int), (stop - start).toNat ≤ fuel →
      ∀ x, start ≤ x → x < stop →
        ∃ t ∈ loop_starts fuel start stop step, t ≤ x ∧ x < t + step := by
  intro fuel
  induction fuel with
  | zero => intro start stop hf x h1 h2; omega
  | succ fuel ih =>
    intro start stop hf x h1 h2
    unfold loop_starts
    rw [if_pos (by omega : start < stop)]
    by_cases hx : x < start + step
    · exact ⟨start, List.mem_cons_self _ _, h1, hx⟩
    · obtain ⟨t, ht, h3⟩ := ih (start + step) stop (by omega) x (by omega) h2
      exact ⟨t, List.mem_cons_of_mem _ ht, h3⟩

/-- More fuel than the extent does not change the passes of the loop. -/
theorem loop_starts_fuel (step : Int) (hs : 1 ≤ step) :
    ∀ (fuel : Nat) (start stop : Int), (stop - start).toNat ≤ fuel →
      loop_starts (fuel + 1) start stop step = loop_starts fuel start stop step := by
  intro fuel
  induction fuel with
  | zero =>
    intro start stop hf
    have : ¬ start < stop := by omega
    simp [loop_starts, this]
  | succ fuel ih =>
    intro start stop hf
    by_cases hlt : start < stop
    · have h1 : loop_starts (fuel + 1 + 1) start stop step
          = start :: loop_starts (fuel + 1) (start + step) stop step := by
        rw [loop_starts, if_pos hlt]
      have h2 : loop_starts (fuel + 1) start stop step
          = start :: loop_starts fuel (start + step) stop step := by
        rw [loop_starts, if_pos hlt]
      rw [h1, h2, ih (start + step) stop (by omega)]
    · have h1 : loop_starts (fuel + 1 + 1) start stop step = [] := by
        rw [loop_starts, if_neg hlt]
      have h2 : loop_starts (fuel + 1) start stop step = [] := by
        rw [loop_starts, if_neg hlt]
      rw [h1, h2]

/-- What a pass of the tile loop is made of. -/
theorem paintGL_tiles_mem (r : VisibleRect) (tw th : Int) (htw : 1 ≤ tw) (hth : 1 ≤ th)
    (c : TileDraw) (hc : c ∈ paintGL_tiles r tw th) :
    (r.xbegin ≤ c.xstart ∧ c.xstart < r.xend) ∧ (r.ybegin ≤ c.ystart ∧ c.ystart < r.yend) ∧
    c.tile_width = min (r.xend - c.xstart) tw ∧ c.tile_height = min (r.yend - c.ystart) th ∧
    c.smin = 0 ∧ c.tmin = 0 ∧
    c.smax = (c.tile_width : ℚ) / (tw : ℚ) ∧ c.tmax = (c.tile_height : ℚ) / (th : ℚ) := by
  simp only [paintGL_tiles, List.mem_flatMap, List.mem_map] at hc
  obtain ⟨ys, hys, xs, hxs, rfl⟩ := hc
  exact ⟨loop_starts_mem tw htw _ _ _ _ hxs, loop_starts_mem th hth _ _ _ _ hys,
    rfl, rfl, rfl, rfl, rfl, rfl⟩

/-- The passes of the tile loop are in raster order, with a full tile step between
them. -/
theorem paintGL_tiles_steps (r : VisibleRect) (tw th : Int) (htw : 1 ≤ tw) (hth : 1 ≤ th) :
    (paintGL_tiles r tw th).Pairwise (fun a b =>
      a.ystart + th ≤ b.ystart ∨ (a.ystart = b.ystart ∧ a.xstart + tw ≤ b.xstart)) := by
  unfold paintGL_tiles
  rw [List.pairwise_flatMap]
  constructor
  · intro ys _
    rw [List.pairwise_map]
    exact (loop_starts_pairwise tw htw _ _ _).imp (fun h => Or.inr ⟨rfl, h⟩)
  · refine (loop_starts_pairwise th hth _ _ _).imp ?_
    intro y1 y2 h a ha b hb
    obtain ⟨_, _, rfl⟩ := List.mem_map.1 ha
    obtain ⟨_, _, rfl⟩ := List.mem_map.1 hb
    exact Or.inl h

/-- The passes of the tile loop are in strict raster order. -/
theorem paintGL_tiles_raster_order (r : VisibleRect) (tw th : Int) (htw : 1 ≤ tw) (hth : 1 ≤ th) :
    (paintGL_tiles r tw th).Pairwise (fun a b =>
      a.ystart < b.ystart ∨ (a.ystart = b.ystart ∧ a.xstart < b.xstart)) := by
  refine (paintGL_tiles_steps r tw th htw hth).imp ?_
  intro a b h
  rcases h with h | ⟨h1, h2⟩
  · left; omega
  · right; exact ⟨h1, by omega⟩

/-- C20. Tile iteration in `paintGL`: for a tile size `(tw, th)` with `tw, th >= 1`, the
passes of the tile loop visit the cells in raster order (rows outermost, both
coordinates increasing); the cells are pairwise disjoint, each has `0 < width <= tw` and
`0 < height <= th`, their union is exactly `[xbegin, xend) × [ybegin, yend)`, and the
texture coordinates of each quad span `[0, width / tw] × [0, height / th]`. -/
theorem C20_tile_iteration (r : VisibleRect) (tw th : Int) (htw : 1 ≤ tw) (hth : 1 ≤ th) :
    (paintGL_tiles r tw th).Pairwise (fun a b =>
      a.ystart < b.ystart ∨ (a.ystart = b.ystart ∧ a.xstart < b.xstart)) ∧
    (paintGL_tiles r tw th).Pairwise (fun a b =>
      ∀ x y, ¬ (a.has_pixel x y ∧ b.has_pixel x y)) ∧
    (∀ c ∈ paintGL_tiles r tw th,
      (0 < c.tile_width ∧ c.tile_width ≤ tw) ∧ (0 < c.tile_height ∧ c.tile_height ≤ th) ∧
      c.smin = 0 ∧ c.tmin = 0 ∧
      c.smax = (c.tile_width : ℚ) / (tw : ℚ) ∧ c.tmax = (c.tile_height : ℚ) / (th : ℚ)) ∧
    (∀ x y, (∃ c ∈ paintGL_tiles r tw th, c.has_pixel x y) ↔
      ((r.xbegin ≤ x ∧ x < r.xend) ∧ (r.ybegin ≤ y ∧ y < r.yend))) := by
  have hsteps := paintGL_tiles_steps r tw th htw hth
  refine ⟨?_, ?_, ?_, ?_⟩
  · refine hsteps.imp ?_
    intro a b h
    rcases h with h | ⟨h1, h2⟩
    · left; omega
    · right; exact ⟨h1, by omega⟩
  · refine List.Pairwise.imp_of_mem ?_ hsteps
    intro a b ha _ h x y hxy
    obtain ⟨_, _, hw, hh, _⟩ := paintGL_tiles_mem r tw th htw hth a ha
    obtain ⟨⟨⟨_, ha2⟩, _, ha4⟩, ⟨hb1, _⟩, hb3, _⟩ := hxy
    have hw1 : a.tile_width ≤ tw := by rw [hw]; exact min_le_right _ _
    have hh1 : a.tile_height ≤ th := by rw [hh]; exact min_le_right _ _
    rcases h with h | ⟨_, h2⟩
    · omega
    · omega
  · intro c hc
    obtain ⟨hx, hy, hw, hh, h1, h2, h3, h4⟩ := paintGL_tiles_mem r tw th htw hth c hc
    refine ⟨⟨?_, ?_⟩, ⟨?_, ?_⟩, h1, h2, h3, h4⟩
    · rw [hw]; exact lt_min (by omega) (by omega)
    · rw [hw]; exact min_le_right _ _
    · rw [hh]; exact lt_min (by omega) (by omega)
    · rw [hh]; exact min_le_right _ _
  · intro x y
    constructor
    · rintro ⟨c, hc, ⟨hx1, hx2⟩, hy1, hy2⟩
      obtain ⟨hx, hy, hw, hh, _⟩ := paintGL_tiles_mem r tw th htw hth c hc
      have hw1 : c.tile_width ≤ r.xend - c.xstart := by rw [hw]; exact min_le_left _ _
      have hh1 : c.tile_height ≤ r.yend - c.ystart := by rw [hh]; exact min_le_left _ _
      exact ⟨⟨by omega, by omega⟩, by omega, by omega⟩
    · rintro ⟨⟨hx1, hx2⟩, hy1, hy2⟩
      obtain ⟨xs, hxs, hx3, hx4⟩ :=
        loop_starts_cover tw htw _ r.xbegin r.xend (le_refl _) x hx1 hx2
      obtain ⟨ys, hys, hy3, hy4⟩ :=
        loop_starts_cover th hth _ r.ybegin r.yend (le_refl _) y hy1 hy2
      have hmx : x - xs < min (r.xend - xs) tw := lt_min (by omega) (by omega)
      have hmy : y - ys < min (r.yend - ys) th := lt_min (by omega) (by omega)
      refine ⟨{ xstart := xs, ystart := ys
                tile_width := min (r.xend - xs) tw, tile_height := min (r.yend - ys) th
                smin := 0, tmin := 0
                smax := ((min (r.xend - xs) tw : Int) : ℚ) / (tw : ℚ)
                tmax := ((min (r.yend - ys) th : Int) : ℚ) / (th : ℚ) }, ?_, ?_⟩
      · simp only [paintGL_tiles, List.mem_flatMap, List.mem_map]
        exact ⟨ys, hys, xs, hxs, rfl⟩
      · exact ⟨⟨hx3, by show x < xs + min (r.xend - xs) tw; omega⟩,
          hy3, by show y < ys + min (r.yend - ys) th; omega⟩

theorem C20_tile_iteration_witness :
    ((1 : Int) ≤ 128 ∧ (1 : Int) ≤ 128) ∧
    ((paintGL_tiles ⟨0, 200, 0, 200⟩ 128 128).Pairwise (fun a b =>
      a.ystart < b.ystart ∨ (a.ystart = b.ystart ∧ a.xstart < b.xstart)) ∧
    (paintGL_tiles ⟨0, 200, 0, 200⟩ 128 128).Pairwise (fun a b =>
      ∀ x y, ¬ (a.has_pixel x y ∧ b.has_pixel x y)) ∧
    (∀ c ∈ paintGL_tiles ⟨0, 200, 0, 200⟩ 128 128,
      (0 < c.tile_width ∧ c.tile_width ≤ 128) ∧ (0 < c.tile_height ∧ c.tile_height ≤ 128) ∧
      c.smin = 0 ∧ c.tmin = 0 ∧
      c.smax = (c.tile_width : ℚ) / ((128 : Int) : ℚ) ∧
      c.tmax = (c.tile_height : ℚ) / ((128 : Int) : ℚ)) ∧
    (∀ x y, (∃ c ∈ paintGL_tiles ⟨0, 200, 0, 200⟩ 128 128, c.has_pixel x y) ↔
      (((0 : Int) ≤ x ∧ x < 200) ∧ ((0 : Int) ≤ y ∧ y < 200)))) :=
  ⟨⟨by decide, by decide⟩,
   C20_tile_iteration ⟨0, 200, 0, 200⟩ 128 128 (by decide) (by decide)⟩

/-! ## Theorems: rendering a frame twice -/

/-- A region written by a run of misses is still held at the end of the run when fewer
regions than there are slots follow it. -/
theorem fill_tiles_holds (pre post : List Region) (r : Region) (tbs : List TexBuffer)
    (i : Nat) (hi : i < tbs.length) (hpost : post.length < tbs.length) :
    ∃ tb ∈ (fill_tiles tbs i (pre ++ r :: post)).1, tb.holds r := by
  have happ := fill_tiles_append pre (r :: post) tbs i hi
  have hlen2 := fill_tiles_length pre tbs i
  have hi2 := fill_tiles_index_lt pre tbs i hi
  generalize fill_tiles tbs i pre = st at happ hlen2 hi2
  obtain ⟨tbs2, i2⟩ := st
  simp only at happ hlen2 hi2
  have hi2' : i2 < tbs2.length := by rw [hlen2]; exact hi2
  have htb2 : tbs2[i2]? = some tbs2[i2] := List.getElem?_eq_getElem hi2'
  have hstep : fill_tiles tbs2 i2 (r :: post)
      = fill_tiles (tbs2.set i2 (tbs2[i2].retarget r)) ((i2 + 1) % tbs2.length) post := by
    simp only [fill_tiles, htb2]
  have hlen3 : (tbs2.set i2 (tbs2[i2].retarget r)).length = tbs2.length :=
    List.length_set _ _ _
  have hkeep := fill_tiles_untouched post (tbs2.set i2 (tbs2[i2].retarget r))
    ((i2 + 1) % tbs2.length) i2 (by rw [hlen3]; exact Nat.mod_lt _ (by omega))
    (by
      intro j hj
      rw [hlen3, Nat.mod_add_mod, show i2 + 1 + j = i2 + (j + 1) by omega]
      exact ring_index_moves _ _ _ hi2' (by omega) (by omega))
  rw [List.getElem?_set_self hi2'] at hkeep
  rw [← hstep, ← happ] at hkeep
  exact ⟨tbs2[i2].retarget r, List.getElem?_mem hkeep, ⟨rfl, rfl, rfl, rfl⟩⟩

/-- A run of requests each of which some record covers is a run of hits: no fetch, and
the state does not change. -/
theorem load_textures_all_hit (rs : List Region) (s : Cache)
    (h : ∀ r ∈ rs, ∃ tb ∈ s.m_texbufs, tile_covers tb r.x r.y r.width r.height = true) :
    ∃ evs, load_textures s rs = some (s, evs) ∧ fetches evs = 0 ∧ uploads evs = 0 := by
  induction rs with
  | nil => exact ⟨[], rfl, rfl, rfl⟩
  | cons r rs ih =>
    obtain ⟨tb, hm, hc⟩ := h r (List.mem_cons_self _ _)
    obtain ⟨ev2, hl2, hf2, hu2⟩ := ih (fun r1 hr1 => h r1 (List.mem_cons_of_mem _ hr1))
    cases hfind : s.m_texbufs.find? (fun tb => tile_covers tb r.x r.y r.width r.height) with
    | none =>
      have := List.find?_eq_none.1 hfind tb hm
      exact absurd hc this
    | some tb1 =>
      have hl1 := load_texture_hit s r.x r.y r.width r.height tb1 hfind
      refine ⟨[Event.glBindTexture tb1.tex_object] ++ ev2,
        by simp only [load_textures, hl1, hl2], ?_, ?_⟩
      · simp only [fetches] at hf2 ⊢
        rw [List.countP_append, hf2]; rfl
      · simp only [uploads] at hu2 ⊢
        rw [List.countP_append, hu2]; rfl

/-- The requests of one run of the tile loop have pairwise distinct origins. -/
theorem paintGL_regions_distinct (r : VisibleRect) (tw th : Int) (htw : 1 ≤ tw)
    (hth : 1 ≤ th) :
    ((paintGL_tiles r tw th).map TileDraw.region).Pairwise
      (fun a b => ¬ (a.x = b.x ∧ a.y = b.y)) := by
  rw [List.pairwise_map]
  refine (paintGL_tiles_raster_order r tw th htw hth).imp ?_
  intro a b h hab
  simp only [TileDraw.region] at hab
  rcases h with h | ⟨_, h2⟩
  · omega
  · omega

/-- C19 as stated fails, at a state the viewer reaches: for the 12288 × 12288 image and a
driver maximum of 16384, `update()` sets the tile size to 4096 and leaves 4 empty tile
records. In a 1280 × 720 window at zoom 1/4 the first view draws the 3 tiles of
`[0, 12288) × [0, 4096)`; after a pan the next view draws the 4 tiles of
`[0, 8192) × [0, 8192)`. Rendering that frame twice in a row, the second render makes two
pixel fetches and changes the tile records: in the first render the tile at (0, 0) is a
hit and a later miss of the same render overwrites its slot. -/
theorem C19_repaint_counterexample :
    (∀ ceil2 : Int → Int, (∀ x, x ≤ ceil2 x) →
      update ceil2 (check_gl_extensions (IvGL_constructor 0) 16384)
          ⟨some large_image, 0, COLOR_MODE.RGBA, true⟩
        = ⟨4096, 4096, 4096⟩) ∧
    (clamp_view_to_window strip_view
        (some ⟨0, 0, 12288, 12288, 0, 0, 12288, 12288⟩) = strip_view ∧
      clamp_view_to_window block_view
        (some ⟨0, 0, 12288, 12288, 0, 0, 12288, 12288⟩) = block_view) ∧
    paintGL_rect strip_view large_image 4096 4096 = ⟨0, 12288, 0, 4096⟩ ∧
    paintGL_rect block_view large_image 4096 4096 = ⟨0, 8192, 0, 8192⟩ ∧
    (paintGL_tiles (paintGL_rect block_view large_image 4096 4096) 4096 4096).length = 4 ∧
    updated_cache.m_texbufs.length = 4 ∧
    (paintGL_load updated_cache (paintGL_rect strip_view large_image 4096 4096) 4096 4096).bind
        (fun p => paintGL_load_twice p.1 (paintGL_rect block_view large_image 4096 4096)
          4096 4096)
      = some (2, false) := by
  have hc1 : ⌈((1280 : Int) : ℚ) / (2 * (1 / 4))⌉ = 2560 := by norm_num
  have hc2 : ⌈((720 : Int) : ℚ) / (2 * (1 / 4))⌉ = 1440 := by norm_num
  have hf1 : ⌊(6144 : ℚ)⌋ = 6144 := by norm_num
  have hf2 : ⌊(2048 : ℚ)⌋ = 2048 := by norm_num
  have hf3 : ⌊(4096 : ℚ)⌋ = 4096 := by norm_num
  have hr1 : paintGL_rect strip_view large_image 4096 4096 = ⟨0, 12288, 0, 4096⟩ := by
    simp only [paintGL_rect, strip_view, large_image, handle_orientation, orient_init, hc1,
      hc2, hf1, hf2]
    decide
  have hr2 : paintGL_rect block_view large_image 4096 4096 = ⟨0, 8192, 0, 8192⟩ := by
    simp only [paintGL_rect, block_view, large_image, handle_orientation, orient_init, hc1,
      hc2, hf3]
    decide
  refine ⟨?_, ⟨?_, ?_⟩, hr1, hr2, ?_, ?_, ?_⟩
  · intro ceil2 hceil
    have h1 := hceil 12288
    simp only [update, check_gl_extensions, IvGL_constructor, large_image, num_channels, clamp]
    have hm : min (16384 : Int) 4096 = 4096 := by decide
    rw [hm]
    have hn : ¬ (clamp ((4 : Nat) - 0 : Int) 0 4 = 0) := by decide
    simp only [clamp] at hn
    simp only [if_true, hn, if_false]
    have e : (if (if (1 : Int) ≤ ceil2 12288 then ceil2 12288 else 1) > 4096 then (4096 : Int)
        else if (1 : Int) ≤ ceil2 12288 then ceil2 12288 else 1) = 4096 := by
      split_ifs <;> omega
    rw [e]
  · simp only [clamp_view_to_window, strip_view, clampf]
    norm_num
  · simp only [clamp_view_to_window, block_view, clampf]
    norm_num
  · rw [hr2]; decide
  · decide
  · rw [hr1, hr2]; decide

/-- C19 amended. The `load_texture` calls of `paintGL` rewrite the tile cache, so a frame
is not free of side effects. For a tile size of at least 1 and a visible rectangle of at
most `K = m_texbufs.size()` tiles: if the cache holds none of the frame's tiles before the
first render (as right after `update()`), the first render fetches every tile once and
rendering the same frame a second time performs no pixel fetch and no upload and leaves
the state (tile records and round-robin index) exactly as the first render left it; if
the cache already holds all of the frame's tiles, a render performs no pixel fetch and
changes nothing. -/
theorem C19_repaint_amended (s : Cache) (r : VisibleRect) (tw th : Int)
    (htw : 1 ≤ tw) (hth : 1 ≤ th)
    (hidx : s.m_last_texbuf_used < s.m_texbufs.length)
    (hK : (paintGL_tiles r tw th).length ≤ s.m_texbufs.length) :
    ((∀ c ∈ paintGL_tiles r tw th, ∀ tb ∈ s.m_texbufs,
        tile_covers tb c.xstart c.ystart c.tile_width c.tile_height = false) →
      ∃ s1 ev1 ev2, paintGL_load s r tw th = some (s1, ev1) ∧
        fetches ev1 = (paintGL_tiles r tw th).length ∧
        paintGL_load s1 r tw th = some (s1, ev2) ∧ fetches ev2 = 0 ∧ uploads ev2 = 0) ∧
    ((∀ c ∈ paintGL_tiles r tw th, ∃ tb ∈ s.m_texbufs,
        tile_covers tb c.xstart c.ystart c.tile_width c.tile_height = true) →
      ∃ ev1, paintGL_load s r tw th = some (s, ev1) ∧ fetches ev1 = 0 ∧ uploads ev1 = 0) := by
  constructor
  · intro hnone
    have hpair := paintGL_regions_distinct r tw th htw hth
    obtain ⟨s1, ev1, hload, hf, htiles, _⟩ :=
      load_textures_all_miss ((paintGL_tiles r tw th).map TileDraw.region) s hidx hpair
        (by
          intro rg hrg tb htb
          obtain ⟨c, hc, rfl⟩ := List.mem_map.1 hrg
          exact hnone c hc tb htb)
    have hheld : ∀ rg ∈ (paintGL_tiles r tw th).map TileDraw.region,
        ∃ tb ∈ s1.m_texbufs, tile_covers tb rg.x rg.y rg.width rg.height = true := by
      intro rg hrg
      obtain ⟨pre, post, hsplit⟩ := List.append_of_mem hrg
      have hpost : post.length < s.m_texbufs.length := by
        have h1 : ((paintGL_tiles r tw th).map TileDraw.region).length
            = pre.length + (post.length + 1) := by
          rw [hsplit, List.length_append, List.length_cons]
        rw [List.length_map] at h1
        omega
      obtain ⟨tb, htb, hh⟩ :=
        fill_tiles_holds pre post rg s.m_texbufs s.m_last_texbuf_used hidx hpost
      rw [← hsplit, ← htiles] at htb
      exact ⟨tb, htb, holds_covers tb rg hh⟩
    obtain ⟨ev2, hl2, hf2, hu2⟩ := load_textures_all_hit _ s1 hheld
    refine ⟨s1, ev1, ev2, hload, ?_, hl2, hf2, hu2⟩
    rw [hf, List.length_map]
  · intro hall
    exact load_textures_all_hit _ s (by
      intro rg hrg
      obtain ⟨c, hc, rfl⟩ := List.mem_map.1 hrg
      exact hall c hc)

theorem C19_repaint_amended_witness :
    ((1 : Int) ≤ 128 ∧ (1 : Int) ≤ 128 ∧
      example_cache.m_last_texbuf_used < example_cache.m_texbufs.length ∧
      (paintGL_tiles ⟨0, 200, 0, 200⟩ 128 128).length ≤ example_cache.m_texbufs.length) ∧
    (
    ((∀ c ∈ paintGL_tiles ⟨0, 200, 0, 200⟩ 128 128, ∀ tb ∈ example_cache.m_texbufs,
        tile_covers tb c.xstart c.ystart c.tile_width c.tile_height = false) →
      ∃ s1 ev1 ev2, paintGL_load example_cache ⟨0, 200, 0, 200⟩ 128 128 = some (s1, ev1) ∧
        fetches ev1 = (paintGL_tiles ⟨0, 200, 0, 200⟩ 128 128).length ∧
        paintGL_load s1 ⟨0, 200, 0, 200⟩ 128 128 = some (s1, ev2) ∧ fetches ev2 = 0 ∧ uploads ev2 = 0) ∧
    ((∀ c ∈ paintGL_tiles ⟨0, 200, 0, 200⟩ 128 128, ∃ tb ∈ example_cache.m_texbufs,
        tile_covers tb c.xstart c.ystart c.tile_width c.tile_height = true) →
      ∃ ev1, paintGL_load example_cache ⟨0, 200, 0, 200⟩ 128 128 = some (example_cache, ev1) ∧ fetches ev1 = 0 ∧ uploads ev1 = 0)) :=
  ⟨⟨by decide, by decide, by decide, by decide⟩,
   C19_repaint_amended example_cache ⟨0, 200, 0, 200⟩ 128 128 (by decide) (by decide)
     (by decide) (by decide)⟩

/-! ## Theorems: texture format selection -/

/-- For a channel count 1..4 the internal storage format is never the invalid
sentinel. -/
theorem typespec_internal_valid (m_use_srgb m_use_halffloat m_use_float : Bool)
    (basetype : BASETYPE) (issrgb : Bool) (nchannels : Int)
    (h : 1 ≤ nchannels ∧ nchannels ≤ 4) :
    (typespec_to_opengl m_use_srgb m_use_halffloat m_use_float basetype issrgb
      nchannels).glinternalformat ≠ GLenum.GL_INVALID_ENUM := by
  have hn : nchannels = 1 ∨ nchannels = 2 ∨ nchannels = 3 ∨ nchannels = 4 := by omega
  rcases hn with rfl | rfl | rfl | rfl <;>
    · simp only [typespec_to_opengl]
      norm_num
      split_ifs <;> simp

/-- C16. Format selection error: `typespec_to_opengl` sets both the upload format and the
internal storage format to `GL_INVALID_ENUM` if and only if the channel count is outside
1..4; for the channel counts 1, 2, 3, 4 the upload format is `GL_LUMINANCE`,
`GL_LUMINANCE_ALPHA`, `GL_RGB`, `GL_RGBA` respectively, whatever the base type, the sRGB
tag and the capability flags. -/
theorem C16_format_selection (m_use_srgb m_use_halffloat m_use_float : Bool)
    (basetype : BASETYPE) (issrgb : Bool) (nchannels : Int) :
    (((typespec_to_opengl m_use_srgb m_use_halffloat m_use_float basetype issrgb
        nchannels).glformat = GLenum.GL_INVALID_ENUM ∧
      (typespec_to_opengl m_use_srgb m_use_halffloat m_use_float basetype issrgb
        nchannels).glinternalformat = GLenum.GL_INVALID_ENUM)
      ↔ ¬ (1 ≤ nchannels ∧ nchannels ≤ 4)) ∧
    (nchannels = 1 →
      (typespec_to_opengl m_use_srgb m_use_halffloat m_use_float basetype issrgb
        nchannels).glformat = GLenum.GL_LUMINANCE) ∧
    (nchannels = 2 →
      (typespec_to_opengl m_use_srgb m_use_halffloat m_use_float basetype issrgb
        nchannels).glformat = GLenum.GL_LUMINANCE_ALPHA) ∧
    (nchannels = 3 →
      (typespec_to_opengl m_use_srgb m_use_halffloat m_use_float basetype issrgb
        nchannels).glformat = GLenum.GL_RGB) ∧
    (nchannels = 4 →
      (typespec_to_opengl m_use_srgb m_use_halffloat m_use_float basetype issrgb
        nchannels).glformat = GLenum.GL_RGBA) := by
  refine ⟨⟨?_, ?_⟩, ?_, ?_, ?_, ?_⟩
  · rintro ⟨_, hint⟩ hin
    exact typespec_internal_valid m_use_srgb m_use_halffloat m_use_float basetype issrgb
      nchannels hin hint
  · intro hout
    have h1 : nchannels ≠ 1 := by omega
    have h2 : nchannels ≠ 2 := by omega
    have h3 : nchannels ≠ 3 := by omega
    have h4 : nchannels ≠ 4 := by omega
    simp only [typespec_to_opengl, h1, h2, h3, h4, if_false, and_self]
  · rintro rfl; simp only [typespec_to_opengl]; rfl
  · rintro rfl; simp only [typespec_to_opengl]; rfl
  · rintro rfl; simp only [typespec_to_opengl]; rfl
  · rintro rfl; simp only [typespec_to_opengl]; rfl

theorem C16_format_selection_witness :
    (((typespec_to_opengl true true true BASETYPE.UINT8 true 4).glformat
          = GLenum.GL_INVALID_ENUM ∧
      (typespec_to_opengl true true true BASETYPE.UINT8 true 4).glinternalformat
          = GLenum.GL_INVALID_ENUM)
      ↔ ¬ ((1 : Int) ≤ 4 ∧ (4 : Int) ≤ 4)) ∧
    ((4 : Int) = 1 →
      (typespec_to_opengl true true true BASETYPE.UINT8 true 4).glformat
        = GLenum.GL_LUMINANCE) ∧
    ((4 : Int) = 2 →
      (typespec_to_opengl true true true BASETYPE.UINT8 true 4).glformat
        = GLenum.GL_LUMINANCE_ALPHA) ∧
    ((4 : Int) = 3 →
      (typespec_to_opengl true true true BASETYPE.UINT8 true 4).glformat = GLenum.GL_RGB) ∧
    ((4 : Int) = 4 →
      (typespec_to_opengl true true true BASETYPE.UINT8 true 4).glformat = GLenum.GL_RGBA) :=
  C16_format_selection true true true BASETYPE.UINT8 true 4

/-! ## Theorems: shader pipeline -/

theorem create_shaders_abort_off (s : ShaderState) :
    (create_shaders_abort s).1.m_use_shaders = false := rfl

/-- With shaders off, `create_shaders` returns at once: no state change, one log line. -/
theorem create_shaders_off (s : ShaderState) (text : String) (gl : GLDriver)
    (h : s.m_use_shaders = false) :
    create_shaders s text gl = (s, [GLCall.log_not_using_shaders]) := by
  simp [create_shaders, h]

/-- With shaders off, `useshader` makes fixed-function calls only. -/
theorem useshader_off (s : ShaderState) (texbufs : List TexBuffer) (u : UniformInputs)
    (w h : Int) (pixelview : Bool) (hoff : s.m_use_shaders = false) :
    ∀ call ∈ useshader s texbufs u w h pixelview, call.is_fixed_function = true := by
  intro call hcall
  simp only [useshader, hoff, Bool.not_false, if_true, List.mem_cons, List.mem_flatMap,
    List.not_mem_nil, or_false] at hcall
  rcases hcall with rfl | ⟨tb, _, rfl | rfl | rfl⟩ <;> rfl

/-- With shaders off, every sequence of calls leaves the state as it is and makes
fixed-function calls only. -/
theorem run_shader_ops_off (ops : List ShaderOp) (s : ShaderState)
    (hoff : s.m_use_shaders = false) :
    (run_shader_ops s ops).1 = s ∧
    ∀ call ∈ (run_shader_ops s ops).2, call.is_fixed_function = true := by
  induction ops with
  | nil => exact ⟨rfl, fun call h => by simp [run_shader_ops] at h⟩
  | cons op ops ih =>
    have hop : (run_shader_op s op).1 = s ∧
        ∀ call ∈ (run_shader_op s op).2, call.is_fixed_function = true := by
      cases op with
      | create_shaders t gl =>
        simp only [run_shader_op, create_shaders_off s t gl hoff, List.mem_singleton]
        exact ⟨trivial, fun call h => by rw [h]; rfl⟩
      | update_state t gl =>
        simp only [run_shader_op, update_state, create_shaders_off s t gl hoff,
          List.mem_singleton]
        exact ⟨trivial, fun call h => by rw [h]; rfl⟩
      | useshader tbs u w h pv =>
        exact ⟨rfl, useshader_off s tbs u w h pv hoff⟩
    have hrun : run_shader_ops s (op :: ops)
        = ((run_shader_ops (run_shader_op s op).1 ops).1,
           (run_shader_op s op).2 ++ (run_shader_ops (run_shader_op s op).1 ops).2) := rfl
    rw [hrun, hop.1]
    refine ⟨ih.1, ?_⟩
    intro call hcall
    rcases List.mem_append.1 hcall with h1 | h2
    · exact hop.2 call h1
    · exact ih.2 call h2

/-- A failing compile or link step of `create_shaders` switches the shaders off. -/
theorem create_shaders_failure (s : ShaderState) (text : String) (gl : GLDriver)
    (h : (GLCall.glCompileShader Stage.vertex gl.vertex_handle ∈ (create_shaders s text gl).2
          ∧ gl.vertex_status = false) ∨
        (GLCall.glCompileShader Stage.fragment gl.fragment_handle
            ∈ (create_shaders s text gl).2 ∧ gl.fragment_status = false) ∨
        (GLCall.glLinkProgram gl.program_handle ∈ (create_shaders s text gl).2
          ∧ gl.link_status = false)) :
    (create_shaders s text gl).1.m_use_shaders = false := by
  by_cases hu : s.m_use_shaders = true
  · by_cases ht : s.m_color_shader_text = text <;>
      by_cases hp : s.m_shader_program = 0 <;>
      by_cases hc : s.m_shaders_created = true <;>
      by_cases hv : s.m_vertex_shader = 0 <;>
      cases hvs : gl.vertex_status <;>
      cases hfs : gl.fragment_status <;>
      cases hls : gl.link_status <;>
      simp [create_shaders, create_shaders_abort, hu, ht, hp, hc, hv, hvs, hfs, hls] at h ⊢
  · have hoff : s.m_use_shaders = false := by simpa using hu
    rw [create_shaders_off s text gl hoff]
    exact hoff

/-- With shaders off, every sequence of calls makes exactly the calls of the
fixed-function path, operation by operation. -/
theorem run_shader_ops_off_calls (ops : List ShaderOp) (s : ShaderState)
    (hoff : s.m_use_shaders = false) :
    (run_shader_ops s ops).2 = ops.flatMap fixed_function_calls := by
  induction ops with
  | nil => rfl
  | cons op ops ih =>
    have hop : (run_shader_op s op).1 = s ∧
        (run_shader_op s op).2 = fixed_function_calls op := by
      cases op with
      | create_shaders t gl =>
        simp only [run_shader_op, create_shaders_off s t gl hoff, fixed_function_calls,
          and_self]
      | update_state t gl =>
        simp only [run_shader_op, update_state, create_shaders_off s t gl hoff,
          fixed_function_calls, and_self]
      | useshader tbs u w h pv =>
        simp only [run_shader_op, useshader, hoff, Bool.not_false, if_true,
          fixed_function_calls, and_self]
    have hrun : run_shader_ops s (op :: ops)
        = ((run_shader_ops (run_shader_op s op).1 ops).1,
           (run_shader_op s op).2 ++ (run_shader_ops (run_shader_op s op).1 ops).2) := rfl
    rw [hrun, hop.1, hop.2, ih, List.flatMap_cons]

/-- C17. Shader fallback is one-way: if during `create_shaders` the vertex compile, the
fragment compile or the link step fails, `m_use_shaders` becomes false; from then on
every sequence of `create_shaders`, `update_state` and `useshader` calls leaves the state
unchanged (so `m_use_shaders` stays false), compiles nothing, sets no uniform and selects
no program. The calls made are exactly those of the fixed-function path: every
`create_shaders` and `update_state` call returns at once, after its log line, and every
`useshader` call sets the texture environment to `GL_REPLACE` and then, for every tile,
binds the texture and sets its two filters to linear or nearest. -/
theorem C17_shader_fallback (s : ShaderState) (text : String) (gl : GLDriver)
    (h : (GLCall.glCompileShader Stage.vertex gl.vertex_handle ∈ (create_shaders s text gl).2
          ∧ gl.vertex_status = false) ∨
        (GLCall.glCompileShader Stage.fragment gl.fragment_handle
            ∈ (create_shaders s text gl).2 ∧ gl.fragment_status = false) ∨
        (GLCall.glLinkProgram gl.program_handle ∈ (create_shaders s text gl).2
          ∧ gl.link_status = false)) :
    (create_shaders s text gl).1.m_use_shaders = false ∧
    ∀ ops : List ShaderOp,
      (run_shader_ops (create_shaders s text gl).1 ops).1 = (create_shaders s text gl).1 ∧
      (∀ call ∈ (run_shader_ops (create_shaders s text gl).1 ops).2,
        call.is_fixed_function = true) ∧
      (∀ u v, GLCall.glUniform1i u v ∉ (run_shader_ops (create_shaders s text gl).1 ops).2) ∧
      (∀ u v, GLCall.glUniform1f u v ∉ (run_shader_ops (create_shaders s text gl).1 ops).2) ∧
      (∀ st h, GLCall.glCompileShader st h
        ∉ (run_shader_ops (create_shaders s text gl).1 ops).2) ∧
      (∀ p, GLCall.glUseProgram p ∉ (run_shader_ops (create_shaders s text gl).1 ops).2) ∧
      (run_shader_ops (create_shaders s text gl).1 ops).2 = ops.flatMap fixed_function_calls ∧
      (∀ (t : String) (gl2 : GLDriver),
        create_shaders (run_shader_ops (create_shaders s text gl).1 ops).1 t gl2
          = ((create_shaders s text gl).1, [GLCall.log_not_using_shaders]) ∧
        update_state (run_shader_ops (create_shaders s text gl).1 ops).1 t gl2
          = ((create_shaders s text gl).1, [GLCall.log_not_using_shaders])) ∧
      (∀ (texbufs : List TexBuffer) (u : UniformInputs) (w h : Int) (pixelview : Bool),
        useshader (run_shader_ops (create_shaders s text gl).1 ops).1 texbufs u w h pixelview
          = GLCall.glTexEnvf_REPLACE ::
              texbufs.flatMap (fun tb =>
                [GLCall.glBindTexture tb.tex_object,
                 GLCall.glTexParameteri_MIN_FILTER u.linearInterpolation,
                 GLCall.glTexParameteri_MAG_FILTER u.linearInterpolation])) := by
  have hoff := create_shaders_failure s text gl h
  refine ⟨hoff, ?_⟩
  intro ops
  obtain ⟨h1, h2⟩ := run_shader_ops_off ops _ hoff
  refine ⟨h1, h2, ?_, ?_, ?_, ?_, run_shader_ops_off_calls ops _ hoff, ?_, ?_⟩
  · intro u v hm; exact absurd (h2 _ hm) (by simp [GLCall.is_fixed_function])
  · intro u v hm; exact absurd (h2 _ hm) (by simp [GLCall.is_fixed_function])
  · intro st hd hm; exact absurd (h2 _ hm) (by simp [GLCall.is_fixed_function])
  · intro p hm; exact absurd (h2 _ hm) (by simp [GLCall.is_fixed_function])
  · intro t gl2
    rw [h1]
    exact ⟨create_shaders_off _ t gl2 hoff, create_shaders_off _ t gl2 hoff⟩
  · intro texbufs u w hh pixelview
    rw [h1]
    simp only [useshader, hoff, Bool.not_false, if_true]

theorem C17_shader_fallback_witness :
    ((GLCall.glCompileShader Stage.fragment fragment_failing_driver.fragment_handle
        ∈ (create_shaders fresh_shaders (String.mk ['c']) fragment_failing_driver).2 ∧
      fragment_failing_driver.fragment_status = false)) ∧
    ((create_shaders fresh_shaders (String.mk ['c'])
        fragment_failing_driver).1.m_use_shaders = false ∧
      (run_shader_ops
          (create_shaders fresh_shaders (String.mk ['c']) fragment_failing_driver).1
          [ShaderOp.update_state (String.mk ['c']) fragment_failing_driver,
           ShaderOp.useshader example_cache.m_texbufs example_uniforms 4096 4096 false]).2
        = [ShaderOp.update_state (String.mk ['c']) fragment_failing_driver,
           ShaderOp.useshader example_cache.m_texbufs example_uniforms 4096 4096
             false].flatMap fixed_function_calls) :=
  ⟨⟨by decide, rfl⟩,
   ⟨(C17_shader_fallback fresh_shaders (String.mk ['c']) fragment_failing_driver
      (Or.inr (Or.inl ⟨by decide, rfl⟩))).1,
    ((C17_shader_fallback fresh_shaders (String.mk ['c']) fragment_failing_driver
      (Or.inr (Or.inl ⟨by decide, rfl⟩))).2
        [ShaderOp.update_state (String.mk ['c']) fragment_failing_driver,
         ShaderOp.useshader example_cache.m_texbufs example_uniforms 4096 4096
           false]).2.2.2.2.2.2.1⟩⟩

/-! ## Theorems: mouse events -/

/-- C18 as stated fails: with area sample mode on and a selection drag active, a
pointer-move event changes `m_area_probe_text`: from the state with no probe text, the
move to window pixel (90, 80) stores a statistics text. -/
theorem C18_drag_computes_stats_counterexample :
    (area_mode_env.areaSampleMode = true ∧ dragging_state.m_selecting = true) ∧
    (mouseMoveEvent dragging_state area_mode_env gray_image (90, 80) false).1.m_area_probe_text
      ≠ dragging_state.m_area_probe_text := by
  refine ⟨⟨rfl, rfl⟩, ?_⟩
  simp [mouseMoveEvent, area_mode_env, dragging_state, area_probe_text]

/-- C18 amended. A pointer-move event while a selection drag is active (area sample mode
on, `m_selecting` true) updates the selection end point to the event position, recomputes
the area statistics for the selection so far and stores their text in
`m_area_probe_text`, remembers the mouse position and requests a redraw (twice when the
pixel view is on); the statistics are computed again, for the final selection, on
pointer-up, which also ends the drag and resets both selection points. -/
theorem C18_drag_amended (st : MouseState) (env : MouseEnv) (img : IvImage)
    (pos : Int × Int) (Alt : Bool)
    (harea : env.areaSampleMode = true) (hsel : st.m_selecting = true) :
    mouseMoveEvent st env img pos Alt
      = ({ st with view := { st.view with m_select_end := pos }
                   m_area_probe_text :=
                     area_probe_text img
                       (update_area_probe_text { st.view with m_select_end := pos } img)
                   m_mousex := pos.1
                   m_mousey := pos.2 },
         [GuiCall.request_redraw]
           ++ (if env.pixelviewOn then [GuiCall.request_redraw] else [])
           ++ [GuiCall.base_mouseMoveEvent]) ∧
    (mouseReleaseEvent st img pos).1.m_area_probe_text
      = area_probe_text img (update_area_probe_text { st.view with m_select_end := pos } img) ∧
    (mouseReleaseEvent st img pos).1.m_selecting = false ∧
    (mouseReleaseEvent st img pos).1.view.m_select_start = (0, 0) ∧
    (mouseReleaseEvent st img pos).1.view.m_select_end = (0, 0) ∧
    (mouseReleaseEvent st img pos).2
      = [GuiCall.request_redraw, GuiCall.base_mouseReleaseEvent] := by
  refine ⟨?_, ?_, ?_, ?_, ?_, ?_⟩
  · simp [mouseMoveEvent, harea, hsel]
  all_goals simp [mouseReleaseEvent, hsel]

theorem C18_drag_amended_witness :
    (area_mode_env.areaSampleMode = true ∧ dragging_state.m_selecting = true) ∧
    (mouseMoveEvent dragging_state area_mode_env gray_image (90, 80) false
      = ({ dragging_state with
             view := { dragging_state.view with m_select_end := (90, 80) },
             m_area_probe_text :=
               area_probe_text gray_image
                 (update_area_probe_text
                   { dragging_state.view with m_select_end := (90, 80) } gray_image),
             m_mousex := ((90, 80) : Int × Int).1,
             m_mousey := ((90, 80) : Int × Int).2 },
         [GuiCall.request_redraw]
           ++ (if area_mode_env.pixelviewOn then [GuiCall.request_redraw] else [])
           ++ [GuiCall.base_mouseMoveEvent]) ∧
    (mouseReleaseEvent dragging_state gray_image (90, 80)).1.m_area_probe_text
      = area_probe_text gray_image
          (update_area_probe_text
            { dragging_state.view with m_select_end := (90, 80) } gray_image) ∧
    (mouseReleaseEvent dragging_state gray_image (90, 80)).1.m_selecting = false ∧
    (mouseReleaseEvent dragging_state gray_image (90, 80)).1.view.m_select_start = (0, 0) ∧
    (mouseReleaseEvent dragging_state gray_image (90, 80)).1.view.m_select_end = (0, 0) ∧
    (mouseReleaseEvent dragging_state gray_image (90, 80)).2
      = [GuiCall.request_redraw, GuiCall.base_mouseReleaseEvent]) :=
  ⟨⟨rfl, rfl⟩,
   C18_drag_amended dragging_state area_mode_env gray_image (90, 80) false rfl rfl⟩

/-! ## Theorems: pixel inspector -/

theorem float_to_int_intCast (n : Int) : float_to_int (n : ℚ) = n := by
  unfold float_to_int
  split_ifs <;> simp

theorem float_to_int_reflect (a b : Int) : float_to_int ((a : ℚ) - (b : ℚ) - 1) = a - b - 1 := by
  have h : (a : ℚ) - (b : ℚ) - 1 = ((a - b - 1 : Int) : ℚ) := by push_cast; ring
  rw [h, float_to_int_intCast]

theorem float_to_int_range (q : ℚ) (W : Int) (h0 : 0 ≤ q) (h1 : q < W) :
    0 ≤ float_to_int q ∧ float_to_int q < W := by
  unfold float_to_int
  rw [if_pos h0]
  exact ⟨Int.floor_nonneg.2 h0, Int.floor_lt.2 h1⟩

theorem tdiv_two (n : Int) (h : 0 ≤ n) : Int.tdiv n 2 = n / 2 :=
  Int.tdiv_eq_ediv h (by decide)

/-- One axis of the patch of `paint_pixelview`: for an odd `N` and a pixel `X` of
`[0, W)`. -/
theorem closeup_axis (X N W : Int) (hN : 1 ≤ N) (hodd : N % 2 = 1) (hW : 1 ≤ W)
    (hX0 : 0 ≤ X) (hX1 : X < W) :
    (0 ≤ max (clamp X (Int.tdiv N 2) (W - Int.tdiv N 2 - 1) - Int.tdiv N 2) 0 ∧
      max (clamp X (Int.tdiv N 2) (W - Int.tdiv N 2 - 1) - Int.tdiv N 2) 0
        < min (clamp X (Int.tdiv N 2) (W - Int.tdiv N 2 - 1) + Int.tdiv N 2 + 1) W ∧
      min (clamp X (Int.tdiv N 2) (W - Int.tdiv N 2 - 1) + Int.tdiv N 2 + 1) W ≤ W) ∧
    (max (clamp X (Int.tdiv N 2) (W - Int.tdiv N 2 - 1) - Int.tdiv N 2) 0 ≤ X ∧
      X < min (clamp X (Int.tdiv N 2) (W - Int.tdiv N 2 - 1) + Int.tdiv N 2 + 1) W) ∧
    min (clamp X (Int.tdiv N 2) (W - Int.tdiv N 2 - 1) + Int.tdiv N 2 + 1) W
      - max (clamp X (Int.tdiv N 2) (W - Int.tdiv N 2 - 1) - Int.tdiv N 2) 0 = min N W ∧
    (Int.tdiv N 2 ≤ X → X ≤ W - 1 - Int.tdiv N 2 →
      max (clamp X (Int.tdiv N 2) (W - Int.tdiv N 2 - 1) - Int.tdiv N 2) 0 = X - Int.tdiv N 2 ∧
      min (clamp X (Int.tdiv N 2) (W - Int.tdiv N 2 - 1) + Int.tdiv N 2 + 1) W
        = X + Int.tdiv N 2 + 1) := by
  rw [tdiv_two N (by omega)]
  simp only [clamp]
  split_ifs <;> omega

/-- The patch of `paint_pixelview` when the cursor is inside the image: both axes come from
`clamp`, `std::max` and `std::min` as in the source. -/
theorem paint_pixelview_inside (img : IvImage) (ow oh N A mx my : Int)
    (hin : (paint_pixelview img ow oh N A mx my).is_mouse_inside_image = true) :
    (paint_pixelview img ow oh N A mx my).xbegin
      = max (clamp (float_to_int (paint_pixelview img ow oh N A mx my).real_xp) (Int.tdiv N 2)
          (img.spec_width - Int.tdiv N 2 - 1) - Int.tdiv N 2) 0 ∧
    (paint_pixelview img ow oh N A mx my).xend
      = min (clamp (float_to_int (paint_pixelview img ow oh N A mx my).real_xp) (Int.tdiv N 2)
          (img.spec_width - Int.tdiv N 2 - 1) + Int.tdiv N 2 + 1) img.spec_width ∧
    (paint_pixelview img ow oh N A mx my).ybegin
      = max (clamp (float_to_int (paint_pixelview img ow oh N A mx my).real_yp) (Int.tdiv N 2)
          (img.spec_height - Int.tdiv N 2 - 1) - Int.tdiv N 2) 0 ∧
    (paint_pixelview img ow oh N A mx my).yend
      = min (clamp (float_to_int (paint_pixelview img ow oh N A mx my).real_yp) (Int.tdiv N 2)
          (img.spec_height - Int.tdiv N 2 - 1) + Int.tdiv N 2 + 1) img.spec_height := by
  simp only [paint_pixelview] at hin ⊢
  simp only [hin, if_true, and_self]

/-- The averaging window of `paint_pixelview` is the patch moved inward by
`avg_window_offset` on every side and shifted by the origin of the data window. -/
theorem paint_pixelview_avg_roi (img : IvImage) (ow oh N A mx my : Int) :
    (paint_pixelview img ow oh N A mx my).avg_roi
      = { xbegin := img.spec_x + (paint_pixelview img ow oh N A mx my).xbegin
                      + Int.tdiv (N - A) 2
          xend := img.spec_x + (paint_pixelview img ow oh N A mx my).xend - Int.tdiv (N - A) 2
          ybegin := img.spec_y + (paint_pixelview img ow oh N A mx my).ybegin
                      + Int.tdiv (N - A) 2
          yend := img.spec_y + (paint_pixelview img ow oh N A mx my).yend
                      - Int.tdiv (N - A) 2 } := rfl

/-- C21. Closeup block of `paint_pixelview`: for an odd `N >= 1`, an image of width
`W >= 1` and height `H >= 1` and a cursor inside the image whose oriented pixel
`(real_xp, real_yp)` lies in `[0, W) × [0, H)`, the patch satisfies
`0 <= xbegin < xend <= W` and `0 <= ybegin < yend <= H`, contains the cursor's pixel, has
the extent `min(N, W) × min(N, H)`, and is centred on the cursor's pixel
(`xbegin = x - N/2`, `xend = x + N/2 + 1`) on an axis where that pixel is at least `N/2`
from both edges. -/
theorem C21_closeup_block (img : IvImage) (ow oh N A mx my : Int)
    (hN : 1 ≤ N) (hodd : N % 2 = 1) (hW : 1 ≤ img.spec_width) (hH : 1 ≤ img.spec_height)
    (c : Closeup) (hc : c = paint_pixelview img ow oh N A mx my)
    (hin : c.is_mouse_inside_image = true)
    (hx : 0 ≤ c.real_xp ∧ c.real_xp < img.spec_width)
    (hy : 0 ≤ c.real_yp ∧ c.real_yp < img.spec_height) :
    ((0 ≤ c.xbegin ∧ c.xbegin < c.xend ∧ c.xend ≤ img.spec_width) ∧
      (0 ≤ c.ybegin ∧ c.ybegin < c.yend ∧ c.yend ≤ img.spec_height)) ∧
    ((c.xbegin ≤ float_to_int c.real_xp ∧ float_to_int c.real_xp < c.xend) ∧
      (c.ybegin ≤ float_to_int c.real_yp ∧ float_to_int c.real_yp < c.yend)) ∧
    (c.xend - c.xbegin = min N img.spec_width ∧ c.yend - c.ybegin = min N img.spec_height) ∧
    (N / 2 ≤ float_to_int c.real_xp → float_to_int c.real_xp ≤ img.spec_width - 1 - N / 2 →
      c.xbegin = float_to_int c.real_xp - N / 2 ∧
      c.xend = float_to_int c.real_xp + N / 2 + 1) ∧
    (N / 2 ≤ float_to_int c.real_yp → float_to_int c.real_yp ≤ img.spec_height - 1 - N / 2 →
      c.ybegin = float_to_int c.real_yp - N / 2 ∧
      c.yend = float_to_int c.real_yp + N / 2 + 1) := by
  subst hc
  obtain ⟨e1, e2, e3, e4⟩ := paint_pixelview_inside img ow oh N A mx my hin
  obtain ⟨hX0, hX1⟩ := float_to_int_range _ _ hx.1 hx.2
  obtain ⟨hY0, hY1⟩ := float_to_int_range _ _ hy.1 hy.2
  obtain ⟨a1, a2, a3, a4⟩ := closeup_axis _ N img.spec_width hN hodd hW hX0 hX1
  obtain ⟨b1, b2, b3, b4⟩ := closeup_axis _ N img.spec_height hN hodd hH hY0 hY1
  rw [← e1, ← e2] at a1 a2 a3 a4
  rw [← e3, ← e4] at b1 b2 b3 b4
  rw [tdiv_two N (by omega)] at a4 b4
  exact ⟨⟨a1, b1⟩, ⟨a2, b2⟩, ⟨a3, b3⟩, a4, b4⟩

theorem C21_closeup_block_witness :
    ((1 : Int) ≤ 9 ∧ (9 : Int) % 2 = 1 ∧ 1 ≤ gray_image.spec_width ∧ 1 ≤ gray_image.spec_height ∧
      (paint_pixelview gray_image 100 100 9 5 2 50).is_mouse_inside_image = true ∧
      (0 ≤ (paint_pixelview gray_image 100 100 9 5 2 50).real_xp ∧
        (paint_pixelview gray_image 100 100 9 5 2 50).real_xp < gray_image.spec_width) ∧
      (0 ≤ (paint_pixelview gray_image 100 100 9 5 2 50).real_yp ∧
        (paint_pixelview gray_image 100 100 9 5 2 50).real_yp < gray_image.spec_height)) ∧
    ((paint_pixelview gray_image 100 100 9 5 2 50).xend
        - (paint_pixelview gray_image 100 100 9 5 2 50).xbegin = min 9 gray_image.spec_width ∧
      (paint_pixelview gray_image 100 100 9 5 2 50).yend
        - (paint_pixelview gray_image 100 100 9 5 2 50).ybegin
          = min 9 gray_image.spec_height) :=
  ⟨⟨by decide, by decide, by decide, by decide, by decide,
      by norm_num [paint_pixelview, handle_orientation, orient_init, gray_image],
      by norm_num [paint_pixelview, handle_orientation, orient_init, gray_image]⟩,
   (C21_closeup_block gray_image 100 100 9 5 2 50 (by decide) (by decide) (by decide)
     (by decide) _ rfl (by decide)
     (by norm_num [paint_pixelview, handle_orientation, orient_init, gray_image])
     (by norm_num [paint_pixelview, handle_orientation, orient_init, gray_image])).2.2.1⟩

/-- C22 as stated fails: for the 8 × 8 image, `N = 9`, `A = 7` and the cursor on pixel
`(4, 4)`, the patch is the whole image `[0, 8) × [0, 8)` and the averaging window is
`[1, 7) × [1, 7)`: 6 × 6 = 36 pixels, not 7 × 7 = 49. -/
theorem C22_avg_window_counterexample :
    ((9 : Int) % 2 = 1 ∧ (7 : Int) % 2 = 1 ∧ (1 : Int) ≤ 7 ∧ (7 : Int) ≤ 9 ∧
      (paint_pixelview tiny_image 8 8 9 7 4 4).is_mouse_inside_image = true) ∧
    ((paint_pixelview tiny_image 8 8 9 7 4 4).xbegin = 0 ∧
      (paint_pixelview tiny_image 8 8 9 7 4 4).xend = 8 ∧
      (paint_pixelview tiny_image 8 8 9 7 4 4).ybegin = 0 ∧
      (paint_pixelview tiny_image 8 8 9 7 4 4).yend = 8) ∧
    (paint_pixelview tiny_image 8 8 9 7 4 4).avg_roi = ⟨1, 7, 1, 7⟩ ∧
    (raster (paint_pixelview tiny_image 8 8 9 7 4 4).avg_roi.xbegin
        (paint_pixelview tiny_image 8 8 9 7 4 4).avg_roi.xend
        (paint_pixelview tiny_image 8 8 9 7 4 4).avg_roi.ybegin
        (paint_pixelview tiny_image 8 8 9 7 4 4).avg_roi.yend).length = 36 ∧
    ¬ ((paint_pixelview tiny_image 8 8 9 7 4 4).avg_roi.xend
        - (paint_pixelview tiny_image 8 8 9 7 4 4).avg_roi.xbegin = 7) := by
  have h4 : float_to_int ((4 : Int) : ℚ) = 4 := float_to_int_intCast 4
  have hb : (paint_pixelview tiny_image 8 8 9 7 4 4).xbegin = 0 ∧
      (paint_pixelview tiny_image 8 8 9 7 4 4).xend = 8 ∧
      (paint_pixelview tiny_image 8 8 9 7 4 4).ybegin = 0 ∧
      (paint_pixelview tiny_image 8 8 9 7 4 4).yend = 8 := by
    simp only [paint_pixelview, tiny_image, handle_orientation, orient_init, h4]
    decide
  have hr : (paint_pixelview tiny_image 8 8 9 7 4 4).avg_roi = ⟨1, 7, 1, 7⟩ := by
    rw [paint_pixelview_avg_roi, hb.1, hb.2.1, hb.2.2.1, hb.2.2.2]
    decide
  refine ⟨⟨by decide, by decide, by decide, by decide, by decide⟩, hb, hr, ?_, ?_⟩
  · rw [hr]; decide
  · rw [hr]; decide

/-- C22 amended. Averaging window of `paint_pixelview`: for odd `N >= 1`, odd `A` with
`1 <= A <= N` and a cursor inside the image, `avg_roi` is the patch moved inward by
`(N - A) / 2` on every side (shifted by the data-window origin); its extent along an axis
is the extent of the patch less `N - A`, that is `min(N, W) - (N - A)` and
`min(N, H) - (N - A)`. When the image is at least `N` wide and `N` high, the window
contains exactly `A × A` pixels and lies inside the patch. -/
theorem C22_avg_window_amended (img : IvImage) (ow oh N A mx my : Int)
    (hN : 1 ≤ N) (hodd : N % 2 = 1) (hA : 1 ≤ A ∧ A ≤ N) (hAodd : A % 2 = 1)
    (hW : 1 ≤ img.spec_width) (hH : 1 ≤ img.spec_height)
    (c : Closeup) (hc : c = paint_pixelview img ow oh N A mx my)
    (hin : c.is_mouse_inside_image = true)
    (hx : 0 ≤ c.real_xp ∧ c.real_xp < img.spec_width)
    (hy : 0 ≤ c.real_yp ∧ c.real_yp < img.spec_height) :
    (c.avg_roi.xbegin = img.spec_x + c.xbegin + (N - A) / 2 ∧
      c.avg_roi.xend = img.spec_x + c.xend - (N - A) / 2 ∧
      c.avg_roi.ybegin = img.spec_y + c.ybegin + (N - A) / 2 ∧
      c.avg_roi.yend = img.spec_y + c.yend - (N - A) / 2) ∧
    (c.avg_roi.xend - c.avg_roi.xbegin = min N img.spec_width - (N - A) ∧
      c.avg_roi.yend - c.avg_roi.ybegin = min N img.spec_height - (N - A)) ∧
    (N ≤ img.spec_width → N ≤ img.spec_height →
      (c.avg_roi.xend - c.avg_roi.xbegin = A ∧ c.avg_roi.yend - c.avg_roi.ybegin = A) ∧
      (raster c.avg_roi.xbegin c.avg_roi.xend c.avg_roi.ybegin c.avg_roi.yend).length
        = (A * A).toNat ∧
      (img.spec_x + c.xbegin ≤ c.avg_roi.xbegin ∧ c.avg_roi.xend ≤ img.spec_x + c.xend) ∧
      (img.spec_y + c.ybegin ≤ c.avg_roi.ybegin ∧ c.avg_roi.yend ≤ img.spec_y + c.yend)) := by
  subst hc
  obtain ⟨e1, e2, e3, e4⟩ := paint_pixelview_inside img ow oh N A mx my hin
  obtain ⟨hX0, hX1⟩ := float_to_int_range _ _ hx.1 hx.2
  obtain ⟨hY0, hY1⟩ := float_to_int_range _ _ hy.1 hy.2
  obtain ⟨_, _, a3, _⟩ := closeup_axis _ N img.spec_width hN hodd hW hX0 hX1
  obtain ⟨_, _, b3, _⟩ := closeup_axis _ N img.spec_height hN hodd hH hY0 hY1
  rw [← e1, ← e2] at a3
  rw [← e3, ← e4] at b3
  have hr := paint_pixelview_avg_roi img ow oh N A mx my
  rw [tdiv_two (N - A) (by omega)] at hr
  have r1 := congrArg ROI.xbegin hr
  have r2 := congrArg ROI.xend hr
  have r3 := congrArg ROI.ybegin hr
  have r4 := congrArg ROI.yend hr
  simp only at r1 r2 r3 r4
  refine ⟨⟨r1, r2, r3, r4⟩, ⟨by omega, by omega⟩, ?_⟩
  intro h1 h2
  have hxe : (paint_pixelview img ow oh N A mx my).avg_roi.xend
      - (paint_pixelview img ow oh N A mx my).avg_roi.xbegin = A := by
    omega
  have hye : (paint_pixelview img ow oh N A mx my).avg_roi.yend
      - (paint_pixelview img ow oh N A mx my).avg_roi.ybegin = A := by
    omega
  refine ⟨⟨hxe, hye⟩, ?_, ⟨by omega, by omega⟩, ⟨by omega, by omega⟩⟩
  rw [raster_length, hxe, hye]
  have hA0 : 0 ≤ A := by omega
  lift A to Nat using hA0
  rw [← Nat.cast_mul, Int.toNat_natCast, Int.toNat_natCast]

theorem C22_avg_window_amended_witness :
    ((1 : Int) ≤ 9 ∧ (9 : Int) % 2 = 1 ∧ ((1 : Int) ≤ 5 ∧ (5 : Int) ≤ 9) ∧ (5 : Int) % 2 = 1 ∧
      1 ≤ gray_image.spec_width ∧ 1 ≤ gray_image.spec_height ∧
      (paint_pixelview gray_image 100 100 9 5 2 50).is_mouse_inside_image = true ∧
      (0 ≤ (paint_pixelview gray_image 100 100 9 5 2 50).real_xp ∧
        (paint_pixelview gray_image 100 100 9 5 2 50).real_xp < gray_image.spec_width) ∧
      (0 ≤ (paint_pixelview gray_image 100 100 9 5 2 50).real_yp ∧
        (paint_pixelview gray_image 100 100 9 5 2 50).real_yp < gray_image.spec_height)) ∧
    ((paint_pixelview gray_image 100 100 9 5 2 50).avg_roi.xend
        - (paint_pixelview gray_image 100 100 9 5 2 50).avg_roi.xbegin
      = min 9 gray_image.spec_width - (9 - 5) ∧
    (paint_pixelview gray_image 100 100 9 5 2 50).avg_roi.yend
        - (paint_pixelview gray_image 100 100 9 5 2 50).avg_roi.ybegin
      = min 9 gray_image.spec_height - (9 - 5)) :=
  ⟨⟨by decide, by decide, ⟨by decide, by decide⟩, by decide, by decide, by decide, by decide,
      by norm_num [paint_pixelview, handle_orientation, orient_init, gray_image],
      by norm_num [paint_pixelview, handle_orientation, orient_init, gray_image]⟩,
   (C22_avg_window_amended gray_image 100 100 9 5 2 50 (by decide) (by decide)
     ⟨by decide, by decide⟩ (by decide) (by decide) (by decide) _ rfl (by decide)
     (by norm_num [paint_pixelview, handle_orientation, orient_init, gray_image])
     (by norm_num [paint_pixelview, handle_orientation, orient_init, gray_image])).2.1⟩

/-! ## Theorems: area probe bounding box -/

theorem clamp_mem (a low high : Int) (h : low ≤ high) :
    low ≤ clamp a low high ∧ clamp a low high ≤ high := by
  unfold clamp
  simp only
  split_ifs <;> omega

theorem raster_nodup (x0 x1 y0 y1 : Int) : (raster x0 x1 y0 y1).Nodup := by
  unfold raster
  rw [List.nodup_flatMap]
  constructor
  · intro j _
    refine (List.nodup_range _).map_on ?_
    intro a _ b _ h
    simp only [Prod.mk.injEq] at h
    omega
  · refine (List.nodup_range _).imp ?_
    intro a b hab p hp1 hp2
    obtain ⟨i, _, rfl⟩ := List.mem_map.1 hp1
    obtain ⟨k, _, hk⟩ := List.mem_map.1 hp2
    simp only [Prod.mk.injEq] at hk
    omega

theorem probe_fold_count (img : IvImage) (l : List (Int × Int)) :
    ∀ (acc : ProbeAcc), (l.foldl (probe_step img) acc).count = acc.count + (l.length : Int) := by
  induction l with
  | nil => intro acc; simp
  | cons p l ih =>
    intro acc
    simp only [List.foldl_cons, List.length_cons]
    rw [ih]
    simp only [probe_step]; push_cast; ring

theorem area_probe_box_bounds (v : View) (img : IvImage) (hW : 1 ≤ img.spec_width)
    (hH : 1 ≤ img.spec_height) :
    (0 ≤ (area_probe_box v img).1 ∧ (area_probe_box v img).2.1 ≤ img.spec_width - 1) ∧
    (0 ≤ (area_probe_box v img).2.2.1 ∧ (area_probe_box v img).2.2.2 ≤ img.spec_height - 1) := by
  simp only [area_probe_box]
  refine ⟨⟨le_min ?_ ?_, max_le ?_ ?_⟩, ⟨le_min ?_ ?_, max_le ?_ ?_⟩⟩
  all_goals first
    | exact (clamp_mem _ 0 (img.spec_width - 1) (by omega)).1
    | exact (clamp_mem _ 0 (img.spec_width - 1) (by omega)).2
    | exact (clamp_mem _ 0 (img.spec_height - 1) (by omega)).1
    | exact (clamp_mem _ 0 (img.spec_height - 1) (by omega)).2

/-- C23. Area probe bounding box: for every image with `width >= 1` and `height >= 1`,
every orientation tag and every pair of window points, the box that
`update_area_probe_text` scans satisfies `0 <= xmin <= xmax <= width - 1` and
`0 <= ymin <= ymax <= height - 1`; the `getpixel` calls of the scan have no repetition,
they are the pixels `(x + spec.x, y + spec.y)` of the box, each inside the data window, and
there are `count` of them; `count = (xmax - xmin + 1) * (ymax - ymin + 1) >= 1`, so the
average is `sums[c] / count`, the branch of `count > 0`. -/
theorem C23_area_probe_box (v : View) (img : IvImage) (hW : 1 ≤ img.spec_width)
    (hH : 1 ≤ img.spec_height) (r : AreaProbe) (hr : r = update_area_probe_text v img) :
    ((0 ≤ r.xmin ∧ r.xmin ≤ r.xmax ∧ r.xmax ≤ img.spec_width - 1) ∧
      (0 ≤ r.ymin ∧ r.ymin ≤ r.ymax ∧ r.ymax ≤ img.spec_height - 1)) ∧
    ((area_probe_fetches img r.xmin r.xmax r.ymin r.ymax).Nodup ∧
      (∀ p, p ∈ area_probe_fetches img r.xmin r.xmax r.ymin r.ymax ↔
        ∃ x y, (r.xmin ≤ x ∧ x ≤ r.xmax) ∧ (r.ymin ≤ y ∧ y ≤ r.ymax) ∧
          p = (x + img.spec_x, y + img.spec_y)) ∧
      (∀ p ∈ area_probe_fetches img r.xmin r.xmax r.ymin r.ymax,
        (img.spec_x ≤ p.1 ∧ p.1 < img.spec_x + img.spec_width) ∧
        (img.spec_y ≤ p.2 ∧ p.2 < img.spec_y + img.spec_height)) ∧
      ((area_probe_fetches img r.xmin r.xmax r.ymin r.ymax).length : Int) = r.count) ∧
    (r.count = (r.xmax - r.xmin + 1) * (r.ymax - r.ymin + 1) ∧ 1 ≤ r.count) ∧
    (∀ c, r.avg c
      = ((raster r.xmin (r.xmax + 1) r.ymin (r.ymax + 1)).foldl (probe_step img)
          { min_vals := fun _ => FLT_MAX, max_vals := fun _ => -FLT_MAX, sums := fun _ => 0,
            count := 0 }).sums c / (r.count : ℚ)) := by
  subst hr
  obtain ⟨hbx, hby⟩ := area_probe_box_ordered v img
  obtain ⟨⟨hx0, hx1⟩, hy0, hy1⟩ := area_probe_box_bounds v img hW hH
  have hcount : (update_area_probe_text v img).count
      = ((raster (area_probe_box v img).1 ((area_probe_box v img).2.1 + 1)
          (area_probe_box v img).2.2.1 ((area_probe_box v img).2.2.2 + 1)).length : Int) := by
    simp only [update_area_probe_text, area_probe_scan]
    rw [probe_fold_count]
    simp
  have hlen : ((raster (area_probe_box v img).1 ((area_probe_box v img).2.1 + 1)
          (area_probe_box v img).2.2.1 ((area_probe_box v img).2.2.2 + 1)).length : Int)
      = ((area_probe_box v img).2.1 - (area_probe_box v img).1 + 1)
        * ((area_probe_box v img).2.2.2 - (area_probe_box v img).2.2.1 + 1) := by
    rw [raster_length]
    push_cast
    rw [Int.toNat_of_nonneg (by omega), Int.toNat_of_nonneg (by omega)]
    ring
  have hmem : ∀ p, p ∈ area_probe_fetches img (area_probe_box v img).1
      (area_probe_box v img).2.1 (area_probe_box v img).2.2.1 (area_probe_box v img).2.2.2 ↔
      ∃ x y, ((area_probe_box v img).1 ≤ x ∧ x ≤ (area_probe_box v img).2.1) ∧
        ((area_probe_box v img).2.2.1 ≤ y ∧ y ≤ (area_probe_box v img).2.2.2) ∧
        p = (x + img.spec_x, y + img.spec_y) := by
    intro p
    simp only [area_probe_fetches, List.mem_map]
    constructor
    · rintro ⟨⟨x, y⟩, hxy, rfl⟩
      have := (mem_raster _ _ _ _ x y).1 hxy
      exact ⟨x, y, ⟨this.1.1, by omega⟩, ⟨this.2.1, by omega⟩, rfl⟩
    · rintro ⟨x, y, h1, h2, rfl⟩
      exact ⟨(x, y), (mem_raster _ _ _ _ x y).2 ⟨⟨h1.1, by omega⟩, h2.1, by omega⟩, rfl⟩
  have hpos : 1 ≤ ((area_probe_box v img).2.1 - (area_probe_box v img).1 + 1)
        * ((area_probe_box v img).2.2.2 - (area_probe_box v img).2.2.1 + 1) :=
    one_le_mul_of_one_le_of_one_le (by omega) (by omega)
  refine ⟨⟨⟨hx0, hbx, hx1⟩, hy0, hby, hy1⟩, ⟨?_, hmem, ?_, ?_⟩, ⟨?_, ?_⟩, ?_⟩
  · refine (raster_nodup _ _ _ _).map_on ?_
    intro a _ b _ h
    simp only [Prod.mk.injEq] at h
    exact Prod.ext (by omega) (by omega)
  · intro p hp
    obtain ⟨x, y, h1, h2, rfl⟩ := (hmem p).1 hp
    exact ⟨⟨by omega, by show x + img.spec_x < _; omega⟩,
      by show _ ≤ y + img.spec_y; omega, by show y + img.spec_y < _; omega⟩
  · rw [hcount]
    simp [area_probe_fetches, update_area_probe_text, area_probe_scan]
  · rw [hcount, hlen]
    rfl
  · rw [hcount, hlen]; exact hpos
  · intro c
    have hc0 : (update_area_probe_text v img).count > 0 := by
      rw [hcount, hlen]; omega
    have hdef : (update_area_probe_text v img).avg c
        = if (update_area_probe_text v img).count > 0 then
            ((raster (update_area_probe_text v img).xmin ((update_area_probe_text v img).xmax + 1)
              (update_area_probe_text v img).ymin
              ((update_area_probe_text v img).ymax + 1)).foldl (probe_step img)
              { min_vals := fun _ => FLT_MAX, max_vals := fun _ => -FLT_MAX,
                sums := fun _ => 0, count := 0 }).sums c
              / ((update_area_probe_text v img).count : ℚ)
          else 0 := rfl
    rw [hdef, if_pos hc0]

theorem C23_area_probe_box_witness :
    (1 ≤ gray_image.spec_width ∧ 1 ≤ gray_image.spec_height) ∧
    ((update_area_probe_text example_view gray_image).count
        = ((update_area_probe_text example_view gray_image).xmax
            - (update_area_probe_text example_view gray_image).xmin + 1)
          * ((update_area_probe_text example_view gray_image).ymax
            - (update_area_probe_text example_view gray_image).ymin + 1) ∧
      1 ≤ (update_area_probe_text example_view gray_image).count) :=
  ⟨⟨by decide, by decide⟩,
   (C23_area_probe_box example_view gray_image (by decide) (by decide) _ rfl).2.2.1⟩

/-! ## Theorems: capability gaps -/

theorem typespec_no_srgb (m_use_halffloat m_use_float : Bool) (basetype : BASETYPE)
    (issrgb : Bool) (nchannels : Int) (h : 1 ≤ nchannels ∧ nchannels ≤ 4) :
    (typespec_to_opengl false m_use_halffloat m_use_float basetype issrgb
      nchannels).glinternalformat.is_srgb = false := by
  have hn : nchannels = 1 ∨ nchannels = 2 ∨ nchannels = 3 ∨ nchannels = 4 := by omega
  rcases hn with rfl | rfl | rfl | rfl <;> cases m_use_float <;> cases basetype <;> rfl

theorem typespec_no_float (m_use_srgb m_use_halffloat : Bool) (basetype : BASETYPE)
    (issrgb : Bool) (nchannels : Int) (h : 1 ≤ nchannels ∧ nchannels ≤ 4) :
    (typespec_to_opengl m_use_srgb m_use_halffloat false basetype issrgb
      nchannels).glinternalformat.is_float_internal = false := by
  have hn : nchannels = 1 ∨ nchannels = 2 ∨ nchannels = 3 ∨ nchannels = 4 := by omega
  rcases hn with rfl | rfl | rfl | rfl <;> cases m_use_srgb <;> cases issrgb <;>
    cases basetype <;> rfl

theorem typespec_half_type (m_use_srgb m_use_halffloat m_use_float : Bool)
    (basetype : BASETYPE) (issrgb : Bool) (nchannels : Int)
    (h : 1 ≤ nchannels ∧ nchannels ≤ 4) :
    ((typespec_to_opengl m_use_srgb m_use_halffloat m_use_float basetype issrgb
        nchannels).gltype = GLenum.GL_HALF_FLOAT_ARB → m_use_halffloat = true) ∧
    (basetype = BASETYPE.HALF → m_use_halffloat = false →
      (typespec_to_opengl m_use_srgb m_use_halffloat m_use_float basetype issrgb
        nchannels).gltype = GLenum.GL_INVALID_ENUM) := by
  have hn : nchannels = 1 ∨ nchannels = 2 ∨ nchannels = 3 ∨ nchannels = 4 := by omega
  rcases hn with rfl | rfl | rfl | rfl <;> cases m_use_halffloat <;> cases basetype <;>
    simp [typespec_to_opengl]

theorem typespec_srgb_chosen (m_use_halffloat m_use_float : Bool) (basetype : BASETYPE)
    (nchannels : Int) (h : 1 ≤ nchannels ∧ nchannels ≤ 4) :
    (typespec_to_opengl true m_use_halffloat m_use_float basetype true
      nchannels).glinternalformat.is_srgb = true ∧
    ((typespec_to_opengl true m_use_halffloat m_use_float basetype true
      nchannels).glinternalformat.is_srgb8 = true ↔ basetype = BASETYPE.UINT8) := by
  have hn : nchannels = 1 ∨ nchannels = 2 ∨ nchannels = 3 ∨ nchannels = 4 := by omega
  rcases hn with rfl | rfl | rfl | rfl <;> cases basetype <;>
    simp [typespec_to_opengl, GLenum.is_srgb, GLenum.is_srgb8]

/-- C24. Capability gaps narrow the internal formats: for every base type, sRGB tag and
channel count 1..4, `typespec_to_opengl` returns no sRGB internal format when `m_use_srgb`
is false and no floating-point internal format when `m_use_float` is false; it returns the
upload type `GL_HALF_FLOAT_ARB` only when `m_use_halffloat` is true, and for a HALF image
without half-float support the upload type is `GL_INVALID_ENUM`; when `m_use_srgb` is true
and the image is sRGB-tagged the internal format is an sRGB format for every base type,
the 8-bit variant exactly when the base type is UINT8. -/
theorem C24_capability_gaps (m_use_srgb m_use_halffloat m_use_float : Bool)
    (basetype : BASETYPE) (issrgb : Bool) (nchannels : Int)
    (h : 1 ≤ nchannels ∧ nchannels ≤ 4) :
    (m_use_srgb = false →
      (typespec_to_opengl m_use_srgb m_use_halffloat m_use_float basetype issrgb
        nchannels).glinternalformat.is_srgb = false) ∧
    (m_use_float = false →
      (typespec_to_opengl m_use_srgb m_use_halffloat m_use_float basetype issrgb
        nchannels).glinternalformat.is_float_internal = false) ∧
    ((typespec_to_opengl m_use_srgb m_use_halffloat m_use_float basetype issrgb
        nchannels).gltype = GLenum.GL_HALF_FLOAT_ARB → m_use_halffloat = true) ∧
    (basetype = BASETYPE.HALF → m_use_halffloat = false →
      (typespec_to_opengl m_use_srgb m_use_halffloat m_use_float basetype issrgb
        nchannels).gltype = GLenum.GL_INVALID_ENUM) ∧
    (m_use_srgb = true → issrgb = true →
      (typespec_to_opengl m_use_srgb m_use_halffloat m_use_float basetype issrgb
        nchannels).glinternalformat.is_srgb = true ∧
      ((typespec_to_opengl m_use_srgb m_use_halffloat m_use_float basetype issrgb
        nchannels).glinternalformat.is_srgb8 = true ↔ basetype = BASETYPE.UINT8)) := by
  refine ⟨?_, ?_, ?_, ?_, ?_⟩
  · rintro rfl
    exact typespec_no_srgb m_use_halffloat m_use_float basetype issrgb nchannels h
  · rintro rfl
    exact typespec_no_float m_use_srgb m_use_halffloat basetype issrgb nchannels h
  · exact (typespec_half_type m_use_srgb m_use_halffloat m_use_float basetype issrgb
      nchannels h).1
  · exact (typespec_half_type m_use_srgb m_use_halffloat m_use_float basetype issrgb
      nchannels h).2
  · rintro rfl rfl
    exact typespec_srgb_chosen m_use_halffloat m_use_float basetype nchannels h

theorem C24_capability_gaps_witness :
    ((1 : Int) ≤ 3 ∧ (3 : Int) ≤ 4) ∧
    ((typespec_to_opengl false false false BASETYPE.HALF true 3).glinternalformat.is_srgb
        = false ∧
      (typespec_to_opengl false false false BASETYPE.HALF true 3).glinternalformat.is_float_internal
        = false ∧
      (typespec_to_opengl false false false BASETYPE.HALF true 3).gltype
        = GLenum.GL_INVALID_ENUM) :=
  ⟨⟨by decide, by decide⟩,
   ⟨(C24_capability_gaps false false false BASETYPE.HALF true 3 ⟨by decide, by decide⟩).1 rfl,
    (C24_capability_gaps false false false BASETYPE.HALF true 3 ⟨by decide, by decide⟩).2.1 rfl,
    (C24_capability_gaps false false false BASETYPE.HALF true 3
      ⟨by decide, by decide⟩).2.2.2.1 rfl rfl⟩⟩

/-! ## Theorems: channel names of the pixel inspector -/

theorem paint_pixelview_name_length (name : List Char) :
    ((paint_pixelview_name name).length : Int) ≤ MAX_NAME_LENGTH := by
  unfold paint_pixelview_name MAX_NAME_LENGTH format_ellipsis
  split_ifs with h
  · have h3 : "...".toList.length = 3 := by decide
    simp only [List.length_append, List.length_take, List.length_drop, h3]
    omega
  · omega

theorem paint_pixelview_maxLengths_name_le (names : List (List Char)) :
    ∀ m : Int, m ≤ MAX_NAME_LENGTH →
      names.foldl (fun m name => max m ((paint_pixelview_name name).length : Int)) m
        ≤ MAX_NAME_LENGTH := by
  induction names with
  | nil => intro m hm; simpa using hm
  | cons n names ih =>
    intro m hm
    simp only [List.foldl_cons]
    exact ih _ (max_le hm (paint_pixelview_name_length n))

/-- C25. Channel-name truncation in the statistics table of `paint_pixelview`: the
displayed name has at most 10 characters; a name of at most 10 characters is displayed
unchanged; a longer name is displayed as its first 4 characters, three dots and its last 3
characters, 10 characters in all; and `MAX_NAME_LENGTH - maxLengths.name` is never
negative. -/
theorem C25_channel_name_truncation (name : List Char) (channelnames : List (List Char)) :
    (paint_pixelview_name name).length ≤ 10 ∧
    (name.length ≤ 10 → paint_pixelview_name name = name) ∧
    (10 < name.length →
      paint_pixelview_name name
        = name.take 4 ++ ['.', '.', '.'] ++ name.drop (name.length - 3) ∧
      (name.drop (name.length - 3)).length = 3 ∧
      (paint_pixelview_name name).length = 10) ∧
    0 ≤ float_spaces_post_value_length channelnames := by
  have hlen := paint_pixelview_name_length name
  unfold MAX_NAME_LENGTH at hlen
  refine ⟨by omega, ?_, ?_, ?_⟩
  · intro h
    unfold paint_pixelview_name MAX_NAME_LENGTH
    rw [if_neg (by omega)]
  · intro h
    have e : paint_pixelview_name name
        = name.take 4 ++ ['.', '.', '.'] ++ name.drop (name.length - 3) := by
      unfold paint_pixelview_name MAX_NAME_LENGTH format_ellipsis
      rw [if_pos (by omega)]
      rfl
    refine ⟨e, ?_, ?_⟩
    · simp only [List.length_drop]; omega
    · rw [e]
      simp only [List.length_append, List.length_take, List.length_drop, List.length_cons,
        List.length_nil]
      omega
  · have h := paint_pixelview_maxLengths_name_le channelnames 0 (by decide)
    unfold float_spaces_post_value_length paint_pixelview_maxLengths_name
    omega

/-! ## Theorems: orientation on the pixel grid -/

/-- The stored pixel of an oriented pixel, tag by tag, in integers. -/
theorem oriented_to_stored_eq (t W H x y : Int) :
    oriented_to_stored t W H (x, y)
      = if t = 2 then (W - x - 1, y)
        else if t = 3 then (W - x - 1, H - y - 1)
        else if t = 4 then (x, H - y - 1)
        else if t = 5 then (y, x)
        else if t = 6 then (y, H - x - 1)
        else if t = 7 then (W - y - 1, H - x - 1)
        else if t = 8 then (W - y - 1, x)
        else (x, y) := by
  unfold oriented_to_stored handle_orientation orient_init
  simp only [eq_self_iff_true, if_true]
  split_ifs <;>
    simp only [float_to_int_intCast, float_to_int_reflect]

/-- C26. Orientation on the pixel grid: for a tag `t` of 0..8 and every width `W` and height
`H` (so for `W >= 1` and `H >= 1`), with the oriented grid `[0, ow) × [0, oh)` equal to `[0, W) × [0, H)` for the tags
0..4 and to `[0, H) × [0, W)` for the tags 5..8, pixel-mode `handle_orientation` maps every
pixel of the oriented grid to a pixel of `[0, W) × [0, H)`; the map is one-to-one on the
oriented grid and onto the stored grid; and a cursor for which `paint_pixelview` finds
`is_mouse_inside_image` reads the pixel `(pixel_x, pixel_y)` inside the data window. -/
theorem C26_orientation_grid_bijection (t W H ow oh : Int) (ht : 0 ≤ t ∧ t ≤ 8)
    (how : ow = if 5 ≤ t then H else W) (hoh : oh = if 5 ≤ t then W else H) :
    (∀ x y, (0 ≤ x ∧ x < ow) → (0 ≤ y ∧ y < oh) →
      (0 ≤ (oriented_to_stored t W H (x, y)).1 ∧ (oriented_to_stored t W H (x, y)).1 < W) ∧
      (0 ≤ (oriented_to_stored t W H (x, y)).2 ∧ (oriented_to_stored t W H (x, y)).2 < H)) ∧
    (∀ x y x2 y2, (0 ≤ x ∧ x < ow) → (0 ≤ y ∧ y < oh) → (0 ≤ x2 ∧ x2 < ow) →
      (0 ≤ y2 ∧ y2 < oh) →
      oriented_to_stored t W H (x, y) = oriented_to_stored t W H (x2, y2) →
      x = x2 ∧ y = y2) ∧
    (∀ u v, (0 ≤ u ∧ u < W) → (0 ≤ v ∧ v < H) →
      ∃ x y, (0 ≤ x ∧ x < ow) ∧ (0 ≤ y ∧ y < oh) ∧ oriented_to_stored t W H (x, y) = (u, v)) ∧
    (∀ (img : IvImage) (N A mx my : Int), img.orientation = t → img.spec_width = W →
      img.spec_height = H →
      (paint_pixelview img ow oh N A mx my).is_mouse_inside_image = true →
      (img.spec_x ≤ (paint_pixelview img ow oh N A mx my).pixel_x ∧
        (paint_pixelview img ow oh N A mx my).pixel_x < img.spec_x + W) ∧
      (img.spec_y ≤ (paint_pixelview img ow oh N A mx my).pixel_y ∧
        (paint_pixelview img ow oh N A mx my).pixel_y < img.spec_y + H)) := by
  obtain ⟨ht0, ht8⟩ := ht
  have hmap : ∀ x y, (0 ≤ x ∧ x < ow) → (0 ≤ y ∧ y < oh) →
      (0 ≤ (oriented_to_stored t W H (x, y)).1 ∧ (oriented_to_stored t W H (x, y)).1 < W) ∧
      (0 ≤ (oriented_to_stored t W H (x, y)).2 ∧ (oriented_to_stored t W H (x, y)).2 < H) := by
    intro x y hx hy
    rw [oriented_to_stored_eq]
    subst how hoh
    split_ifs at hx hy ⊢ <;> simp only <;> omega
  refine ⟨hmap, ?_, ?_, ?_⟩
  · intro x y x2 y2 hx hy hx2 hy2 h
    rw [oriented_to_stored_eq, oriented_to_stored_eq] at h
    split_ifs at h <;> simp only [Prod.mk.injEq] at h <;> omega
  · intro u v hu hv
    subst how hoh
    have hcases : t = 0 ∨ t = 1 ∨ t = 2 ∨ t = 3 ∨ t = 4 ∨ t = 5 ∨ t = 6 ∨ t = 7 ∨ t = 8 := by
      omega
    rcases hcases with rfl | rfl | rfl | rfl | rfl | rfl | rfl | rfl | rfl
    · refine ⟨u, v, ?_, ?_, ?_⟩ <;> simp [oriented_to_stored_eq] <;> omega
    · refine ⟨u, v, ?_, ?_, ?_⟩ <;> simp [oriented_to_stored_eq] <;> omega
    · refine ⟨W - u - 1, v, ?_, ?_, ?_⟩ <;> simp [oriented_to_stored_eq] <;> omega
    · refine ⟨W - u - 1, H - v - 1, ?_, ?_, ?_⟩ <;> simp [oriented_to_stored_eq] <;> omega
    · refine ⟨u, H - v - 1, ?_, ?_, ?_⟩ <;> simp [oriented_to_stored_eq] <;> omega
    · refine ⟨v, u, ?_, ?_, ?_⟩ <;> simp [oriented_to_stored_eq] <;> omega
    · refine ⟨H - v - 1, u, ?_, ?_, ?_⟩ <;> simp [oriented_to_stored_eq] <;> omega
    · refine ⟨H - v - 1, W - u - 1, ?_, ?_, ?_⟩ <;> simp [oriented_to_stored_eq] <;> omega
    · refine ⟨v, W - u - 1, ?_, ?_, ?_⟩ <;> simp [oriented_to_stored_eq] <;> omega
  · intro img N A mx my hor hw hh hin
    have hin2 : (0 ≤ mx ∧ mx < ow) ∧ (0 ≤ my ∧ my < oh) := by
      simp only [paint_pixelview, Bool.and_eq_true, decide_eq_true_eq] at hin
      omega
    have h := hmap mx my hin2.1 hin2.2
    have e1 : (paint_pixelview img ow oh N A mx my).pixel_x
        = (oriented_to_stored t W H (mx, my)).1 + img.spec_x := by
      simp only [paint_pixelview, oriented_to_stored, hor, hw, hh]
    have e2 : (paint_pixelview img ow oh N A mx my).pixel_y
        = (oriented_to_stored t W H (mx, my)).2 + img.spec_y := by
      simp only [paint_pixelview, oriented_to_stored, hor, hw, hh]
    rw [e1, e2]
    omega

theorem C26_orientation_grid_bijection_witness :
    (((0 : Int) ≤ 6 ∧ (6 : Int) ≤ 8) ∧
      (20 : Int) = (if (5 : Int) ≤ 6 then 20 else 30) ∧
      (30 : Int) = (if (5 : Int) ≤ 6 then 30 else 20)) ∧
    (∀ x y : Int, (0 ≤ x ∧ x < 20) → (0 ≤ y ∧ y < 30) →
      (0 ≤ (oriented_to_stored 6 30 20 (x, y)).1 ∧ (oriented_to_stored 6 30 20 (x, y)).1 < 30) ∧
      (0 ≤ (oriented_to_stored 6 30 20 (x, y)).2 ∧
        (oriented_to_stored 6 30 20 (x, y)).2 < 20)) :=
  ⟨⟨⟨by decide, by decide⟩, by decide, by decide⟩,
   (C26_orientation_grid_bijection 6 30 20 20 30 ⟨by decide, by decide⟩
     (by decide) (by decide)).1⟩

/-! ## Theorems: ordering of the statistics -/

theorem list_sum_bounds (l : List Nat) (m M : Nat) (h1 : ∀ v ∈ l, m ≤ v)
    (h2 : ∀ v ∈ l, v ≤ M) : m * l.length ≤ l.sum ∧ l.sum ≤ M * l.length := by
  induction l with
  | nil => simp
  | cons a l ih =>
    obtain ⟨i1, i2⟩ := ih (fun v hv => h1 v (List.mem_cons_of_mem _ hv))
      (fun v hv => h2 v (List.mem_cons_of_mem _ hv))
    have ha1 := h1 a (List.mem_cons_self _ _)
    have ha2 := h2 a (List.mem_cons_self _ _)
    simp only [List.length_cons, List.sum_cons, Nat.mul_succ]
    omega

/-- C27. Ordering of the statistics, unsigned integer sample types: for every ROI with
`xbegin < xend` and `ybegin < yend` inside the data window, `calculate_channel_stats`
returns `min_val <= avg_val <= max_val`, with `avg_val = floor(sum / pixel_count)` for the
exact sum of the samples and `pixel_count = (xend - xbegin) * (yend - ybegin)`; when
`is_inside_data_window` is false or `pixel_count <= 0`, all three results are 0. -/
theorem C27_stats_ordered (tmax : Nat) (img : Int → Int → Int → Nat) (roi : ROI)
    (channel : Int) (hx : roi.xbegin < roi.xend) (hy : roi.ybegin < roi.yend) :
    ((calculate_channel_stats tmax img roi channel true).min_val
        ≤ (calculate_channel_stats tmax img roi channel true).avg_val ∧
      (calculate_channel_stats tmax img roi channel true).avg_val
        ≤ (calculate_channel_stats tmax img roi channel true).max_val) ∧
    (((calculate_channel_stats tmax img roi channel true).avg_val : Int)
      = ⌊((∑ j in Finset.range (roi.yend - roi.ybegin).toNat,
            ∑ i in Finset.range (roi.xend - roi.xbegin).toNat,
              img (roi.xbegin + (i : Int)) (roi.ybegin + (j : Int)) channel : Nat) : ℚ)
          / (((roi.xend - roi.xbegin) * (roi.yend - roi.ybegin) : Int) : ℚ)⌋) ∧
    (∀ (r : ROI) (ch : Int),
      calculate_channel_stats tmax img r ch false
        = { min_val := 0, max_val := 0, avg_val := 0 }) ∧
    (∀ (r : ROI) (ch : Int) (inside : Bool),
      (r.xend - r.xbegin) * (r.yend - r.ybegin) ≤ 0 →
      calculate_channel_stats tmax img r ch inside
        = { min_val := 0, max_val := 0, avg_val := 0 }) := by
  refine ⟨?_, ?_, ?_, ?_⟩
  · rw [calculate_channel_stats_scan tmax img roi channel hx hy]
    obtain ⟨⟨_, hmin_le, _⟩, ⟨_, hmax_le, _⟩, hsum⟩ :=
      stats_fold ((raster roi.xbegin roi.xend roi.ybegin roi.yend).map
        (fun p => img p.1 p.2 channel)) (tmax, 0, 0)
    obtain ⟨b1, b2⟩ := list_sum_bounds _ _ _ hmin_le hmax_le
    simp only [Nat.zero_add] at hsum
    have hlen : ((raster roi.xbegin roi.xend roi.ybegin roi.yend).map
        (fun p => img p.1 p.2 channel)).length
        = ((roi.xend - roi.xbegin) * (roi.yend - roi.ybegin)).toNat := by
      rw [List.length_map, raster_length, Nat.mul_comm]
      have h1 : 0 ≤ roi.xend - roi.xbegin := by omega
      have h2 : 0 ≤ roi.yend - roi.ybegin := by omega
      lift roi.xend - roi.xbegin to Nat using h1 with a
      lift roi.yend - roi.ybegin to Nat using h2 with b
      rw [← Nat.cast_mul, Int.toNat_natCast, Int.toNat_natCast, Int.toNat_natCast]
    have hpos : 0 < ((roi.xend - roi.xbegin) * (roi.yend - roi.ybegin)).toNat := by
      have : 0 < (roi.xend - roi.xbegin) * (roi.yend - roi.ybegin) :=
        mul_pos (by omega) (by omega)
      omega
    rw [hlen] at b1 b2
    simp only [hsum]
    exact ⟨(Nat.le_div_iff_mul_le hpos).2 b1,
      Nat.div_le_of_le_mul (by rw [Nat.mul_comm]; exact b2)⟩
  · rw [calculate_channel_stats_scan tmax img roi channel hx hy]
    obtain ⟨_, _, hsum⟩ :=
      stats_fold ((raster roi.xbegin roi.xend roi.ybegin roi.yend).map
        (fun p => img p.1 p.2 channel)) (tmax, 0, 0)
    rw [raster_sum (fun p => img p.1 p.2 channel)] at hsum
    simp only [Nat.zero_add] at hsum
    simp only [hsum]
    have hpos : 0 < (roi.xend - roi.xbegin) * (roi.yend - roi.ybegin) :=
      mul_pos (by omega) (by omega)
    have hd : (((roi.xend - roi.xbegin) * (roi.yend - roi.ybegin)).toNat : Int)
        = (roi.xend - roi.xbegin) * (roi.yend - roi.ybegin) := Int.toNat_of_nonneg hpos.le
    generalize (∑ j in Finset.range (roi.yend - roi.ybegin).toNat,
        ∑ i in Finset.range (roi.xend - roi.xbegin).toNat,
          img (roi.xbegin + (i : Int)) (roi.ybegin + (j : Int)) channel) = S
    rw [← hd]
    generalize ((roi.xend - roi.xbegin) * (roi.yend - roi.ybegin)).toNat = d at hd
    have h := Rat.floor_intCast_div_natCast (S : Int) d
    simp only [Int.cast_natCast] at h ⊢
    rw [h]
    push_cast
    rfl
  · intro r ch
    simp [calculate_channel_stats]
  · intro r ch inside hle
    cases inside <;> simp [calculate_channel_stats, hle]

theorem C27_stats_ordered_witness :
    ((0 : Int) < 8 ∧ (0 : Int) < 8) ∧
    ((calculate_channel_stats 255 ramp_image ⟨0, 8, 0, 8⟩ 0 true).min_val
        ≤ (calculate_channel_stats 255 ramp_image ⟨0, 8, 0, 8⟩ 0 true).avg_val ∧
      (calculate_channel_stats 255 ramp_image ⟨0, 8, 0, 8⟩ 0 true).avg_val
        ≤ (calculate_channel_stats 255 ramp_image ⟨0, 8, 0, 8⟩ 0 true).max_val) :=
  ⟨⟨by decide, by decide⟩,
   (C27_stats_ordered 255 ramp_image ⟨0, 8, 0, 8⟩ 0 (by decide) (by decide)).1⟩

/-! ## Theorems: drag-panning -/

/-- The continuous image coordinate under a window position, as `get_focus_image_pixel`
computes it before the `floorf`: `center + (mouse + 1/2 - extent / 2) / zoom`. -/
theorem focus_continuous (c z : ℚ) (w m : Int) (hw : (w : ℚ) ≠ 0) :
    lerp (c - 0.5 * (w : ℚ) / z) (c + 0.5 * (w : ℚ) / z) (((m : ℚ) + 0.5) / (w : ℚ))
      = c + ((m : ℚ) + 1 / 2 - (w : ℚ) / 2) / z := by
  unfold lerp
  field_simp
  ring

/-- C28. Drag-panning keeps the image under the cursor: in `mouseMoveEvent` with panning
active (no area-probe override), zoom `z = m_zoom = m_viewer.zoom() > 0` and exact
arithmetic, the continuous image coordinate under the new mouse position after the event,
`cx2 + (mx2 + 1/2 - w/2) / z`, equals the one that was under the remembered mouse position
before the event, `cx + (mx + 1/2 - w/2) / z`, and likewise for `y`; the zoom is unchanged
and the remembered mouse position is the new one. For a window of positive size the pixel
that `get_focus_image_pixel` reports is therefore unchanged. -/
theorem C28_drag_pan_fixes_cursor (st : MouseState) (env : MouseEnv) (img : IvImage)
    (pos : Int × Int) (Alt : Bool)
    (hover : (env.areaSampleMode && st.m_selecting) = false)
    (hpan : (env.mousemode = MouseMode.MouseModePan ∧ st.m_drag_button ≠ MouseButton.NoButton) ∨
      (env.mousemode = MouseMode.MouseModeZoom ∧
        (st.m_drag_button = MouseButton.MiddleButton ∨
          (st.m_drag_button = MouseButton.LeftButton ∧ Alt = true))))
    (hz : 0 < st.view.m_zoom) (hvz : env.viewer_zoom = st.view.m_zoom) :
    ((mouseMoveEvent st env img pos Alt).1.view.m_centerx
        + (((mouseMoveEvent st env img pos Alt).1.m_mousex : ℚ) + 1 / 2
            - ((mouseMoveEvent st env img pos Alt).1.view.width : ℚ) / 2)
          / (mouseMoveEvent st env img pos Alt).1.view.m_zoom
      = st.view.m_centerx
        + ((st.m_mousex : ℚ) + 1 / 2 - (st.view.width : ℚ) / 2) / st.view.m_zoom) ∧
    ((mouseMoveEvent st env img pos Alt).1.view.m_centery
        + (((mouseMoveEvent st env img pos Alt).1.m_mousey : ℚ) + 1 / 2
            - ((mouseMoveEvent st env img pos Alt).1.view.height : ℚ) / 2)
          / (mouseMoveEvent st env img pos Alt).1.view.m_zoom
      = st.view.m_centery
        + ((st.m_mousey : ℚ) + 1 / 2 - (st.view.height : ℚ) / 2) / st.view.m_zoom) ∧
    (mouseMoveEvent st env img pos Alt).1.view.m_zoom = st.view.m_zoom ∧
    ((mouseMoveEvent st env img pos Alt).1.m_mousex = pos.1 ∧
      (mouseMoveEvent st env img pos Alt).1.m_mousey = pos.2) ∧
    (0 < st.view.width → 0 < st.view.height →
      get_focus_image_pixel (mouseMoveEvent st env img pos Alt).1.view
          (mouseMoveEvent st env img pos Alt).1.m_mousex
          (mouseMoveEvent st env img pos Alt).1.m_mousey
        = get_focus_image_pixel st.view st.m_mousex st.m_mousey) := by
  have hst : (mouseMoveEvent st env img pos Alt).1
      = { st with
          view := { st.view with
            m_centerx := st.view.m_centerx
              + -(((pos.1 - st.m_mousex : Int) : ℚ) / st.view.m_zoom)
            m_centery := st.view.m_centery
              + -(((pos.2 - st.m_mousey : Int) : ℚ) / st.view.m_zoom)
            m_zoom := st.view.m_zoom }
          m_mousex := pos.1, m_mousey := pos.2 } := by
    rcases hpan with ⟨h1, h2⟩ | ⟨h1, h2 | ⟨h2, h3⟩⟩
    · simp [mouseMoveEvent, hover, h1, h2, pan, center, view, hvz]
    · simp [mouseMoveEvent, hover, h1, h2, pan, center, view, hvz]
    · simp [mouseMoveEvent, hover, h1, h2, h3, pan, center, view, hvz]
  have hz0 : st.view.m_zoom ≠ 0 := ne_of_gt hz
  have ex : st.view.m_centerx + -(((pos.1 - st.m_mousex : Int) : ℚ) / st.view.m_zoom)
        + ((pos.1 : ℚ) + 1 / 2 - (st.view.width : ℚ) / 2) / st.view.m_zoom
      = st.view.m_centerx
        + ((st.m_mousex : ℚ) + 1 / 2 - (st.view.width : ℚ) / 2) / st.view.m_zoom := by
    push_cast
    field_simp
    ring
  have ey : st.view.m_centery + -(((pos.2 - st.m_mousey : Int) : ℚ) / st.view.m_zoom)
        + ((pos.2 : ℚ) + 1 / 2 - (st.view.height : ℚ) / 2) / st.view.m_zoom
      = st.view.m_centery
        + ((st.m_mousey : ℚ) + 1 / 2 - (st.view.height : ℚ) / 2) / st.view.m_zoom := by
    push_cast
    field_simp
    ring
  rw [hst]
  refine ⟨ex, ey, rfl, ⟨rfl, rfl⟩, ?_⟩
  intro hw hh
  have hw0 : (st.view.width : ℚ) ≠ 0 := by exact_mod_cast ne_of_gt hw
  have hh0 : (st.view.height : ℚ) ≠ 0 := by exact_mod_cast ne_of_gt hh
  simp only [get_focus_image_pixel]
  rw [focus_continuous _ _ _ _ hw0, focus_continuous _ _ _ _ hh0,
    focus_continuous _ _ _ _ hw0, focus_continuous _ _ _ _ hh0, ex, ey]

theorem C28_drag_pan_fixes_cursor_witness :
    ((pan_mode_env.areaSampleMode && panning_state.m_selecting) = false ∧
      (pan_mode_env.mousemode = MouseMode.MouseModePan ∧
        panning_state.m_drag_button ≠ MouseButton.NoButton) ∧
      0 < panning_state.view.m_zoom ∧ pan_mode_env.viewer_zoom = panning_state.view.m_zoom) ∧
    ((mouseMoveEvent panning_state pan_mode_env gray_image (75, 40) false).1.view.m_zoom
        = panning_state.view.m_zoom ∧
      ((mouseMoveEvent panning_state pan_mode_env gray_image (75, 40) false).1.m_mousex = 75 ∧
        (mouseMoveEvent panning_state pan_mode_env gray_image (75, 40) false).1.m_mousey
          = 40)) :=
  ⟨⟨by decide, ⟨rfl, by decide⟩, by norm_num [panning_state, example_view], rfl⟩,
   ⟨(C28_drag_pan_fixes_cursor panning_state pan_mode_env gray_image (75, 40) false
      (by decide) (Or.inl ⟨rfl, by decide⟩) (by norm_num [panning_state, example_view])
      rfl).2.2.1,
    (C28_drag_pan_fixes_cursor panning_state pan_mode_env gray_image (75, 40) false
      (by decide) (Or.inl ⟨rfl, by decide⟩) (by norm_num [panning_state, example_view])
      rfl).2.2.2.1⟩⟩

/-! ## Theorems: tile dimensions -/

/-- One `update` keeps the tile size within `[1, m_max_texture_size]`, and leaves
`m_max_texture_size` as it is. -/
theorem update_keeps_bounds (ceil2 : Int → Int) (s : TileSize) (u : UpdateInput)
    (hmax : 1 ≤ s.m_max_texture_size)
    (hw : 1 ≤ s.m_texture_width ∧ s.m_texture_width ≤ s.m_max_texture_size)
    (hh : 1 ≤ s.m_texture_height ∧ s.m_texture_height ≤ s.m_max_texture_size) :
    (update ceil2 s u).m_max_texture_size = s.m_max_texture_size ∧
    (1 ≤ (update ceil2 s u).m_texture_width ∧
      (update ceil2 s u).m_texture_width ≤ s.m_max_texture_size) ∧
    (1 ≤ (update ceil2 s u).m_texture_height ∧
      (update ceil2 s u).m_texture_height ≤ s.m_max_texture_size) := by
  unfold update
  cases u.cur with
  | none => exact ⟨rfl, hw, hh⟩
  | some img =>
    simp only
    split_ifs
    · exact ⟨rfl, hw, hh⟩
    · exact ⟨rfl, clamp_mem _ 1 _ hmax, clamp_mem _ 1 _ hmax⟩
    · exact ⟨rfl, hw, hh⟩
    · exact ⟨rfl, clamp_mem _ 1 _ hmax, clamp_mem _ 1 _ hmax⟩

theorem updates_keep_bounds (ceil2 : Int → Int) (us : List UpdateInput) :
    ∀ (s : TileSize), 1 ≤ s.m_max_texture_size →
      (1 ≤ s.m_texture_width ∧ s.m_texture_width ≤ s.m_max_texture_size) →
      (1 ≤ s.m_texture_height ∧ s.m_texture_height ≤ s.m_max_texture_size) →
      (updates ceil2 s us).m_max_texture_size = s.m_max_texture_size ∧
      (1 ≤ (updates ceil2 s us).m_texture_width ∧
        (updates ceil2 s us).m_texture_width ≤ s.m_max_texture_size) ∧
      (1 ≤ (updates ceil2 s us).m_texture_height ∧
        (updates ceil2 s us).m_texture_height ≤ s.m_max_texture_size) := by
  induction us with
  | nil => intro s _ hw hh; exact ⟨rfl, hw, hh⟩
  | cons u us ih =>
    intro s hmax hw hh
    obtain ⟨e, hw1, hh1⟩ := update_keeps_bounds ceil2 s u hmax hw hh
    have := ih (update ceil2 s u) (by rw [e]; exact hmax) (by rw [e]; exact hw1)
      (by rw [e]; exact hh1)
    rw [e] at this
    exact this

/-- With a step of at least 1 the loop makes at most `stop - start` passes, whatever the
fuel: it ends. -/
theorem loop_starts_length (step : Int) (hs : 1 ≤ step) :
    ∀ (fuel : Nat) (start stop : Int),
      (loop_starts fuel start stop step).length ≤ (stop - start).toNat := by
  intro fuel
  induction fuel with
  | zero => intro start stop; simp [loop_starts]
  | succ fuel ih =>
    intro start stop
    unfold loop_starts
    by_cases hlt : start < stop
    · rw [if_pos hlt, List.length_cons]
      have := ih (start + step) stop
      omega
    · rw [if_neg hlt]; simp

/-- C29. Tile dimensions are positive and bounded: the constructor sets `m_texture_width`
and `m_texture_height` to 1; after `check_gl_extensions` and any number of `update` calls,
with `1 <= m_max_texture_size`, the tile size satisfies
`1 <= m_texture_width, m_texture_height <= m_max_texture_size <= 4096`. Hence the tile size
is never 0 as the divisor of the remainder in `paintGL`, and each tile loop makes at most
as many passes as its range is long. -/
theorem C29_tile_dimensions (ceil2 : Int → Int) (indeterminate gl_max_texture_size : Int)
    (us : List UpdateInput) (s : TileSize)
    (hs : s = updates ceil2
      (check_gl_extensions (IvGL_constructor indeterminate) gl_max_texture_size) us)
    (hmax : 1 ≤ s.m_max_texture_size) :
    ((IvGL_constructor indeterminate).m_texture_width = 1 ∧
      (IvGL_constructor indeterminate).m_texture_height = 1) ∧
    ((1 ≤ s.m_texture_width ∧ s.m_texture_width ≤ s.m_max_texture_size) ∧
      (1 ≤ s.m_texture_height ∧ s.m_texture_height ≤ s.m_max_texture_size) ∧
      s.m_max_texture_size ≤ 4096) ∧
    (s.m_texture_width ≠ 0 ∧ s.m_texture_height ≠ 0) ∧
    (∀ (fuel : Nat) (start stop : Int),
      (loop_starts fuel start stop s.m_texture_width).length ≤ (stop - start).toNat ∧
      (loop_starts fuel start stop s.m_texture_height).length ≤ (stop - start).toNat) := by
  have hm0 : (check_gl_extensions (IvGL_constructor indeterminate)
      gl_max_texture_size).m_max_texture_size = min gl_max_texture_size 4096 := rfl
  have hkeep : s.m_max_texture_size = min gl_max_texture_size 4096 := by
    rw [hs]
    by_cases h1 : 1 ≤ min gl_max_texture_size 4096
    · exact (updates_keep_bounds ceil2 us _ (by rw [hm0]; exact h1)
        ⟨le_refl _, by rw [hm0]; exact h1⟩ ⟨le_refl _, by rw [hm0]; exact h1⟩).1
    · exfalso
      have hfix : ∀ (l : List UpdateInput) (t : TileSize),
          (updates ceil2 t l).m_max_texture_size = t.m_max_texture_size := by
        intro l
        induction l with
        | nil => intro t; rfl
        | cons u l ih =>
          intro t
          have hu : (update ceil2 t u).m_max_texture_size = t.m_max_texture_size := by
            unfold update
            cases u.cur with
            | none => rfl
            | some img => simp only; split_ifs <;> rfl
          have h2 := ih (update ceil2 t u)
          rw [hu] at h2
          exact h2
      rw [hs, hfix, hm0] at hmax
      exact h1 hmax
  have h1 : 1 ≤ min gl_max_texture_size 4096 := by rw [← hkeep]; exact hmax
  obtain ⟨_, hw, hh⟩ := updates_keep_bounds ceil2 us
    (check_gl_extensions (IvGL_constructor indeterminate) gl_max_texture_size)
    (by rw [hm0]; exact h1) ⟨le_refl _, by rw [hm0]; exact h1⟩
    ⟨le_refl _, by rw [hm0]; exact h1⟩
  rw [← hs, hm0, ← hkeep] at hw hh
  refine ⟨⟨rfl, rfl⟩, ⟨hw, hh, ?_⟩, ⟨by omega, by omega⟩, ?_⟩
  · rw [hkeep]; exact min_le_right _ _
  · intro fuel start stop
    exact ⟨loop_starts_length _ hw.1 fuel start stop, loop_starts_length _ hh.1 fuel start stop⟩

theorem C29_tile_dimensions_witness :
    (1 ≤ (updates pow2_ceil (check_gl_extensions (IvGL_constructor 0) 16384)
        [⟨some gray_image, 0, COLOR_MODE.RGBA, true⟩,
         ⟨none, 0, COLOR_MODE.RGBA, true⟩]).m_max_texture_size) ∧
    ((1 ≤ (updates pow2_ceil (check_gl_extensions (IvGL_constructor 0) 16384)
        [⟨some gray_image, 0, COLOR_MODE.RGBA, true⟩,
         ⟨none, 0, COLOR_MODE.RGBA, true⟩]).m_texture_width ∧
      (updates pow2_ceil (check_gl_extensions (IvGL_constructor 0) 16384)
        [⟨some gray_image, 0, COLOR_MODE.RGBA, true⟩,
         ⟨none, 0, COLOR_MODE.RGBA, true⟩]).m_texture_width
        ≤ (updates pow2_ceil (check_gl_extensions (IvGL_constructor 0) 16384)
        [⟨some gray_image, 0, COLOR_MODE.RGBA, true⟩,
         ⟨none, 0, COLOR_MODE.RGBA, true⟩]).m_max_texture_size)) :=
  ⟨by decide,
   (C29_tile_dimensions pow2_ceil 0 16384
     [⟨some gray_image, 0, COLOR_MODE.RGBA, true⟩, ⟨none, 0, COLOR_MODE.RGBA, true⟩] _ rfl
     (by decide)).2.1.1⟩

/-! ## Theorems: fetched channel range -/

/-- C30. `num_channels` bounds the fetched channel range: for every `nchannels` (so for
`nchannels >= 0`) and `current_channel >= 0` the result `n` satisfies `0 <= n <= 4` in RGBA mode, `0 <= n <= 3`
in RGB and LUMINANCE modes and `n = 1` in SINGLE_CHANNEL and HEATMAP modes; in RGBA, RGB
and LUMINANCE modes, when `n > 0` the range `[current_channel, current_channel + n)` lies
within `[0, nchannels)`, and `n = 0` exactly when `current_channel >= nchannels`. The
range is the one `load_texture` passes to `get_pixels` on a miss with shaders. -/
theorem C30_num_channels_range (current_channel nchannels : Int)
    (hc : 0 ≤ current_channel) :
    (0 ≤ num_channels current_channel nchannels COLOR_MODE.RGBA ∧
      num_channels current_channel nchannels COLOR_MODE.RGBA ≤ 4) ∧
    (0 ≤ num_channels current_channel nchannels COLOR_MODE.RGB ∧
      num_channels current_channel nchannels COLOR_MODE.RGB ≤ 3) ∧
    (0 ≤ num_channels current_channel nchannels COLOR_MODE.LUMINANCE ∧
      num_channels current_channel nchannels COLOR_MODE.LUMINANCE ≤ 3) ∧
    (num_channels current_channel nchannels COLOR_MODE.SINGLE_CHANNEL = 1 ∧
      num_channels current_channel nchannels COLOR_MODE.HEATMAP = 1) ∧
    (∀ mode, mode = COLOR_MODE.RGBA ∨ mode = COLOR_MODE.RGB ∨ mode = COLOR_MODE.LUMINANCE →
      (0 < num_channels current_channel nchannels mode →
        0 ≤ current_channel ∧
        current_channel + num_channels current_channel nchannels mode ≤ nchannels) ∧
      (num_channels current_channel nchannels mode = 0 ↔ current_channel ≥ nchannels)) ∧
    (∀ (s : Cache) (x y width height : Int) (s2 : Cache) (evs : List Event)
        (xb xe yb ye : Int) (chans : Option (Int × Int)),
      s.m_use_shaders = true → s.current_channel = current_channel →
      s.spec_nchannels = nchannels →
      load_texture s x y width height = some (s2, evs) →
      Event.get_pixels xb xe yb ye chans ∈ evs →
      chans = some (current_channel,
        current_channel + num_channels current_channel nchannels s.current_color_mode)) := by
  refine ⟨?_, ?_, ?_, ⟨rfl, rfl⟩, ?_, ?_⟩
  · simp only [num_channels, clamp]; split_ifs <;> omega
  · simp only [num_channels, clamp]; split_ifs <;> omega
  · simp only [num_channels, clamp]; split_ifs <;> omega
  · intro mode hmode
    rcases hmode with rfl | rfl | rfl <;>
      · simp only [num_channels, clamp]
        split_ifs <;> omega
  · intro s x y width height s2 evs xb xe yb ye chans hsh hcc hnc hload hmem
    unfold load_texture at hload
    cases hfind : s.m_texbufs.find? (fun tb => tile_covers tb x y width height) with
    | some tb =>
      rw [hfind] at hload
      simp only [Option.some.injEq, Prod.mk.injEq] at hload
      rw [← hload.2] at hmem
      simp at hmem
    | none =>
      rw [hfind] at hload
      simp only at hload
      cases hget : s.m_texbufs[s.m_last_texbuf_used]? with
      | none => rw [hget] at hload; simp at hload
      | some tb =>
        rw [hget] at hload
        simp only [Option.some.injEq, Prod.mk.injEq] at hload
        rw [← hload.2] at hmem
        simp only [hsh, Bool.not_true, Bool.false_eq_true, if_false, if_true, List.mem_cons,
          Event.get_pixels.injEq, List.mem_singleton, List.not_mem_nil, or_false,
          false_or, reduceCtorEq] at hmem
        rw [hmem.2.2.2.2, hcc, hnc]

theorem C30_num_channels_range_witness :
    ((0 : Int) ≤ 3) ∧
    ((0 ≤ num_channels 3 5 COLOR_MODE.RGBA ∧ num_channels 3 5 COLOR_MODE.RGBA ≤ 4) ∧
      (0 ≤ num_channels 3 5 COLOR_MODE.RGB ∧ num_channels 3 5 COLOR_MODE.RGB ≤ 3)) :=
  ⟨by decide,
   ⟨(C30_num_channels_range 3 5 (by decide)).1,
    (C30_num_channels_range 3 5 (by decide)).2.1⟩⟩

/-! ## Theorems: floating-point samples -/

theorem std_min_finite (a v : ℚ) :
    std_min (FloatVal.finite a) (FloatVal.finite v) = FloatVal.finite (min a v) := by
  simp only [std_min, FloatVal.lt, decide_eq_true_eq]
  rcases lt_or_le v a with h | h
  · rw [if_pos h, min_eq_right h.le]
  · rw [if_neg (not_lt.2 h), min_eq_left h]

theorem std_max_finite (a v : ℚ) :
    std_max (FloatVal.finite a) (FloatVal.finite v) = FloatVal.finite (max a v) := by
  simp only [std_max, FloatVal.lt, decide_eq_true_eq]
  rcases lt_or_le a v with h | h
  · rw [if_pos h, max_eq_right h.le]
  · rw [if_neg (not_lt.2 h), max_eq_left h]

theorem std_min_nan (a : FloatVal) : std_min a FloatVal.nan = a := by
  cases a <;> rfl

theorem std_max_nan (a : FloatVal) : std_max a FloatVal.nan = a := by
  cases a <;> rfl

/-- On finite samples the floating-point scan is the exact scan of the rationals. -/
theorem stats_fold_float_finite (qs : List ℚ) :
    ∀ (a b s : ℚ),
      (qs.map FloatVal.finite).foldl stats_step_float
          (FloatVal.finite a, FloatVal.finite b, FloatVal.finite s)
        = (FloatVal.finite (qs.foldl probe_channel_step (a, b, s)).1,
           FloatVal.finite (qs.foldl probe_channel_step (a, b, s)).2.1,
           FloatVal.finite (qs.foldl probe_channel_step (a, b, s)).2.2) := by
  induction qs with
  | nil => intro a b s; rfl
  | cons q qs ih =>
    intro a b s
    simp only [List.map_cons, List.foldl_cons]
    have e : stats_step_float (FloatVal.finite a, FloatVal.finite b, FloatVal.finite s)
        (FloatVal.finite q)
        = (FloatVal.finite (min a q), FloatVal.finite (max b q), FloatVal.finite (s + q)) := by
      simp only [stats_step_float, std_min_finite, std_max_finite, FloatVal.add]
    rw [e, ih]
    rfl

/-- A scan over NaN samples leaves the minimum and the maximum at their start values. -/
theorem stats_fold_float_nan (l : List FloatVal) (h : ∀ v ∈ l, v = FloatVal.nan) :
    ∀ (acc : FloatVal × FloatVal × FloatVal),
      (l.foldl stats_step_float acc).1 = acc.1 ∧ (l.foldl stats_step_float acc).2.1 = acc.2.1 := by
  induction l with
  | nil => intro acc; exact ⟨rfl, rfl⟩
  | cons v l ih =>
    intro acc
    have hv := h v (List.mem_cons_self _ _)
    subst hv
    obtain ⟨h1, h2⟩ := ih (fun w hw => h w (List.mem_cons_of_mem _ hw))
      (stats_step_float acc FloatVal.nan)
    simp only [List.foldl_cons]
    rw [h1, h2]
    simp only [stats_step_float, std_min_nan, std_max_nan, and_self]

theorem foldl_map_stats_float (img : Int → Int → Int → FloatVal) (channel : Int)
    (l : List (Int × Int)) :
    ∀ acc, l.foldl (fun acc p => stats_step_float acc (img p.1 p.2 channel)) acc
      = (l.map (fun p => img p.1 p.2 channel)).foldl stats_step_float acc := by
  induction l with
  | nil => intro acc; rfl
  | cons p l ih => intro acc; simp [List.foldl_cons, ih]

/-- For a region with `xbegin < xend` and `ybegin < yend` inside the data window the
floating-point result is read off one scan of the samples in raster order. -/
theorem calculate_channel_stats_float_scan (tmax : ℚ) (img : Int → Int → Int → FloatVal)
    (roi : ROI) (channel : Int) (hx : roi.xbegin < roi.xend) (hy : roi.ybegin < roi.yend) :
    calculate_channel_stats_float tmax img roi channel true
      = { min_val := (((raster roi.xbegin roi.xend roi.ybegin roi.yend).map
                (fun p => img p.1 p.2 channel)).foldl stats_step_float
                  (FloatVal.finite tmax, FloatVal.finite (-tmax), FloatVal.finite 0)).1
          max_val := (((raster roi.xbegin roi.xend roi.ybegin roi.yend).map
                (fun p => img p.1 p.2 channel)).foldl stats_step_float
                  (FloatVal.finite tmax, FloatVal.finite (-tmax), FloatVal.finite 0)).2.1
          avg_val := ((((raster roi.xbegin roi.xend roi.ybegin roi.yend).map
                (fun p => img p.1 p.2 channel)).foldl stats_step_float
                  (FloatVal.finite tmax, FloatVal.finite (-tmax), FloatVal.finite 0)).2.2).div_count
              ((roi.xend - roi.xbegin) * (roi.yend - roi.ybegin)) } := by
  have hpos : 0 < (roi.xend - roi.xbegin) * (roi.yend - roi.ybegin) :=
    mul_pos (by omega) (by omega)
  have hno : ¬ (roi.xend - roi.xbegin) * (roi.yend - roi.ybegin) ≤ 0 := not_le.2 hpos
  simp only [calculate_channel_stats_float, Bool.not_true, Bool.false_eq_true, if_false, hno,
    foldl_map_stats_float]

/-- Extrema of the floating-point instantiations on finite samples: the minimum and the
maximum are samples of the region and bound every sample of it. -/
theorem stats_extrema_float (tmax : ℚ) (img : Int → Int → Int → FloatVal)
    (g : Int → Int → ℚ) (roi : ROI) (channel : Int)
    (hx : roi.xbegin < roi.xend) (hy : roi.ybegin < roi.yend)
    (hfin : ∀ x y, (roi.xbegin ≤ x ∧ x < roi.xend) → (roi.ybegin ≤ y ∧ y < roi.yend) →
      img x y channel = FloatVal.finite (g x y) ∧ -tmax ≤ g x y ∧ g x y ≤ tmax) :
    (∃ x y, (roi.xbegin ≤ x ∧ x < roi.xend) ∧ (roi.ybegin ≤ y ∧ y < roi.yend) ∧
      (calculate_channel_stats_float tmax img roi channel true).min_val
        = FloatVal.finite (g x y) ∧
      ∀ x2 y2, (roi.xbegin ≤ x2 ∧ x2 < roi.xend) → (roi.ybegin ≤ y2 ∧ y2 < roi.yend) →
        g x y ≤ g x2 y2) ∧
    (∃ x y, (roi.xbegin ≤ x ∧ x < roi.xend) ∧ (roi.ybegin ≤ y ∧ y < roi.yend) ∧
      (calculate_channel_stats_float tmax img roi channel true).max_val
        = FloatVal.finite (g x y) ∧
      ∀ x2 y2, (roi.xbegin ≤ x2 ∧ x2 < roi.xend) → (roi.ybegin ≤ y2 ∧ y2 < roi.yend) →
        g x2 y2 ≤ g x y) := by
  rw [calculate_channel_stats_float_scan tmax img roi channel hx hy]
  have hmap : (raster roi.xbegin roi.xend roi.ybegin roi.yend).map
        (fun p => img p.1 p.2 channel)
      = ((raster roi.xbegin roi.xend roi.ybegin roi.yend).map
          (fun p => g p.1 p.2)).map FloatVal.finite := by
    rw [List.map_map]
    apply List.map_congr_left
    intro p hp
    obtain ⟨x, y⟩ := p
    have hm := (mem_raster _ _ _ _ x y).1 hp
    exact (hfin x y hm.1 hm.2).1
  simp only [hmap, stats_fold_float_finite]
  obtain ⟨⟨_, hmin_le, hmin_mem⟩, ⟨_, hmax_le, hmax_mem⟩, _⟩ :=
    probe_channel_fold ((raster roi.xbegin roi.xend roi.ybegin roi.yend).map
      (fun p => g p.1 p.2)) (tmax, -tmax, 0)
  have hval : ∀ x y, (roi.xbegin ≤ x ∧ x < roi.xend) → (roi.ybegin ≤ y ∧ y < roi.yend) →
      g x y ∈ (raster roi.xbegin roi.xend roi.ybegin roi.yend).map (fun p => g p.1 p.2) := by
    intro x y h1 h2
    exact List.mem_map.2 ⟨(x, y), (mem_raster _ _ _ _ x y).2 ⟨h1, h2⟩, rfl⟩
  have hpix : ∀ q, q ∈ (raster roi.xbegin roi.xend roi.ybegin roi.yend).map
        (fun p => g p.1 p.2) →
      ∃ x y, (roi.xbegin ≤ x ∧ x < roi.xend) ∧ (roi.ybegin ≤ y ∧ y < roi.yend) ∧
        q = g x y := by
    intro q hq
    obtain ⟨⟨x, y⟩, hp, rfl⟩ := List.mem_map.1 hq
    have := (mem_raster _ _ _ _ x y).1 hp
    exact ⟨x, y, this.1, this.2, rfl⟩
  have h0 := hval roi.xbegin roi.ybegin ⟨le_refl _, hx⟩ ⟨le_refl _, hy⟩
  have hb0 := hfin roi.xbegin roi.ybegin ⟨le_refl _, hx⟩ ⟨le_refl _, hy⟩
  constructor
  · have hatt : ∃ x y, (roi.xbegin ≤ x ∧ x < roi.xend) ∧ (roi.ybegin ≤ y ∧ y < roi.yend) ∧
        (((raster roi.xbegin roi.xend roi.ybegin roi.yend).map (fun p => g p.1 p.2)).foldl
          probe_channel_step (tmax, -tmax, 0)).1 = g x y := by
      rcases hmin_mem with heq | hmem
      · refine ⟨roi.xbegin, roi.ybegin, ⟨le_refl _, hx⟩, ⟨le_refl _, hy⟩, ?_⟩
        have h1 := hmin_le _ h0
        simp only at heq
        rw [heq] at h1 ⊢
        exact le_antisymm h1 hb0.2.2
      · exact hpix _ hmem
    obtain ⟨x, y, h1, h2, he⟩ := hatt
    refine ⟨x, y, h1, h2, by rw [he], ?_⟩
    intro x2 y2 h3 h4
    rw [← he]
    exact hmin_le _ (hval x2 y2 h3 h4)
  · have hatt : ∃ x y, (roi.xbegin ≤ x ∧ x < roi.xend) ∧ (roi.ybegin ≤ y ∧ y < roi.yend) ∧
        (((raster roi.xbegin roi.xend roi.ybegin roi.yend).map (fun p => g p.1 p.2)).foldl
          probe_channel_step (tmax, -tmax, 0)).2.1 = g x y := by
      rcases hmax_mem with heq | hmem
      · refine ⟨roi.xbegin, roi.ybegin, ⟨le_refl _, hx⟩, ⟨le_refl _, hy⟩, ?_⟩
        have h1 := hmax_le _ h0
        simp only at heq
        rw [heq] at h1 ⊢
        exact le_antisymm hb0.2.1 h1
      · exact hpix _ hmem
    obtain ⟨x, y, h1, h2, he⟩ := hatt
    refine ⟨x, y, h1, h2, by rw [he], ?_⟩
    intro x2 y2 h3 h4
    rw [← he]
    exact hmax_le _ (hval x2 y2 h3 h4)

/-- C8 as stated fails on the floating-point paths: for a `float` image whose samples are
NaN, over the ROI `[0, 2) × [0, 1)`, `calculate_channel_stats<float>` returns the start
values `min_val = FLT_MAX` and `max_val = -FLT_MAX`, which no pixel of the ROI has. -/
theorem C8_stats_extrema_counterexample :
    ((0 : Int) < 2 ∧ (0 : Int) < 1) ∧
    (calculate_channel_stats_float FLT_MAX nan_image ⟨0, 2, 0, 1⟩ 0 true).min_val
      = FloatVal.finite FLT_MAX ∧
    (calculate_channel_stats_float FLT_MAX nan_image ⟨0, 2, 0, 1⟩ 0 true).max_val
      = FloatVal.finite (-FLT_MAX) ∧
    (∀ x y, nan_image x y 0
        ≠ (calculate_channel_stats_float FLT_MAX nan_image ⟨0, 2, 0, 1⟩ 0 true).min_val ∧
      nan_image x y 0
        ≠ (calculate_channel_stats_float FLT_MAX nan_image ⟨0, 2, 0, 1⟩ 0 true).max_val) := by
  have hscan := calculate_channel_stats_float_scan FLT_MAX nan_image ⟨0, 2, 0, 1⟩ 0
    (by decide) (by decide)
  obtain ⟨h1, h2⟩ := stats_fold_float_nan
    ((raster (0 : Int) 2 0 1).map (fun p => nan_image p.1 p.2 0))
    (by intro v hv; obtain ⟨p, _, rfl⟩ := List.mem_map.1 hv; rfl)
    (FloatVal.finite FLT_MAX, FloatVal.finite (-FLT_MAX), FloatVal.finite 0)
  have hmin : (calculate_channel_stats_float FLT_MAX nan_image ⟨0, 2, 0, 1⟩ 0 true).min_val
      = FloatVal.finite FLT_MAX := by rw [hscan]; exact h1
  have hmax : (calculate_channel_stats_float FLT_MAX nan_image ⟨0, 2, 0, 1⟩ 0 true).max_val
      = FloatVal.finite (-FLT_MAX) := by rw [hscan]; exact h2
  refine ⟨⟨by decide, by decide⟩, hmin, hmax, ?_⟩
  intro x y
  rw [hmin, hmax]
  exact ⟨by simp [nan_image], by simp [nan_image]⟩

/-- C8 amended. Statistics correctness (extrema) on finite samples: for every ROI with
`xbegin < xend` and `ybegin < yend` and `is_inside_data_window` true,
`calculate_channel_stats` returns as `min_val` the least and as `max_val` the greatest
sample of the channel over the pixels of the ROI, each the sample of some pixel of the ROI
and a bound of the sample of every pixel of the ROI: on the unsigned integer paths always
(exactly, in the integer domain), and on the `half` and `float` paths when every sample of
the channel in the ROI is finite (no NaN, no infinity). -/
theorem C8_stats_extrema_amended (tmax : Nat) (img : Int → Int → Int → Nat)
    (ftmax : ℚ) (fimg : Int → Int → Int → FloatVal) (g : Int → Int → ℚ)
    (roi : ROI) (channel : Int)
    (hx : roi.xbegin < roi.xend) (hy : roi.ybegin < roi.yend)
    (hT : ∀ x y, img x y channel ≤ tmax)
    (hfin : ∀ x y, (roi.xbegin ≤ x ∧ x < roi.xend) → (roi.ybegin ≤ y ∧ y < roi.yend) →
      fimg x y channel = FloatVal.finite (g x y) ∧ -ftmax ≤ g x y ∧ g x y ≤ ftmax) :
    ((∃ x y, (roi.xbegin ≤ x ∧ x < roi.xend) ∧ (roi.ybegin ≤ y ∧ y < roi.yend) ∧
        img x y channel = (calculate_channel_stats tmax img roi channel true).min_val) ∧
      (∀ x y, (roi.xbegin ≤ x ∧ x < roi.xend) → (roi.ybegin ≤ y ∧ y < roi.yend) →
        (calculate_channel_stats tmax img roi channel true).min_val ≤ img x y channel) ∧
      (∃ x y, (roi.xbegin ≤ x ∧ x < roi.xend) ∧ (roi.ybegin ≤ y ∧ y < roi.yend) ∧
        img x y channel = (calculate_channel_stats tmax img roi channel true).max_val) ∧
      (∀ x y, (roi.xbegin ≤ x ∧ x < roi.xend) → (roi.ybegin ≤ y ∧ y < roi.yend) →
        img x y channel ≤ (calculate_channel_stats tmax img roi channel true).max_val)) ∧
    ((∃ x y, (roi.xbegin ≤ x ∧ x < roi.xend) ∧ (roi.ybegin ≤ y ∧ y < roi.yend) ∧
        (calculate_channel_stats_float ftmax fimg roi channel true).min_val
          = FloatVal.finite (g x y) ∧
        ∀ x2 y2, (roi.xbegin ≤ x2 ∧ x2 < roi.xend) → (roi.ybegin ≤ y2 ∧ y2 < roi.yend) →
          g x y ≤ g x2 y2) ∧
      (∃ x y, (roi.xbegin ≤ x ∧ x < roi.xend) ∧ (roi.ybegin ≤ y ∧ y < roi.yend) ∧
        (calculate_channel_stats_float ftmax fimg roi channel true).max_val
          = FloatVal.finite (g x y) ∧
        ∀ x2 y2, (roi.xbegin ≤ x2 ∧ x2 < roi.xend) → (roi.ybegin ≤ y2 ∧ y2 < roi.yend) →
          g x2 y2 ≤ g x y)) :=
  ⟨stats_extrema_unsigned tmax img roi channel hx hy hT,
   stats_extrema_float ftmax fimg g roi channel hx hy hfin⟩

theorem float_ramp_image_finite (x y : Int) (hx : 0 ≤ x ∧ x < 8) (hy : 0 ≤ y ∧ y < 8) :
    float_ramp_image x y 0 = FloatVal.finite ((x : ℚ) + 8 * (y : ℚ) + 1 / 2) ∧
    -FLT_MAX ≤ (x : ℚ) + 8 * (y : ℚ) + 1 / 2 ∧ (x : ℚ) + 8 * (y : ℚ) + 1 / 2 ≤ FLT_MAX := by
  refine ⟨rfl, ?_, ?_⟩
  · have h1 : (0 : ℚ) ≤ (x : ℚ) := by exact_mod_cast hx.1
    have h2 : (0 : ℚ) ≤ (y : ℚ) := by exact_mod_cast hy.1
    unfold FLT_MAX
    linarith
  · have h1 : (x : ℚ) ≤ 8 := by exact_mod_cast hx.2.le
    have h2 : (y : ℚ) ≤ 8 := by exact_mod_cast hy.2.le
    unfold FLT_MAX
    linarith

theorem C8_stats_extrema_amended_witness :
    ((0 : Int) < 8 ∧ (0 : Int) < 8 ∧ ∀ x y, ramp_image x y 0 ≤ 255) ∧
    ((∃ x y, ((0 : Int) ≤ x ∧ x < 8) ∧ ((0 : Int) ≤ y ∧ y < 8) ∧
        ramp_image x y 0
          = (calculate_channel_stats 255 ramp_image ⟨0, 8, 0, 8⟩ 0 true).min_val) ∧
      (∃ x y, ((0 : Int) ≤ x ∧ x < 8) ∧ ((0 : Int) ≤ y ∧ y < 8) ∧
        (calculate_channel_stats_float FLT_MAX float_ramp_image ⟨0, 8, 0, 8⟩ 0 true).min_val
          = FloatVal.finite ((x : ℚ) + 8 * (y : ℚ) + 1 / 2) ∧
        ∀ x2 y2, ((0 : Int) ≤ x2 ∧ x2 < 8) → ((0 : Int) ≤ y2 ∧ y2 < 8) →
          (x : ℚ) + 8 * (y : ℚ) + 1 / 2 ≤ (x2 : ℚ) + 8 * (y2 : ℚ) + 1 / 2)) :=
  ⟨⟨by decide, by decide, fun x y => ramp_image_le x y 0⟩,
   ⟨(C8_stats_extrema_amended 255 ramp_image FLT_MAX float_ramp_image
      (fun x y => (x : ℚ) + 8 * (y : ℚ) + 1 / 2) ⟨0, 8, 0, 8⟩ 0 (by decide) (by decide)
      (fun x y => ramp_image_le x y 0)
      (fun x y hx hy => float_ramp_image_finite x y hx hy)).1.1,
    (C8_stats_extrema_amended 255 ramp_image FLT_MAX float_ramp_image
      (fun x y => (x : ℚ) + 8 * (y : ℚ) + 1 / 2) ⟨0, 8, 0, 8⟩ 0 (by decide) (by decide)
      (fun x y => ramp_image_le x y 0)
      (fun x y hx hy => float_ramp_image_finite x y hx hy)).2.1⟩⟩

/-! ## Theorems: area probe on floating-point pixel values -/

/-- The point that `handle_orientation` returns does not depend on the scale and rotation
it is handed. -/
theorem handle_orientation_point (t W H : Int) (s : Orient) (pixel : Bool) :
    (handle_orientation t W H s pixel).point_x
      = (handle_orientation t W H (orient_init s.point_x s.point_y) pixel).point_x ∧
    (handle_orientation t W H s pixel).point_y
      = (handle_orientation t W H (orient_init s.point_x s.point_y) pixel).point_y := by
  unfold handle_orientation orient_init
  split_ifs <;> exact ⟨rfl, rfl⟩

/-- The box of `update_area_probe_text` is the bounding box of the two selection corners:
each corner is taken to image pixels by `get_given_image_pixel`, to the stored grid by the
orientation, and clamped to the image. -/
theorem area_probe_box_eq (v : View) (img : IvImage) :
    area_probe_box v img
      = (min
          (clamp (oriented_to_stored img.orientation img.spec_width img.spec_height
            (get_given_image_pixel v v.m_select_start.1 v.m_select_start.2)).1 0
            (img.spec_width - 1))
          (clamp (oriented_to_stored img.orientation img.spec_width img.spec_height
            (get_given_image_pixel v v.m_select_end.1 v.m_select_end.2)).1 0
            (img.spec_width - 1)),
         max
          (clamp (oriented_to_stored img.orientation img.spec_width img.spec_height
            (get_given_image_pixel v v.m_select_start.1 v.m_select_start.2)).1 0
            (img.spec_width - 1))
          (clamp (oriented_to_stored img.orientation img.spec_width img.spec_height
            (get_given_image_pixel v v.m_select_end.1 v.m_select_end.2)).1 0
            (img.spec_width - 1)),
         min
          (clamp (oriented_to_stored img.orientation img.spec_width img.spec_height
            (get_given_image_pixel v v.m_select_start.1 v.m_select_start.2)).2 0
            (img.spec_height - 1))
          (clamp (oriented_to_stored img.orientation img.spec_width img.spec_height
            (get_given_image_pixel v v.m_select_end.1 v.m_select_end.2)).2 0
            (img.spec_height - 1)),
         max
          (clamp (oriented_to_stored img.orientation img.spec_width img.spec_height
            (get_given_image_pixel v v.m_select_start.1 v.m_select_start.2)).2 0
            (img.spec_height - 1))
          (clamp (oriented_to_stored img.orientation img.spec_width img.spec_height
            (get_given_image_pixel v v.m_select_end.1 v.m_select_end.2)).2 0
            (img.spec_height - 1))) := by
  simp only [area_probe_box, oriented_to_stored]
  have h := handle_orientation_point img.orientation img.spec_width img.spec_height
    { handle_orientation img.orientation img.spec_width img.spec_height
        (orient_init (get_given_image_pixel v v.m_select_start.1 v.m_select_start.2).1
          (get_given_image_pixel v v.m_select_start.1 v.m_select_start.2).2) true with
      point_x := (get_given_image_pixel v v.m_select_end.1 v.m_select_end.2).1
      point_y := (get_given_image_pixel v v.m_select_end.1 v.m_select_end.2).2 } true
  simp only at h
  rw [h.1, h.2]

/-- On a channel whose pixel values are finite the floating-point pixel loop is the exact
loop of the rationals. -/
theorem probe_fold_float_finite (img : IvImage) (getpixel : Int → Int → Nat → FloatVal)
    (g : Int → Int → ℚ) (c : Nat)
    (hfin : ∀ x y, getpixel x y c = FloatVal.finite (g x y)) (l : List (Int × Int)) :
    ∀ (accF : ProbeAccF) (acc : ProbeAcc),
      accF.min_vals c = FloatVal.finite (acc.min_vals c) →
      accF.max_vals c = FloatVal.finite (acc.max_vals c) →
      accF.sums c = FloatVal.finite (acc.sums c) →
      accF.count = acc.count →
      (l.foldl (probe_step_float img getpixel) accF).min_vals c
        = FloatVal.finite
            ((l.foldl (probe_step { img with getpixel := fun x y _ => g x y }) acc).min_vals c) ∧
      (l.foldl (probe_step_float img getpixel) accF).max_vals c
        = FloatVal.finite
            ((l.foldl (probe_step { img with getpixel := fun x y _ => g x y }) acc).max_vals c) ∧
      (l.foldl (probe_step_float img getpixel) accF).sums c
        = FloatVal.finite
            ((l.foldl (probe_step { img with getpixel := fun x y _ => g x y }) acc).sums c) ∧
      (l.foldl (probe_step_float img getpixel) accF).count
        = (l.foldl (probe_step { img with getpixel := fun x y _ => g x y }) acc).count := by
  induction l with
  | nil => intro accF acc h1 h2 h3 h4; exact ⟨h1, h2, h3, h4⟩
  | cons p l ih =>
    intro accF acc h1 h2 h3 h4
    simp only [List.foldl_cons]
    apply ih
    · simp only [probe_step_float, probe_step, h1, hfin]
      split_ifs
      · exact std_min_finite _ _
      · rfl
    · simp only [probe_step_float, probe_step, h2, hfin]
      split_ifs
      · exact std_max_finite _ _
      · rfl
    · simp only [probe_step_float, probe_step, h3, hfin]
      split_ifs
      · rfl
      · rfl
    · simp only [probe_step_float, probe_step, h4]

/-- On a channel whose pixel values are finite the floating-point scan of a box gives the
results of the exact scan. -/
theorem area_probe_scan_float_finite (img : IvImage) (getpixel : Int → Int → Nat → FloatVal)
    (g : Int → Int → ℚ) (c : Nat)
    (hfin : ∀ x y, getpixel x y c = FloatVal.finite (g x y)) (xmin xmax ymin ymax : Int) :
    (area_probe_scan_float img getpixel xmin xmax ymin ymax).min_vals c
      = FloatVal.finite ((area_probe_scan { img with getpixel := fun x y _ => g x y }
          xmin xmax ymin ymax).min_vals c) ∧
    (area_probe_scan_float img getpixel xmin xmax ymin ymax).max_vals c
      = FloatVal.finite ((area_probe_scan { img with getpixel := fun x y _ => g x y }
          xmin xmax ymin ymax).max_vals c) ∧
    (area_probe_scan_float img getpixel xmin xmax ymin ymax).avg c
      = FloatVal.finite ((area_probe_scan { img with getpixel := fun x y _ => g x y }
          xmin xmax ymin ymax).avg c) ∧
    (area_probe_scan_float img getpixel xmin xmax ymin ymax).count
      = (area_probe_scan { img with getpixel := fun x y _ => g x y }
          xmin xmax ymin ymax).count := by
  obtain ⟨h1, h2, h3, h4⟩ := probe_fold_float_finite img getpixel g c hfin
    (raster xmin (xmax + 1) ymin (ymax + 1))
    { min_vals := fun _ => FloatVal.finite FLT_MAX
      max_vals := fun _ => FloatVal.finite (-FLT_MAX)
      sums := fun _ => FloatVal.finite 0, count := 0 }
    { min_vals := fun _ => FLT_MAX, max_vals := fun _ => -FLT_MAX, sums := fun _ => 0,
      count := 0 } rfl rfl rfl rfl
  simp only [area_probe_scan_float, area_probe_scan]
  refine ⟨h1, h2, ?_, h4⟩
  rw [h4, h3]
  split_ifs
  · rfl
  · rfl

/-- A pixel loop over NaN values leaves the minimum and the maximum of a channel at their
start values. -/
theorem probe_fold_float_nan (img : IvImage) (c : Nat) (l : List (Int × Int)) :
    ∀ (acc : ProbeAccF),
      (l.foldl (probe_step_float img nan_pixels) acc).min_vals c = acc.min_vals c ∧
      (l.foldl (probe_step_float img nan_pixels) acc).max_vals c = acc.max_vals c := by
  induction l with
  | nil => intro acc; exact ⟨rfl, rfl⟩
  | cons p l ih =>
    intro acc
    obtain ⟨h1, h2⟩ := ih (probe_step_float img nan_pixels acc p)
    simp only [List.foldl_cons]
    rw [h1, h2]
    simp only [probe_step_float, nan_pixels, std_min_nan, std_max_nan, ite_self, and_self]

/-- C10 as stated fails for an image with non-finite pixel values: when `getpixel` gives a
NaN for every pixel and channel (the same value everywhere), `update_area_probe_text`
reports for every selection `min = FLT_MAX` and `max = -FLT_MAX`, the start values of the
scan: they differ from each other and neither is the value of a pixel. -/
theorem C10_area_probe_statistics_counterexample :
    (∀ x y c, nan_pixels x y c = FloatVal.nan) ∧
    (∀ (v : View) (c : Nat),
      (update_area_probe_text_float v gray_image nan_pixels).min_vals c
        = FloatVal.finite FLT_MAX ∧
      (update_area_probe_text_float v gray_image nan_pixels).max_vals c
        = FloatVal.finite (-FLT_MAX)) ∧
    (update_area_probe_text_float example_view gray_image nan_pixels).min_vals 0
      ≠ (update_area_probe_text_float example_view gray_image nan_pixels).max_vals 0 ∧
    (update_area_probe_text_float example_view gray_image nan_pixels).min_vals 0
      ≠ FloatVal.nan := by
  have hall : ∀ (v : View) (c : Nat),
      (update_area_probe_text_float v gray_image nan_pixels).min_vals c
        = FloatVal.finite FLT_MAX ∧
      (update_area_probe_text_float v gray_image nan_pixels).max_vals c
        = FloatVal.finite (-FLT_MAX) := by
    intro v c
    simp only [update_area_probe_text_float, area_probe_scan_float]
    exact probe_fold_float_nan gray_image c _ _
  refine ⟨fun _ _ _ => rfl, hall, ?_, ?_⟩
  · rw [(hall example_view 0).1, (hall example_view 0).2]
    intro h
    have h2 := FloatVal.finite.inj h
    norm_num [FLT_MAX] at h2
  · rw [(hall example_view 0).1]
    exact fun h => FloatVal.noConfusion h

/-- C10 amended. Area probe statistics on finite pixel values: for every view, image and
selection, the box that `update_area_probe_text` scans is the bounding box of the two
selection corners (each taken to image pixels, oriented and clamped to the image), never
empty; for each channel whose `getpixel` values are finite (no NaN, no infinity) it
computes the minimum and the maximum of the `getpixel` values over every pixel of the box
(each attained in the box and bounding the box) and their arithmetic mean, sum / count
with `count = (xmax - xmin + 1) * (ymax - ymin + 1)`; in particular, if every pixel has
the same finite value `val` in the channel, then `min = max = avg = val`. -/
theorem C10_area_probe_statistics_amended (v : View) (img : IvImage)
    (getpixel : Int → Int → Nat → FloatVal) (g : Int → Int → ℚ) (c : Nat)
    (hc : c < img.nchannels)
    (hfin : ∀ x y, getpixel x y c = FloatVal.finite (g x y) ∧
      -FLT_MAX ≤ g x y ∧ g x y ≤ FLT_MAX)
    (r : AreaProbeF) (hr : r = update_area_probe_text_float v img getpixel) :
    (r.xmin
        = min
          (clamp (oriented_to_stored img.orientation img.spec_width img.spec_height
            (get_given_image_pixel v v.m_select_start.1 v.m_select_start.2)).1 0
            (img.spec_width - 1))
          (clamp (oriented_to_stored img.orientation img.spec_width img.spec_height
            (get_given_image_pixel v v.m_select_end.1 v.m_select_end.2)).1 0
            (img.spec_width - 1)) ∧
      r.xmax
        = max
          (clamp (oriented_to_stored img.orientation img.spec_width img.spec_height
            (get_given_image_pixel v v.m_select_start.1 v.m_select_start.2)).1 0
            (img.spec_width - 1))
          (clamp (oriented_to_stored img.orientation img.spec_width img.spec_height
            (get_given_image_pixel v v.m_select_end.1 v.m_select_end.2)).1 0
            (img.spec_width - 1)) ∧
      r.ymin
        = min
          (clamp (oriented_to_stored img.orientation img.spec_width img.spec_height
            (get_given_image_pixel v v.m_select_start.1 v.m_select_start.2)).2 0
            (img.spec_height - 1))
          (clamp (oriented_to_stored img.orientation img.spec_width img.spec_height
            (get_given_image_pixel v v.m_select_end.1 v.m_select_end.2)).2 0
            (img.spec_height - 1)) ∧
      r.ymax
        = max
          (clamp (oriented_to_stored img.orientation img.spec_width img.spec_height
            (get_given_image_pixel v v.m_select_start.1 v.m_select_start.2)).2 0
            (img.spec_height - 1))
          (clamp (oriented_to_stored img.orientation img.spec_width img.spec_height
            (get_given_image_pixel v v.m_select_end.1 v.m_select_end.2)).2 0
            (img.spec_height - 1))) ∧
    (r.xmin ≤ r.xmax ∧ r.ymin ≤ r.ymax) ∧
    (∃ x y, (r.xmin ≤ x ∧ x ≤ r.xmax) ∧ (r.ymin ≤ y ∧ y ≤ r.ymax) ∧
      r.min_vals c = FloatVal.finite (g (x + img.spec_x) (y + img.spec_y)) ∧
      ∀ x2 y2, (r.xmin ≤ x2 ∧ x2 ≤ r.xmax) → (r.ymin ≤ y2 ∧ y2 ≤ r.ymax) →
        g (x + img.spec_x) (y + img.spec_y) ≤ g (x2 + img.spec_x) (y2 + img.spec_y)) ∧
    (∃ x y, (r.xmin ≤ x ∧ x ≤ r.xmax) ∧ (r.ymin ≤ y ∧ y ≤ r.ymax) ∧
      r.max_vals c = FloatVal.finite (g (x + img.spec_x) (y + img.spec_y)) ∧
      ∀ x2 y2, (r.xmin ≤ x2 ∧ x2 ≤ r.xmax) → (r.ymin ≤ y2 ∧ y2 ≤ r.ymax) →
        g (x2 + img.spec_x) (y2 + img.spec_y) ≤ g (x + img.spec_x) (y + img.spec_y)) ∧
    r.count = (r.xmax - r.xmin + 1) * (r.ymax - r.ymin + 1) ∧
    r.avg c
      = FloatVal.finite
          ((∑ j in Finset.range (r.ymax + 1 - r.ymin).toNat,
            ∑ i in Finset.range (r.xmax + 1 - r.xmin).toNat,
              g (r.xmin + (i : Int) + img.spec_x) (r.ymin + (j : Int) + img.spec_y))
            / (((r.xmax - r.xmin + 1) * (r.ymax - r.ymin + 1) : Int) : ℚ)) ∧
    (∀ val, (∀ x y, g x y = val) →
      r.min_vals c = FloatVal.finite val ∧ r.max_vals c = FloatVal.finite val ∧
      r.avg c = FloatVal.finite val) := by
  subst hr
  obtain ⟨hbx, hby⟩ := area_probe_box_ordered v img
  have hbox := area_probe_box_eq v img
  have hspec := area_probe_scan_spec { img with getpixel := fun x y _ => g x y }
    (area_probe_box v img).1 (area_probe_box v img).2.1 (area_probe_box v img).2.2.1
    (area_probe_box v img).2.2.2 c hc hbx hby (fun x y => (hfin x y).2)
  obtain ⟨f1, f2, f3, f4⟩ := area_probe_scan_float_finite img getpixel g c
    (fun x y => (hfin x y).1) (area_probe_box v img).1 (area_probe_box v img).2.1
    (area_probe_box v img).2.2.1 (area_probe_box v img).2.2.2
  obtain ⟨⟨x1, y1, hx1, hy1, e1⟩, s2, ⟨x3, y3, hx3, hy3, e3⟩, s4, s5, s6, s7⟩ := hspec
  simp only at e1 s2 e3 s4 s6 s7
  have m1 : (update_area_probe_text_float v img getpixel).min_vals c
      = (area_probe_scan_float img getpixel (area_probe_box v img).1
          (area_probe_box v img).2.1 (area_probe_box v img).2.2.1
          (area_probe_box v img).2.2.2).min_vals c := rfl
  have m2 : (update_area_probe_text_float v img getpixel).max_vals c
      = (area_probe_scan_float img getpixel (area_probe_box v img).1
          (area_probe_box v img).2.1 (area_probe_box v img).2.2.1
          (area_probe_box v img).2.2.2).max_vals c := rfl
  have m3 : (update_area_probe_text_float v img getpixel).avg c
      = (area_probe_scan_float img getpixel (area_probe_box v img).1
          (area_probe_box v img).2.1 (area_probe_box v img).2.2.1
          (area_probe_box v img).2.2.2).avg c := rfl
  have m4 : (update_area_probe_text_float v img getpixel).count
      = (area_probe_scan_float img getpixel (area_probe_box v img).1
          (area_probe_box v img).2.1 (area_probe_box v img).2.2.1
          (area_probe_box v img).2.2.2).count := rfl
  have b1 : (update_area_probe_text_float v img getpixel).xmin = (area_probe_box v img).1 := rfl
  have b2 : (update_area_probe_text_float v img getpixel).xmax = (area_probe_box v img).2.1 :=
    rfl
  have b3 : (update_area_probe_text_float v img getpixel).ymin
      = (area_probe_box v img).2.2.1 := rfl
  have b4 : (update_area_probe_text_float v img getpixel).ymax
      = (area_probe_box v img).2.2.2 := rfl
  rw [m1, m2, m3, m4, b1, b2, b3, b4, f1, f2, f3, f4]
  refine ⟨⟨?_, ?_, ?_, ?_⟩, ⟨hbx, hby⟩, ?_, ?_, s5, ?_, ?_⟩
  · exact congrArg Prod.fst hbox
  · exact congrArg (fun t => t.2.1) hbox
  · exact congrArg (fun t => t.2.2.1) hbox
  · exact congrArg (fun t => t.2.2.2) hbox
  · refine ⟨x1, y1, hx1, hy1, by rw [← e1], ?_⟩
    intro x2 y2 h1 h2
    rw [e1]
    exact s2 x2 y2 h1 h2
  · refine ⟨x3, y3, hx3, hy3, by rw [← e3], ?_⟩
    intro x2 y2 h1 h2
    rw [e3]
    exact s4 x2 y2 h1 h2
  · rw [s6]
  · intro val hval
    obtain ⟨u1, u2, u3⟩ := s7 val (fun x y => hval x y)
    rw [u1, u2, u3]
    exact ⟨rfl, rfl, rfl⟩

theorem C10_area_probe_statistics_amended_witness :
    (0 < gray_image.nchannels ∧
      ∀ x y, gray_pixels x y 0 = FloatVal.finite ((fun _ _ => (128 / 255 : ℚ)) x y) ∧
        -FLT_MAX ≤ (fun _ _ => (128 / 255 : ℚ)) x y ∧
        (fun _ _ => (128 / 255 : ℚ)) x y ≤ FLT_MAX) ∧
    ((update_area_probe_text_float example_view gray_image gray_pixels).min_vals 0
        = FloatVal.finite (128 / 255) ∧
      (update_area_probe_text_float example_view gray_image gray_pixels).max_vals 0
        = FloatVal.finite (128 / 255) ∧
      (update_area_probe_text_float example_view gray_image gray_pixels).avg 0
        = FloatVal.finite (128 / 255)) :=
  ⟨⟨by decide, fun _ _ => ⟨rfl, by norm_num [FLT_MAX], by norm_num [FLT_MAX]⟩⟩,
   (C10_area_probe_statistics_amended example_view gray_image gray_pixels
      (fun _ _ => (128 / 255 : ℚ)) 0 (by decide)
      (fun _ _ => ⟨rfl, by norm_num [FLT_MAX], by norm_num [FLT_MAX]⟩) _ rfl).2.2.2.2.2.2
      (128 / 255) (fun _ _ => rfl)⟩

end IvGL
